import Mathlib

/-!
# Weather subscription service: subscription lifecycle

A shallow embedding of the subscription lifecycle of the weather API
(`models/models.go`, `repository/repository.go`, `service/service.go`), of its HTTP
handlers (`api/server.go`) and of the weather provider client.

* The PostgreSQL database behind gorm is a pair of tables, each a list of rows in
  primary-key order.  Rows carry gorm's soft-delete column `DeletedAt`; gorm adds
  `deleted_at IS NULL` to every query, update and delete of such a model, and `Delete`
  sets the column instead of removing the row.
* Go `error` values are represented by their message; `nil` is `none`.
* Everything outside the process (clock, uuid generator, store faults, weather
  provider, SMTP) is an explicit environment `Env`, so every operation is a function of
  the environment and the stored state.
* An operation returns a `Result`: the returned error, the committed database, and the
  notifier calls it made, in order.
* A handler is a function of its request and of the service behind its interface; it
  returns a `Handled`: the response written and the service calls made.
-/

set_option autoImplicit false
set_option linter.dupNamespace false

namespace WeatherApi

/-- Go `error`, by message. -/
abbrev Error := String

/-- Go `time.Time` as nanoseconds since the epoch, `time.Duration` as nanoseconds. -/
abbrev Time := Nat

/-- The constant `time.Hour`, in nanoseconds. -/
def Hour : Nat := 3600 * 1000000000

namespace gorm

/-- The sentinel `gorm.ErrRecordNotFound`. -/
def ErrRecordNotFound : Error := "record not found"

/-- Largest primary key in use (0 for an empty table). -/
def maxID : List Nat → Nat
  | [] => 0
  | x :: xs => max x (maxID xs)

/-- Primary key the database assigns to the next inserted row: rows are never removed
physically, so one more than the largest key in use is fresh. -/
def nextID (ids : List Nat) : Nat := maxID ids + 1

/-- Outcome of a single-row query: the row, no row (gorm then reports the sentinel
`ErrRecordNotFound`), or the error of a failed database call, which is never that
sentinel. -/
inductive Query (α : Type) where
  | found (row : α)
  | notFound
  | failed (e : Error)

/-- The `result.Error` and row of a query, as returned by callers that pass the error on. -/
def Query.toExcept {α : Type} : Query α → Except Error α
  | .found r => .ok r
  | .notFound => .error ErrRecordNotFound
  | .failed e => .error e

/-- The query `db.Where(cond).First(&row)`: the first row (in primary-key order) that
satisfies the condition. -/
def First {α : Type} (fault : Option Error) (rows : List α) (cond : α → Bool) : Query α :=
  match fault with
  | some e => .failed e
  | none =>
    match rows.find? cond with
    | some r => .found r
    | none => .notFound

end gorm

namespace models

/-- The struct `models.Subscription`. -/
structure Subscription where
  ID : Nat
  Email : String
  City : String
  Frequency : String
  Confirmed : Bool
  CreatedAt : Time
  UpdatedAt : Time
  DeletedAt : Option Time
  deriving DecidableEq, Repr

/-- The struct `models.Token`; `TokenType` is the Go field `Type`. -/
structure Token where
  ID : Nat
  Token : String
  SubscriptionID : Nat
  TokenType : String
  ExpiresAt : Time
  CreatedAt : Time
  DeletedAt : Option Time
  deriving DecidableEq, Repr

/-- The struct `models.WeatherResponse`.  The float64 readings are only carried from the
provider to the email, never computed with; they are represented by rationals. -/
structure WeatherResponse where
  Temperature : Rat
  Humidity : Rat
  Description : String
  deriving DecidableEq, Repr

/-- The struct `models.SubscriptionRequest`. -/
structure SubscriptionRequest where
  Email : String
  City : String
  Frequency : String
  deriving DecidableEq, Repr

/-- A row that is not soft-deleted. -/
def Subscription.live (s : Subscription) : Bool := s.DeletedAt.isNone

/-- A token row that is not soft-deleted. -/
def Token.live (t : models.Token) : Bool := t.DeletedAt.isNone

end models

open models

/-- The two tables. -/
structure DB where
  subscriptions : List Subscription
  tokens : List Token
  deriving DecidableEq, Repr

/-- The database calls made by the service, as keys of the fault oracle.  `Begin n` and
`Commit n` are the begin and commit of the n-th transaction of an operation. -/
inductive StoreCall where
  | FindByEmail
  | FindByID
  | GetSubscriptionsForUpdates
  | FindByToken (tokenStr : String)
  | CreateToken (subscriptionID : Nat)
  | Begin (n : Nat)
  | Commit (n : Nat)
  | Save
  | Create
  | First
  | DeleteSubscription
  | DeleteToken
  | DeleteExpiredTokens
  deriving DecidableEq, Repr

/-- A call of one of the four methods of `EmailServiceInterface`, with its arguments. -/
inductive Mail where
  | SendConfirmationEmail (email confirmURL city : String)
  | SendWelcomeEmail (email city frequency unsubscribeURL : String)
  | SendUnsubscribeConfirmationEmail (email city : String)
  | SendWeatherUpdateEmail (email city : String) (weather : WeatherResponse)
      (unsubscribeURL : String)
  deriving DecidableEq, Repr

/-- Everything an operation reads from outside the process.
* `now`: the reading of `time.Now()` during the operation;
* `uuid n`: the string `uuid.New().String()` drawn for the token row that gets key `n`;
* `fault c`: the error of database call `c` when the database fails it (connection lost,
  conflict, ...), `none` when the call goes through;
* `GetWeather`: the weather lookup, by city, for the calls that return (a reading or an
  error); a lookup that panics is covered by `sendEach` and `SendWeatherUpdateCall`;
* `send`: the notifier, `none` when the email is accepted;
* `AppBaseURL`: the configured base URL. -/
structure Env where
  now : Time
  uuid : Nat → String
  fault : StoreCall → Option Error
  GetWeather : String → Except Error WeatherResponse
  send : Mail → Option Error
  AppBaseURL : String

/-- The same environment with another notifier. -/
def Env.withSend (env : Env) (send : Mail → Option Error) : Env :=
  { env with send := send }

/-- What an operation leaves behind: the error it returns (`none` for `nil`), the
committed database, and the notifier calls it made. -/
structure Result where
  err : Option Error
  db : DB
  mails : List Mail
  deriving DecidableEq, Repr

namespace gorm

/-- The call `tx.Save(subscription)` for a row read from the table: gorm stamps `UpdatedAt`
and runs `UPDATE subscriptions SET <all columns> WHERE id = ? AND deleted_at IS NULL`. -/
def SaveSubscription (fault : Option Error) (now : Time) (db : DB) (s : Subscription) :
    Except Error (Subscription × DB) :=
  match fault with
  | some e => .error e
  | none =>
    let s1 := { s with UpdatedAt := now }
    .ok (s1, { db with subscriptions :=
      db.subscriptions.map fun r => if r.ID = s.ID ∧ r.live = true then s1 else r })

/-- The call `tx.Create(subscription)` for a struct without primary key: the database
assigns the key, gorm stamps `CreatedAt` and `UpdatedAt`, the row is appended. -/
def CreateSubscription (fault : Option Error) (now : Time) (db : DB) (s : Subscription) :
    Except Error (Subscription × DB) :=
  match fault with
  | some e => .error e
  | none =>
    let s1 := { s with ID := nextID (db.subscriptions.map (·.ID)),
                       CreatedAt := now, UpdatedAt := now }
    .ok (s1, { db with subscriptions := db.subscriptions ++ [s1] })

/-- The call `tx.Delete(subscription)`: a soft delete,
`UPDATE subscriptions SET deleted_at = now WHERE id = ? AND deleted_at IS NULL`. -/
def DeleteSubscription (fault : Option Error) (now : Time) (db : DB) (s : Subscription) :
    Except Error DB :=
  match fault with
  | some e => .error e
  | none =>
    .ok { db with subscriptions :=
      db.subscriptions.map fun r =>
        if r.ID = s.ID ∧ r.live = true then { r with DeletedAt := some now } else r }

/-- The call `tx.Delete(token)`: a soft delete,
`UPDATE tokens SET deleted_at = now WHERE id = ? AND deleted_at IS NULL`. -/
def DeleteToken (fault : Option Error) (now : Time) (db : DB) (t : Token) :
    Except Error DB :=
  match fault with
  | some e => .error e
  | none =>
    .ok { db with tokens :=
      db.tokens.map fun r =>
        if r.ID = t.ID ∧ r.live = true then { r with DeletedAt := some now } else r }

end gorm

namespace SubscriptionRepository

/-- `SubscriptionRepository.FindByEmail`: the live row for (email, city), `nil, nil` when
the query reports `ErrRecordNotFound`, the error otherwise. -/
def FindByEmail (env : Env) (db : DB) (email city : String) :
    Except Error (Option Subscription) :=
  match gorm.First (env.fault .FindByEmail) db.subscriptions
      (fun s => s.live && s.Email == email && s.City == city) with
  | .found s => .ok (some s)
  | .notFound => .ok none
  | .failed e => .error e

/-- `SubscriptionRepository.FindByID`: the live row with the key, or the query's error. -/
def FindByID (env : Env) (db : DB) (id : Nat) : Except Error Subscription :=
  (gorm.First (env.fault .FindByID) db.subscriptions (fun s => s.live && s.ID == id)).toExcept

/-- `SubscriptionRepository.GetSubscriptionsForUpdates`: the live, confirmed rows of the
frequency, or the query's error. -/
def GetSubscriptionsForUpdates (env : Env) (db : DB) (frequency : String) :
    Except Error (List Subscription) :=
  match env.fault .GetSubscriptionsForUpdates with
  | some e => .error e
  | none =>
    .ok (db.subscriptions.filter fun s => s.live && s.Frequency == frequency && s.Confirmed)

end SubscriptionRepository

namespace TokenRepository

/-- `TokenRepository.CreateToken`: a row with a fresh uuid string and expiry
`time.Now().Add(expiresIn)`, inserted by `r.db.Create` (the repository's own handle, so
the insert is committed on its own).  The insert fails when the database fails it or
when the string is already in the table (`uniqueIndex` on `token`). -/
def CreateToken (env : Env) (db : DB) (subscriptionID : Nat) (tokenType : String)
    (expiresIn : Nat) : Except Error (Token × DB) :=
  let id := gorm.nextID (db.tokens.map (·.ID))
  let token : Token :=
    { ID := id, Token := env.uuid id, SubscriptionID := subscriptionID,
      TokenType := tokenType, ExpiresAt := env.now + expiresIn,
      CreatedAt := env.now, DeletedAt := none }
  match env.fault (.CreateToken subscriptionID) with
  | some e => .error e
  | none =>
    if db.tokens.any (fun r => r.Token == token.Token) then
      .error "duplicate key value violates unique constraint"
    else .ok (token, { db with tokens := db.tokens ++ [token] })

/-- `TokenRepository.FindByToken`: the live row with the string and
`expires_at > time.Now()`, or the query's error (`ErrRecordNotFound` included). -/
def FindByToken (env : Env) (db : DB) (tokenStr : String) : Except Error Token :=
  (gorm.First (env.fault (.FindByToken tokenStr)) db.tokens
    (fun t => t.live && t.Token == tokenStr && decide (t.ExpiresAt > env.now))).toExcept

/-- What `DeleteExpiredTokens` leaves behind: the returned error, the `RowsAffected` of
the delete statement (which the function prints), and the database. -/
structure SweepResult where
  err : Option Error
  rowsAffected : Nat
  db : DB
  deriving DecidableEq, Repr

/-- `TokenRepository.DeleteExpiredTokens`: `Where("expires_at < ?", time.Now()).Delete`,
a soft delete of the undeleted rows with `expires_at < now`; on a database error nothing
is deleted and no count is printed. -/
def DeleteExpiredTokens (env : Env) (db : DB) : SweepResult :=
  match env.fault .DeleteExpiredTokens with
  | some e => ⟨some e, 0, db⟩
  | none =>
    ⟨none,
     (db.tokens.filter fun t => t.live && decide (t.ExpiresAt < env.now)).length,
     { db with tokens :=
        db.tokens.map fun t =>
          if t.live = true ∧ t.ExpiresAt < env.now then { t with DeletedAt := some env.now }
          else t }⟩

end TokenRepository

namespace SubscriptionService

/-- The write of the first transaction of `Subscribe`: `tx1.Save` of the existing row
with the requested frequency, or `tx1.Create` of a new unconfirmed row. -/
def writeSubscription (env : Env) (db : DB) (req : SubscriptionRequest)
    (existing : Option Subscription) : Except Error (Subscription × DB) :=
  match existing with
  | some ex =>
    gorm.SaveSubscription (env.fault .Save) env.now db { ex with Frequency := req.Frequency }
  | none =>
    gorm.CreateSubscription (env.fault .Create) env.now db
      { ID := 0, Email := req.Email, City := req.City, Frequency := req.Frequency,
        Confirmed := false, CreatedAt := 0, UpdatedAt := 0, DeletedAt := none }

/-- `SubscriptionService.Subscribe`.  The first transaction holds the single write on
the subscription row, so its commit publishes `db1` and a rollback or failed commit
leaves `db`.  The second transaction has no statement of its own: the re-read
`s.db.First` and `tokenRepo.CreateToken` both go through the plain handle, so the token
row is committed by the insert itself. -/
def Subscribe (env : Env) (db : DB) (req : SubscriptionRequest) : Result :=
  match SubscriptionRepository.FindByEmail env db req.Email req.City with
  | .error e => ⟨some e, db, []⟩
  | .ok existing =>
    if existing.any (·.Confirmed) then ⟨some "email already subscribed", db, []⟩
    else
    match env.fault (.Begin 1) with
    | some e => ⟨some e, db, []⟩
    | none =>
    match writeSubscription env db req existing with
    | .error e => ⟨some e, db, []⟩
    | .ok (subscription, db1) =>
    match env.fault (.Commit 1) with
    | some e => ⟨some e, db, []⟩
    | none =>
    match env.fault (.Begin 2) with
    | some e => ⟨some e, db1, []⟩
    | none =>
    match (gorm.First (env.fault .First) db1.subscriptions
        (fun s => s.live && s.ID == subscription.ID)).toExcept with
    | .error e => ⟨some e, db1, []⟩
    | .ok refreshedSubscription =>
    match TokenRepository.CreateToken env db1 refreshedSubscription.ID "confirmation"
        (24 * Hour) with
    | .error e => ⟨some e, db1, []⟩
    | .ok (token, db2) =>
    match env.fault (.Commit 2) with
    | some e => ⟨some e, db2, []⟩
    | none =>
    let confirmURL := env.AppBaseURL ++ "/api/confirm/" ++ token.Token
    let mail := Mail.SendConfirmationEmail refreshedSubscription.Email confirmURL
      refreshedSubscription.City
    match env.send mail with
    | some e => ⟨some ("failed to send confirmation email: " ++ e), db2, [mail]⟩
    | none => ⟨none, db2, [mail]⟩

/-- `SubscriptionService.ConfirmSubscription`.  `tx.Save` and `tx.Delete` are statements
of the transaction; `FindByID` and `CreateToken` go through the repositories' own
handle, so they read the committed rows and the new token row is committed by the insert
itself.  The commit publishes the transaction's two row updates next to that row; a
rollback or failed commit drops the two updates only.  The error of `SendWelcomeEmail`
is logged and dropped. -/
def ConfirmSubscription (env : Env) (db : DB) (tokenStr : String) : Result :=
  match TokenRepository.FindByToken env db tokenStr with
  | .error e => ⟨some e, db, []⟩
  | .ok token =>
    if token.TokenType ≠ "confirmation" then ⟨some "invalid token type", db, []⟩
    else
    match env.fault (.Begin 1) with
    | some e => ⟨some e, db, []⟩
    | none =>
    match SubscriptionRepository.FindByID env db token.SubscriptionID with
    | .error e => ⟨some e, db, []⟩
    | .ok found =>
    match gorm.SaveSubscription (env.fault .Save) env.now db { found with Confirmed := true } with
    | .error e => ⟨some e, db, []⟩
    | .ok (subscription, tx1) =>
    match gorm.DeleteToken (env.fault .DeleteToken) env.now tx1 token with
    | .error e => ⟨some e, db, []⟩
    | .ok tx2 =>
    match TokenRepository.CreateToken env db subscription.ID "unsubscribe"
        (365 * 24 * Hour) with
    | .error e => ⟨some e, db, []⟩
    | .ok (unsubscribeToken, db1) =>
    match env.fault (.Commit 1) with
    | some e => ⟨some e, db1, []⟩
    | none =>
    let db2 : DB := { subscriptions := tx2.subscriptions,
                      tokens := tx2.tokens ++ [unsubscribeToken] }
    let unsubscribeURL := env.AppBaseURL ++ "/api/unsubscribe/" ++ unsubscribeToken.Token
    let mail := Mail.SendWelcomeEmail subscription.Email subscription.City
      subscription.Frequency unsubscribeURL
    match env.send mail with
    | some _ => ⟨none, db2, [mail]⟩
    | none => ⟨none, db2, [mail]⟩

/-- `SubscriptionService.Unsubscribe`: both deletes are statements of the one
transaction; the error of the notifier is logged and dropped. -/
def Unsubscribe (env : Env) (db : DB) (tokenStr : String) : Result :=
  match TokenRepository.FindByToken env db tokenStr with
  | .error e => ⟨some e, db, []⟩
  | .ok token =>
    if token.TokenType ≠ "unsubscribe" then ⟨some "invalid token type", db, []⟩
    else
    match env.fault (.Begin 1) with
    | some e => ⟨some e, db, []⟩
    | none =>
    match SubscriptionRepository.FindByID env db token.SubscriptionID with
    | .error e => ⟨some e, db, []⟩
    | .ok subscription =>
    match gorm.DeleteSubscription (env.fault .DeleteSubscription) env.now db subscription with
    | .error e => ⟨some e, db, []⟩
    | .ok tx1 =>
    match gorm.DeleteToken (env.fault .DeleteToken) env.now tx1 token with
    | .error e => ⟨some e, db, []⟩
    | .ok tx2 =>
    match env.fault (.Commit 1) with
    | some e => ⟨some e, db, []⟩
    | none =>
    let mail := Mail.SendUnsubscribeConfirmationEmail subscription.Email subscription.City
    match env.send mail with
    | some _ => ⟨none, tx2, [mail]⟩
    | none => ⟨none, tx2, [mail]⟩

/-- One turn of the loop of `SendWeatherUpdate`, on the database and the notifier calls
so far: `continue` after a failed weather lookup or a failed token creation; the token
is looked up by the decimal subscription id and created when that lookup fails; the
notifier is called and its error dropped. -/
def sendOne (env : Env) (acc : DB × List Mail) (subscription : Subscription) :
    DB × List Mail :=
  match env.GetWeather subscription.City with
  | .error _ => acc
  | .ok weather =>
    let found : Except Error (Token × DB) :=
      match TokenRepository.FindByToken env acc.1 (toString subscription.ID) with
      | .ok token => .ok (token, acc.1)
      | .error _ =>
        TokenRepository.CreateToken env acc.1 subscription.ID "unsubscribe" (365 * 24 * Hour)
    match found with
    | .error _ => acc
    | .ok (token, db1) =>
      let unsubscribeURL := env.AppBaseURL ++ "/api/unsubscribe/" ++ token.Token
      let mail := Mail.SendWeatherUpdateEmail subscription.Email subscription.City
        weather unsubscribeURL
      match env.send mail with
      | some _ => (db1, acc.2 ++ [mail])
      | none => (db1, acc.2 ++ [mail])

/-- `SubscriptionService.SendWeatherUpdate`. -/
def SendWeatherUpdate (env : Env) (db : DB) (frequency : String) : Result :=
  match SubscriptionRepository.GetSubscriptionsForUpdates env db frequency with
  | .error e => ⟨some e, db, []⟩
  | .ok subscriptions =>
    let r := subscriptions.foldl (sendOne env) (db, [])
    ⟨none, r.1, r.2⟩

end SubscriptionService

/-! ## HTTP layer (`api/server.go`) -/

namespace strings

/-- The function `strings.Contains`: the second string occurs in the first. -/
def Contains (s substr : String) : Bool := decide (substr.data <:+: s.data)

end strings

/-- The JSON document a handler writes: a `models.ErrorResponse`, a `gin.H` with the one
key "message", or a `models.WeatherResponse`. -/
inductive Body where
  | ErrorResponse (Error : String)
  | message (text : String)
  | weather (w : WeatherResponse)
  deriving DecidableEq, Repr

/-- Status code and document of `c.JSON`. -/
structure Response where
  status : Nat
  body : Body
  deriving DecidableEq, Repr

/-- What a handler does: its response, and the calls it made to the service behind its
interface, with their argument, in order. -/
structure Handled (α : Type) where
  response : Response
  calls : List α

namespace binding

/-- The message of one field error of the validator. -/
def fieldError (field tag : String) : Error :=
  "Key: 'SubscriptionRequest." ++ field ++ "' Error:Field validation for '" ++ field
    ++ "' failed on the '" ++ tag ++ "' tag"

/-- The validation that `c.ShouldBind` runs on the decoded struct, from the `binding`
tags of `models.SubscriptionRequest`: `required,email` on Email, `required` on City,
`required,oneof=hourly daily` on Frequency.  `required` rejects the empty string, the
first failing tag of a field is reported, and the fields are checked in order.  The
validator's test of the `email` tag is the parameter `isEmail`. -/
def validate (isEmail : String → Bool) (req : SubscriptionRequest) : List Error :=
  (if req.Email = "" then [fieldError "Email" "required"]
   else if isEmail req.Email then [] else [fieldError "Email" "email"])
  ++ (if req.City = "" then [fieldError "City" "required"] else [])
  ++ (if req.Frequency = "" then [fieldError "Frequency" "required"]
      else if req.Frequency = "hourly" ∨ req.Frequency = "daily" then []
      else [fieldError "Frequency" "oneof"])

/-- The call `c.ShouldBind(&req)`: `decoded` is the struct gin fills from the body (a
field the body does not have stays empty) or the error of a body it cannot decode; the
validation errors are joined line by line. -/
def ShouldBind (isEmail : String → Bool) (decoded : Except Error SubscriptionRequest) :
    Except Error SubscriptionRequest :=
  match decoded with
  | .error e => .error e
  | .ok req =>
    match validate isEmail req with
    | [] => .ok req
    | e :: es => .error ("\n".intercalate (e :: es))

end binding

namespace Server

/-- `Server.getWeather`, on the `city` query parameter and the weather service. -/
def getWeather (city : String) (GetWeather : String → Except Error WeatherResponse) :
    Handled String :=
  if city = "" then ⟨⟨400, .ErrorResponse "city is required"⟩, []⟩
  else
    match GetWeather city with
    | .error err =>
      if err = "city not found" then ⟨⟨404, .ErrorResponse "city not found"⟩, [city]⟩
      else ⟨⟨500, .ErrorResponse "failed to get weather data"⟩, [city]⟩
    | .ok weather => ⟨⟨200, .weather weather⟩, [city]⟩

/-- `Server.subscribe`, on the decoded body and the subscription service. -/
def subscribe (isEmail : String → Bool) (decoded : Except Error SubscriptionRequest)
    (Subscribe : SubscriptionRequest → Option Error) : Handled SubscriptionRequest :=
  match binding.ShouldBind isEmail decoded with
  | .error err => ⟨⟨400, .ErrorResponse err⟩, []⟩
  | .ok req =>
    match Subscribe req with
    | some err =>
      if err = "email already subscribed" then
        ⟨⟨409, .ErrorResponse "email already subscribed"⟩, [req]⟩
      else if err = "failed to send confirmation email: failed to send email: 426 Upgrade Required"
          ∨ strings.Contains err "failed to send confirmation email" = true then
        ⟨⟨503, .ErrorResponse "unable to send confirmation email"⟩, [req]⟩
      else ⟨⟨500, .ErrorResponse "failed to create subscription"⟩, [req]⟩
    | none => ⟨⟨200, .message "Subscription successful. Confirmation email sent."⟩, [req]⟩

/-- `Server.confirmSubscription`, on the `token` path parameter and the service. -/
def confirmSubscription (token : String) (ConfirmSubscription : String → Option Error) :
    Handled String :=
  if token = "" then ⟨⟨400, .ErrorResponse "token is required"⟩, []⟩
  else
    match ConfirmSubscription token with
    | some err =>
      if err = "record not found" then ⟨⟨404, .ErrorResponse "token not found"⟩, [token]⟩
      else if err = "invalid token type" then
        ⟨⟨400, .ErrorResponse "invalid token"⟩, [token]⟩
      else ⟨⟨500, .ErrorResponse "failed to confirm subscription"⟩, [token]⟩
    | none => ⟨⟨200, .message "Subscription confirmed successfully"⟩, [token]⟩

/-- `Server.unsubscribe`, on the `token` path parameter and the service. -/
def unsubscribe (token : String) (Unsubscribe : String → Option Error) : Handled String :=
  if token = "" then ⟨⟨400, .ErrorResponse "token is required"⟩, []⟩
  else
    match Unsubscribe token with
    | some err =>
      if err = "record not found" then ⟨⟨404, .ErrorResponse "token not found"⟩, [token]⟩
      else if err = "invalid token type" then
        ⟨⟨400, .ErrorResponse "invalid token"⟩, [token]⟩
      else ⟨⟨500, .ErrorResponse "failed to unsubscribe"⟩, [token]⟩
    | none => ⟨⟨200, .message "Unsubscribed successfully"⟩, [token]⟩

end Server

/-! ## Weather provider client (`WeatherService.GetWeather`) -/

/-- A JSON value as `encoding/json` decodes it into `interface{}`: a number is the
float64 it decodes to, an object keeps its members in document order. -/
inductive JSON where
  | null
  | bool (b : Bool)
  | number (x : Rat)
  | string (s : String)
  | array (items : List JSON)
  | object (members : List (String × JSON))

/-- The value of a key in a decoded object, `none` for the `nil` of a missing key; of a
repeated key the decoder keeps the last value. -/
def JSON.get (members : List (String × JSON)) (key : String) : Option JSON :=
  members.reverse.lookup key

/-- The provider's answer as the client sees it: the status code, and the first JSON
value of the body or the error of reading it. -/
structure HTTPResponse where
  StatusCode : Nat
  Body : Except Error JSON

/-- How a Go call ends: with a result, with an error, or in a run-time panic. -/
inductive Outcome (α : Type) where
  | ok (result : α)
  | error (err : Error)
  | panic
  deriving DecidableEq, Repr

namespace WeatherService

/-- The message of the `json.UnmarshalTypeError` for a value of the given kind decoded
into a `map[string]interface{}`. -/
def unmarshalTypeError (kind : String) : Error :=
  "json: cannot unmarshal " ++ kind ++ " into Go value of type map[string]interface \x7b\x7d"

/-- `Decode(&result)` with `result` a `map[string]interface{}`: an object gives its map,
`null` leaves the map `nil`, any other value is a type error. -/
def decodeMap (body : Except Error JSON) : Except Error (List (String × JSON)) :=
  match body with
  | .error e => .error e
  | .ok (.object members) => .ok members
  | .ok .null => .ok []
  | .ok (.bool _) => .error (unmarshalTypeError "bool")
  | .ok (.number _) => .error (unmarshalTypeError "number")
  | .ok (.string _) => .error (unmarshalTypeError "string")
  | .ok (.array _) => .error (unmarshalTypeError "array")

/-- The checked assertion `v.(map[string]interface{})` on the value of a key. -/
def asObject (v : Option JSON) : Option (List (String × JSON)) :=
  match v with
  | some (.object members) => some members
  | _ => none

/-- `WeatherService.GetWeather`, on the outcome of `s.client.Get(url)`.  The three
assertions `.(float64)`, `.(float64)` and `.(string)` in the struct literal are
unchecked: a missing key or a value of another type panics. -/
def GetWeather (resp : Except Error HTTPResponse) : Outcome WeatherResponse :=
  match resp with
  | .error err => .error ("failed to get weather data: " ++ err)
  | .ok resp =>
    if resp.StatusCode = 404 then .error "city not found"
    else if resp.StatusCode ≠ 200 then
      .error ("weather API returned status code " ++ toString resp.StatusCode)
    else
      match decodeMap resp.Body with
      | .error err => .error ("failed to decode weather data: " ++ err)
      | .ok result =>
        match asObject (JSON.get result "current") with
        | none => .error "invalid weather data format"
        | some current =>
          match asObject (JSON.get current "condition") with
          | none => .error "invalid weather data format"
          | some weatherCondition =>
            match JSON.get current "temp_c" with
            | some (.number temperature) =>
              match JSON.get current "humidity" with
              | some (.number humidity) =>
                match JSON.get weatherCondition "text" with
                | some (.string description) =>
                  .ok { Temperature := temperature, Humidity := humidity,
                        Description := description }
                | _ => .panic
              | _ => .panic
            | _ => .panic

end WeatherService

/-! ## The broadcast with a weather lookup that can panic -/

/-- A call that returns `(value, err)` seen as an `Outcome`: it did not panic. -/
def Outcome.ofExcept {α : Type} : Except Error α → Outcome α
  | .ok a => .ok a
  | .error e => .error e

/-- How a call of `SendWeatherUpdate` ends: it returns, or a panic of the weather lookup
unwinds it (`SendWeatherUpdate` has no `recover`, so the panic reaches the caller);
`panicked` carries the rows committed and the notifier calls made before the panic. -/
inductive Ending where
  | returned (r : Result)
  | panicked (db : DB) (mails : List Mail)
  deriving DecidableEq, Repr

namespace SubscriptionService

/-- The loop of `SendWeatherUpdate` over the listed subscriptions, with the call
`s.weatherService.GetWeather(subscription.City)` as it can end: with a reading, with an
error (`continue`), or in a panic, which ends the loop and the call.  The rest of a turn
is that of `sendOne`; after the last turn the function returns `nil`. -/
def sendEach (env : Env) (GetWeather : String → Outcome WeatherResponse) :
    DB × List Mail → List Subscription → Ending
  | acc, [] => .returned ⟨none, acc.1, acc.2⟩
  | acc, subscription :: rest =>
    match GetWeather subscription.City with
    | .panic => .panicked acc.1 acc.2
    | .error _ => sendEach env GetWeather acc rest
    | .ok weather =>
      let found : Except Error (Token × DB) :=
        match TokenRepository.FindByToken env acc.1 (toString subscription.ID) with
        | .ok token => .ok (token, acc.1)
        | .error _ =>
          TokenRepository.CreateToken env acc.1 subscription.ID "unsubscribe" (365 * 24 * Hour)
      match found with
      | .error _ => sendEach env GetWeather acc rest
      | .ok (token, db1) =>
        let unsubscribeURL := env.AppBaseURL ++ "/api/unsubscribe/" ++ token.Token
        let mail := Mail.SendWeatherUpdateEmail subscription.Email subscription.City
          weather unsubscribeURL
        match env.send mail with
        | some _ => sendEach env GetWeather (db1, acc.2 ++ [mail]) rest
        | none => sendEach env GetWeather (db1, acc.2 ++ [mail]) rest

/-- `SubscriptionService.SendWeatherUpdate` with a weather lookup that can panic: the
error of the listing is returned, otherwise the loop runs. -/
def SendWeatherUpdateCall (env : Env) (GetWeather : String → Outcome WeatherResponse)
    (db : DB) (frequency : String) : Ending :=
  match SubscriptionRepository.GetSubscriptionsForUpdates env db frequency with
  | .error e => .returned ⟨some e, db, []⟩
  | .ok subscriptions => sendEach env GetWeather (db, []) subscriptions

end SubscriptionService

/-! ## Email headers (`EmailService.sendEmail`) -/

namespace strings

/-- The scan of `strings.ReplaceAll` for a non-empty `old`, on the characters: the
occurrences of `old` are found from the left without overlap and replaced by `new`;
`skip` counts the characters of a found occurrence that are still to be passed over. -/
def replaceFrom (old new : List Char) : Nat → List Char → List Char
  | _, [] => []
  | skip + 1, _ :: cs => replaceFrom old new skip cs
  | 0, c :: cs =>
    if old.isPrefixOf (c :: cs) then new ++ replaceFrom old new (old.length - 1) cs
    else c :: replaceFrom old new 0 cs

/-- The function `strings.ReplaceAll(s, old, new)` for a non-empty `old`. -/
def ReplaceAll (s old new : String) : String :=
  ⟨replaceFrom old.data new.data 0 s.data⟩

end strings

namespace EmailService

/-- The subject that `sendEmail` formats into the `Subject:` header: the argument after
`ReplaceAll(subject, "\r\n", "")` and `ReplaceAll(subject, "\n", "")`. -/
def headerSubject (subject : String) : String :=
  strings.ReplaceAll (strings.ReplaceAll subject "\r\n" "") "\n" ""

end EmailService

/-! ## Sequences of operations -/

/-- A call of one of the five operations on the store, with its argument. -/
inductive Op where
  | Subscribe (req : SubscriptionRequest)
  | ConfirmSubscription (tokenStr : String)
  | Unsubscribe (tokenStr : String)
  | SendWeatherUpdate (frequency : String)
  | DeleteExpiredTokens

/-- The database an operation leaves behind, whether it returns an error or not. -/
def Op.run (env : Env) (db : DB) : Op → DB
  | .Subscribe req => (SubscriptionService.Subscribe env db req).db
  | .ConfirmSubscription tokenStr => (SubscriptionService.ConfirmSubscription env db tokenStr).db
  | .Unsubscribe tokenStr => (SubscriptionService.Unsubscribe env db tokenStr).db
  | .SendWeatherUpdate frequency => (SubscriptionService.SendWeatherUpdate env db frequency).db
  | .DeleteExpiredTokens => (TokenRepository.DeleteExpiredTokens env db).db

/-- `Steps P a b`: the database `b` results from `a` by operations executed one after
the other, each in an environment that satisfies `P`. -/
inductive Steps (P : Env → Prop) : DB → DB → Prop where
  | refl (db : DB) : Steps P db db
  | step {a b : DB} (env : Env) (op : Op) : Steps P a b → P env → Steps P a (op.run env b)

/-- The states reachable from the empty store. -/
def Reachable (P : Env → Prop) (db : DB) : Prop := Steps P ⟨[], []⟩ db

/-- An environment in which the database fails no call. -/
def NoFaults (env : Env) : Prop := ∀ c, env.fault c = none

/-- The ways the statements of the service change the subscription table: not at all;
the `Save` of an unconfirmed live row with another frequency; the `Create` of an
unconfirmed row for a pair that has no live row; the `Save` of a live row with
`Confirmed = true`; the soft delete of the live rows of an id. -/
inductive SubsStep : List Subscription → List Subscription → Prop where
  | same (l : List Subscription) : SubsStep l l
  | update (l : List Subscription) (ex : Subscription) (frequency : String) (now : Time) :
      ex ∈ l → ex.live = true → ex.Confirmed = false →
      SubsStep l (l.map fun r =>
        if r.ID = ex.ID ∧ r.live = true then
          { ex with Frequency := frequency, UpdatedAt := now }
        else r)
  | create (l : List Subscription) (email city frequency : String) (now : Time) :
      (∀ r ∈ l, (r.live && r.Email == email && r.City == city) = false) →
      SubsStep l (l ++ [{ ID := gorm.nextID (l.map (·.ID)), Email := email, City := city,
                          Frequency := frequency, Confirmed := false, CreatedAt := now,
                          UpdatedAt := now, DeletedAt := none }])
  | confirm (l : List Subscription) (found : Subscription) (now : Time) :
      found ∈ l → found.live = true →
      SubsStep l (l.map fun r =>
        if r.ID = found.ID ∧ r.live = true then
          { found with Confirmed := true, UpdatedAt := now }
        else r)
  | delete (l : List Subscription) (id : Nat) (now : Time) :
      SubsStep l (l.map fun r =>
        if r.ID = id ∧ r.live = true then { r with DeletedAt := some now } else r)

/-- Every token of type "unsubscribe" references a subscription row, live or
soft-deleted, whose `Confirmed` flag is set. -/
def UnsubscribeTokensConfirmed (db : DB) : Prop :=
  ∀ t ∈ db.tokens, t.TokenType = "unsubscribe" →
    ∃ s ∈ db.subscriptions, s.ID = t.SubscriptionID ∧ s.Confirmed = true

/-- A string with a hyphen, as every string of `uuid.New().String()` has. -/
def Hyphenated (s : String) : Prop := '-' ∈ s.data

/-! ## Constraints of the stored state -/

/-- The data-model invariant: at most one live subscription per (email, city). -/
def OneLivePerPair (db : DB) : Prop :=
  db.subscriptions.Pairwise fun a b =>
    ¬ (a.live = true ∧ b.live = true ∧ a.Email = b.Email ∧ a.City = b.City)

/-- The primary key of the subscription table: no two rows share an id. -/
def SubscriptionKeysUnique (db : DB) : Prop := (db.subscriptions.map (·.ID)).Nodup

/-- The unique index on the token string: no two rows share a string. -/
def TokenStringsUnique (db : DB) : Prop := (db.tokens.map (·.Token)).Nodup

instance (db : DB) : Decidable (OneLivePerPair db) := by
  unfold OneLivePerPair; infer_instance

instance (db : DB) : Decidable (SubscriptionKeysUnique db) := by
  unfold SubscriptionKeysUnique; infer_instance

instance (db : DB) : Decidable (TokenStringsUnique db) := by
  unfold TokenStringsUnique; infer_instance

/-- The tokens a lookup at time `now` can return for a subscription and a type. -/
def usableTokens (db : DB) (now : Time) (subscriptionID : Nat) (tokenType : String) :
    List Token :=
  db.tokens.filter fun t =>
    t.live && t.SubscriptionID == subscriptionID && t.TokenType == tokenType
      && decide (t.ExpiresAt > now)

/-- The live subscriptions of a pair. -/
def liveFor (db : DB) (email city : String) : List Subscription :=
  db.subscriptions.filter fun s => s.live && s.Email == email && s.City == city

/-- The weather lookup for the city of a subscription fails. -/
def weatherFails (env : Env) (s : Subscription) : Bool :=
  match env.GetWeather s.City with
  | .ok _ => false
  | .error _ => true

/-- No stored token string is one the uuid generator still has to draw: the strings of
the keys from the next one on differ from every stored string. -/
def FreshUUIDs (env : Env) (db : DB) : Prop :=
  ∀ t ∈ db.tokens, ∀ k, gorm.nextID (db.tokens.map (·.ID)) ≤ k → t.Token ≠ env.uuid k

/-! ## Sample data -/

/-- An environment in which every store call, lookup and email goes through. -/
def sampleEnv : Env where
  now := 1000
  uuid := fun n => String.mk (List.replicate (n + 2) 'u')
  fault := fun _ => none
  GetWeather := fun city =>
    if city = "Atlantis" then .error "city not found"
    else .ok { Temperature := 15, Humidity := 76, Description := "Partly cloudy" }
  send := fun _ => none
  AppBaseURL := "http://localhost:8080"

/-- A confirmed Lima subscription with its unsubscribe token, and an unconfirmed Kyiv
subscription with its confirmation token. -/
def sampleDB : DB where
  subscriptions :=
    [ { ID := 1, Email := "a@x.com", City := "Lima", Frequency := "daily", Confirmed := true,
        CreatedAt := 10, UpdatedAt := 20, DeletedAt := none },
      { ID := 2, Email := "b@x.com", City := "Kyiv", Frequency := "hourly", Confirmed := false,
        CreatedAt := 30, UpdatedAt := 30, DeletedAt := none } ]
  tokens :=
    [ { ID := 1, Token := "tok-a", SubscriptionID := 1, TokenType := "unsubscribe",
        ExpiresAt := 1000000, CreatedAt := 20, DeletedAt := none },
      { ID := 2, Token := "tok-b", SubscriptionID := 2, TokenType := "confirmation",
        ExpiresAt := 5000, CreatedAt := 30, DeletedAt := none } ]

/-- Three confirmed daily subscriptions; the weather provider knows no Atlantis. -/
def broadcastDB : DB where
  subscriptions :=
    [ { ID := 1, Email := "a@x.com", City := "Lima", Frequency := "daily", Confirmed := true,
        CreatedAt := 10, UpdatedAt := 20, DeletedAt := none },
      { ID := 2, Email := "b@x.com", City := "Atlantis", Frequency := "daily",
        Confirmed := true, CreatedAt := 30, UpdatedAt := 40, DeletedAt := none },
      { ID := 3, Email := "c@x.com", City := "Kyiv", Frequency := "daily", Confirmed := true,
        CreatedAt := 50, UpdatedAt := 60, DeletedAt := none } ]
  tokens := []

/-- The sample environment with a database that refuses the listing query. -/
def listFaultEnv : Env :=
  { sampleEnv with
    fault := fun c =>
      match c with
      | .GetSubscriptionsForUpdates => some "connection refused"
      | _ => none }

/-- The sample environment with a database that refuses every token insert. -/
def tokenFaultEnv : Env :=
  { sampleEnv with
    fault := fun c =>
      match c with
      | .CreateToken _ => some "connection refused"
      | _ => none }

/-- The sample environment with a notifier that refuses every email. -/
def refusingEnv : Env :=
  sampleEnv.withSend fun _ => some "failed to send email: 426 Upgrade Required"

/-- The provider's answer of the service test: status 200 and the London document. -/
def londonResponse : HTTPResponse where
  StatusCode := 200
  Body := .ok (.object
    [ ("location", .object
        [ ("name", .string "London"),
          ("region", .string "City of London, Greater London"),
          ("country", .string "United Kingdom") ]),
      ("current", .object
        [ ("temp_c", .number 15),
          ("humidity", .number 76),
          ("condition", .object [("text", .string "Partly cloudy")]) ]) ])

/-- The sample environment with a database that refuses every commit. -/
def commitFaultEnv : Env :=
  { sampleEnv with
    fault := fun c =>
      match c with
      | .Commit _ => some "commit failed"
      | _ => none }

/-- The sample environment with hyphenated uuid strings. -/
def uuidEnv : Env :=
  { sampleEnv with uuid := fun n => String.mk ('-' :: List.replicate n 'u') }

/-- A status-200 answer of the provider without the key `temp_c`. -/
def noTemperatureResponse : HTTPResponse where
  StatusCode := 200
  Body := .ok (.object
    [ ("current", .object
        [ ("humidity", .number 76),
          ("condition", .object [("text", .string "Partly cloudy")]) ]) ])

/-- A store whose Lima subscription was removed while two of its tokens are still live:
the unsubscribe token "tok-a" and the confirmation token "tok-c". -/
def removedDB : DB where
  subscriptions :=
    [ { ID := 1, Email := "a@x.com", City := "Lima", Frequency := "daily", Confirmed := true,
        CreatedAt := 10, UpdatedAt := 20, DeletedAt := some 900 } ]
  tokens :=
    [ { ID := 1, Token := "tok-a", SubscriptionID := 1, TokenType := "unsubscribe",
        ExpiresAt := 1000000, CreatedAt := 20, DeletedAt := none },
      { ID := 2, Token := "tok-c", SubscriptionID := 1, TokenType := "confirmation",
        ExpiresAt := 5000, CreatedAt := 30, DeletedAt := none } ]

/-- A provider that answers for Atlantis without the key `temp_c` and for every other
city with the London document. -/
def brokenProvider (city : String) : Except Error HTTPResponse :=
  if city = "Atlantis" then .ok noTemperatureResponse else .ok londonResponse

/-- The weather client of the repository on the answers of `brokenProvider`. -/
def brokenLookup (city : String) : Outcome WeatherResponse :=
  WeatherService.GetWeather (brokenProvider city)

/-! ## Lookups on a constrained table -/

open SubscriptionService

theorem find_live_pair {subs : List Subscription} {s : Subscription} {email city : String}
    (hinv : subs.Pairwise fun a b =>
      ¬ (a.live = true ∧ b.live = true ∧ a.Email = b.Email ∧ a.City = b.City))
    (hs : s ∈ subs) (hlive : s.live = true) (he : s.Email = email) (hc : s.City = city) :
    subs.find? (fun r => r.live && r.Email == email && r.City == city) = some s := by
  induction subs with
  | nil => simp at hs
  | cons a t ih =>
    rw [List.pairwise_cons] at hinv
    rcases List.mem_cons.mp hs with h | h
    · subst h
      simp [List.find?_cons, hlive, he, hc]
    · by_cases ha : (a.live && a.Email == email && a.City == city) = true
      · exfalso
        simp only [Bool.and_eq_true, beq_iff_eq] at ha
        exact hinv.1 s h ⟨ha.1.1, hlive, by rw [ha.1.2, he], by rw [ha.2, hc]⟩
      · rw [List.find?_cons]
        simp only [Bool.not_eq_true] at ha
        rw [ha]
        exact ih hinv.2 h

theorem FindByEmail_eq_some {env : Env} {db : DB} {s : Subscription} {email city : String}
    (hread : env.fault .FindByEmail = none) (hinv : OneLivePerPair db)
    (hs : s ∈ db.subscriptions) (hlive : s.live = true) (he : s.Email = email)
    (hc : s.City = city) :
    SubscriptionRepository.FindByEmail env db email city = .ok (some s) := by
  unfold SubscriptionRepository.FindByEmail gorm.First
  rw [hread, find_live_pair hinv hs hlive he hc]

/-! ## Subscribe -/

/-- C1: when a live, confirmed subscription for the requested (email, city) is stored (in
a table with at most one live subscription per pair, the lookup going through),
`Subscribe` returns "email already subscribed", both tables are exactly as before and
the notifier is not called. -/
theorem Subscribe_confirmed_rejected (env : Env) (db : DB) (req : SubscriptionRequest)
    (s : Subscription) (hread : env.fault .FindByEmail = none) (hinv : OneLivePerPair db)
    (hs : s ∈ db.subscriptions) (hlive : s.DeletedAt = none) (he : s.Email = req.Email)
    (hc : s.City = req.City) (hconf : s.Confirmed = true) :
    Subscribe env db req = ⟨some "email already subscribed", db, []⟩ := by
  have hl : s.live = true := by simp [Subscription.live, hlive]
  unfold Subscribe
  rw [FindByEmail_eq_some hread hinv hs hl he hc]
  simp [hconf]

theorem Subscribe_confirmed_rejected_witness :
    Subscribe sampleEnv sampleDB ⟨"a@x.com", "Lima", "hourly"⟩
      = ⟨some "email already subscribed", sampleDB, []⟩ :=
  Subscribe_confirmed_rejected sampleEnv sampleDB ⟨"a@x.com", "Lima", "hourly"⟩
    { ID := 1, Email := "a@x.com", City := "Lima", Frequency := "daily", Confirmed := true,
      CreatedAt := 10, UpdatedAt := 20, DeletedAt := none }
    rfl (by decide) (by decide) rfl rfl rfl rfl


theorem Subscribe_ok_inv {env : Env} {db : DB} {req : SubscriptionRequest}
    (hok : (Subscribe env db req).err = none) :
    ∃ existing subscription db1 refreshed token db2,
      SubscriptionRepository.FindByEmail env db req.Email req.City = .ok existing ∧
      existing.any (·.Confirmed) = false ∧
      env.fault (.Begin 1) = none ∧
      writeSubscription env db req existing = .ok (subscription, db1) ∧
      env.fault (.Commit 1) = none ∧
      env.fault (.Begin 2) = none ∧
      (gorm.First (env.fault .First) db1.subscriptions
        (fun s => s.live && s.ID == subscription.ID)).toExcept = .ok refreshed ∧
      TokenRepository.CreateToken env db1 refreshed.ID "confirmation" (24 * Hour)
        = .ok (token, db2) ∧
      env.fault (.Commit 2) = none ∧
      Subscribe env db req = ⟨none, db2, [Mail.SendConfirmationEmail refreshed.Email
        (env.AppBaseURL ++ "/api/confirm/" ++ token.Token) refreshed.City]⟩ := by
  unfold Subscribe at hok
  cases h1 : SubscriptionRepository.FindByEmail env db req.Email req.City with
  | error e => simp [h1] at hok
  | ok existing =>
    simp only [h1] at hok
    cases h2 : existing.any (·.Confirmed) with
    | true => simp [h2] at hok
    | false =>
      simp only [h2] at hok
      cases h3 : env.fault (.Begin 1) with
      | some e => simp [h3] at hok
      | none =>
        simp only [h3] at hok
        cases h4 : writeSubscription env db req existing with
        | error e => simp [h4] at hok
        | ok w =>
          obtain ⟨subscription, db1⟩ := w
          simp only [h4] at hok
          cases h5 : env.fault (.Commit 1) with
          | some e => simp [h5] at hok
          | none =>
            simp only [h5] at hok
            cases h6 : env.fault (.Begin 2) with
            | some e => simp [h6] at hok
            | none =>
              simp only [h6] at hok
              cases h7 : (gorm.First (env.fault .First) db1.subscriptions
                  (fun s => s.live && s.ID == subscription.ID)).toExcept with
              | error e => simp [h7] at hok
              | ok refreshed =>
                simp only [h7] at hok
                cases h8 : TokenRepository.CreateToken env db1 refreshed.ID "confirmation"
                    (24 * Hour) with
                | error e => simp [h8] at hok
                | ok w =>
                  obtain ⟨token, db2⟩ := w
                  simp only [h8] at hok
                  cases h9 : env.fault (.Commit 2) with
                  | some e => simp [h9] at hok
                  | none =>
                    simp only [h9] at hok
                    cases h10 : env.send (Mail.SendConfirmationEmail refreshed.Email
                        (env.AppBaseURL ++ "/api/confirm/" ++ token.Token) refreshed.City) with
                    | some e => simp [h10] at hok
                    | none =>
                      refine ⟨existing, subscription, db1, refreshed, token, db2, ?_, ?_, ?_,
                        ?_, ?_, ?_, ?_, ?_, ?_, ?_⟩ <;>
                        first
                        | rfl
                        | assumption
                        | simp [Subscribe, h1, h2, h3, h4, h5, h6, h7, h8, h9, h10]


theorem FindByEmail_some_spec {env : Env} {db : DB} {email city : String} {ex : Subscription}
    (h : SubscriptionRepository.FindByEmail env db email city = .ok (some ex)) :
    ex ∈ db.subscriptions ∧ ex.live = true ∧ ex.Email = email ∧ ex.City = city := by
  unfold SubscriptionRepository.FindByEmail gorm.First at h
  cases hf : env.fault .FindByEmail with
  | some e => simp [hf] at h
  | none =>
    simp only [hf] at h
    cases hq : db.subscriptions.find?
        (fun s => s.live && s.Email == email && s.City == city) with
    | none => simp [hq] at h
    | some r =>
      simp only [hq, Except.ok.injEq, Option.some.injEq] at h
      subst h
      have hp := List.find?_some hq
      simp only [Bool.and_eq_true, beq_iff_eq] at hp
      exact ⟨List.mem_of_find?_eq_some hq, hp.1.1, hp.1.2, hp.2⟩

theorem FindByEmail_none_spec {env : Env} {db : DB} {email city : String}
    (h : SubscriptionRepository.FindByEmail env db email city = .ok none) :
    ∀ s ∈ db.subscriptions, (s.live && s.Email == email && s.City == city) = false := by
  unfold SubscriptionRepository.FindByEmail gorm.First at h
  cases hf : env.fault .FindByEmail with
  | some e => simp [hf] at h
  | none =>
    simp only [hf] at h
    cases hq : db.subscriptions.find?
        (fun s => s.live && s.Email == email && s.City == city) with
    | some r => simp [hq] at h
    | none =>
      intro s hs
      have := List.find?_eq_none.mp hq s hs
      simpa using this

theorem CreateToken_ok_spec {env : Env} {db db2 : DB} {sid : Nat} {ty : String} {ttl : Nat}
    {tok : Token} (h : TokenRepository.CreateToken env db sid ty ttl = .ok (tok, db2)) :
    env.fault (.CreateToken sid) = none ∧
    tok = { ID := gorm.nextID (db.tokens.map (·.ID)),
            Token := env.uuid (gorm.nextID (db.tokens.map (·.ID))),
            SubscriptionID := sid, TokenType := ty, ExpiresAt := env.now + ttl,
            CreatedAt := env.now, DeletedAt := none } ∧
    db2 = { db with tokens := db.tokens ++ [tok] } ∧
    ∀ r ∈ db.tokens, r.Token ≠ tok.Token := by
  unfold TokenRepository.CreateToken at h
  cases hf : env.fault (.CreateToken sid) with
  | some e => simp [hf] at h
  | none =>
    simp only [hf] at h
    split at h
    · simp at h
    · rename_i hany
      simp only [Except.ok.injEq, Prod.mk.injEq] at h
      obtain ⟨h1, h2⟩ := h
      subst h1
      refine ⟨rfl, rfl, h2.symm, ?_⟩
      intro r hr heq
      apply hany
      simp only [List.any_eq_true, beq_iff_eq]
      exact ⟨r, hr, heq⟩


theorem First_ok_spec {α : Type} {fault : Option Error} {rows : List α} {cond : α → Bool}
    {r : α} (h : (gorm.First fault rows cond).toExcept = .ok r) :
    fault = none ∧ rows.find? cond = some r := by
  unfold gorm.First at h
  cases fault with
  | some e => simp [gorm.Query.toExcept] at h
  | none =>
    cases hq : rows.find? cond with
    | none => simp [hq, gorm.Query.toExcept] at h
    | some x =>
      simp only [hq, gorm.Query.toExcept, Except.ok.injEq] at h
      subst h
      exact ⟨rfl, rfl⟩

theorem maxID_ge {ids : List Nat} {x : Nat} (h : x ∈ ids) : x ≤ gorm.maxID ids := by
  induction ids with
  | nil => simp at h
  | cons a t ih =>
    simp only [gorm.maxID]
    rcases List.mem_cons.mp h with h | h
    · subst h; exact Nat.le_max_left _ _
    · exact Nat.le_trans (ih h) (Nat.le_max_right _ _)

theorem nextID_fresh {ids : List Nat} {x : Nat} (h : x ∈ ids) : x < gorm.nextID ids :=
  Nat.lt_succ_of_le (maxID_ge h)

theorem filter_live_pair {subs : List Subscription} {s : Subscription} {email city : String}
    (hinv : subs.Pairwise fun a b =>
      ¬ (a.live = true ∧ b.live = true ∧ a.Email = b.Email ∧ a.City = b.City))
    (hs : s ∈ subs) (hlive : s.live = true) (he : s.Email = email) (hc : s.City = city) :
    subs.filter (fun r => r.live && r.Email == email && r.City == city) = [s] := by
  induction subs with
  | nil => simp at hs
  | cons a t ih =>
    rw [List.pairwise_cons] at hinv
    rcases List.mem_cons.mp hs with h | h
    · subst h
      have hnil : t.filter (fun r => r.live && r.Email == email && r.City == city) = [] := by
        rw [List.filter_eq_nil_iff]
        intro b hb hpb
        simp only [Bool.and_eq_true, beq_iff_eq] at hpb
        exact hinv.1 b hb ⟨hlive, hpb.1.1, by rw [he, hpb.1.2], by rw [hc, hpb.2]⟩
      simp [List.filter_cons, hlive, he, hc, hnil]
    · have ha : (a.live && a.Email == email && a.City == city) = false := by
        by_contra hne
        simp only [Bool.not_eq_false, Bool.and_eq_true, beq_iff_eq] at hne
        exact hinv.1 s h ⟨hne.1.1, hlive, by rw [hne.1.2, he], by rw [hne.2, hc]⟩
      rw [List.filter_cons, ha]
      exact ih hinv.2 h

theorem filter_map_comm {α : Type} (p : α → Bool) (f : α → α) (l : List α)
    (h : ∀ r ∈ l, p (f r) = p r) : (l.map f).filter p = (l.filter p).map f := by
  induction l with
  | nil => rfl
  | cons a t ih =>
    have ha := h a (List.mem_cons_self a t)
    have ht := ih fun r hr => h r (List.mem_cons_of_mem a hr)
    simp only [List.map_cons, List.filter_cons, ha]
    cases p a <;> simp [ht]

theorem writeSubscription_some_spec {env : Env} {db db1 : DB} {req : SubscriptionRequest}
    {ex sub : Subscription}
    (h : writeSubscription env db req (some ex) = .ok (sub, db1)) :
    env.fault .Save = none ∧
    sub = { ex with Frequency := req.Frequency, UpdatedAt := env.now } ∧
    db1 = { db with subscriptions :=
      db.subscriptions.map fun r => if r.ID = ex.ID ∧ r.live = true then sub else r } := by
  unfold writeSubscription gorm.SaveSubscription at h
  cases hf : env.fault .Save with
  | some e => simp [hf] at h
  | none =>
    simp only [hf, Except.ok.injEq, Prod.mk.injEq] at h
    obtain ⟨h1, h2⟩ := h
    subst h1
    exact ⟨rfl, rfl, h2.symm⟩

theorem writeSubscription_none_spec {env : Env} {db db1 : DB} {req : SubscriptionRequest}
    {sub : Subscription}
    (h : writeSubscription env db req none = .ok (sub, db1)) :
    env.fault .Create = none ∧
    sub = { ID := gorm.nextID (db.subscriptions.map (·.ID)), Email := req.Email,
            City := req.City, Frequency := req.Frequency, Confirmed := false,
            CreatedAt := env.now, UpdatedAt := env.now, DeletedAt := none } ∧
    db1 = { db with subscriptions := db.subscriptions ++ [sub] } := by
  unfold writeSubscription gorm.CreateSubscription at h
  cases hf : env.fault .Create with
  | some e => simp [hf] at h
  | none =>
    simp only [hf, Except.ok.injEq, Prod.mk.injEq] at h
    obtain ⟨h1, h2⟩ := h
    subst h1
    exact ⟨rfl, rfl, h2.symm⟩


theorem Subscribe_ok_db {env : Env} {db : DB} {req : SubscriptionRequest}
    (hok : (Subscribe env db req).err = none) :
    ∃ existing sub db1 tok,
      SubscriptionRepository.FindByEmail env db req.Email req.City = .ok existing ∧
      existing.any (·.Confirmed) = false ∧
      writeSubscription env db req existing = .ok (sub, db1) ∧
      (Subscribe env db req).db
        = { subscriptions := db1.subscriptions, tokens := db.tokens ++ [tok] } ∧
      db1.tokens = db.tokens ∧
      tok = { ID := gorm.nextID (db.tokens.map (·.ID)),
              Token := env.uuid (gorm.nextID (db.tokens.map (·.ID))),
              SubscriptionID := sub.ID, TokenType := "confirmation",
              ExpiresAt := env.now + 24 * Hour, CreatedAt := env.now, DeletedAt := none } := by
  obtain ⟨existing, sub, db1, refreshed, token, db2, h1, h2, _, h4, _, _, h7, h8, _, h10⟩ :=
    Subscribe_ok_inv hok
  have hid : refreshed.ID = sub.ID := by
    have := List.find?_some (First_ok_spec h7).2
    simp only [Bool.and_eq_true, beq_iff_eq] at this
    exact this.2
  have htok : db1.tokens = db.tokens := by
    cases existing with
    | some ex => rw [(writeSubscription_some_spec h4).2.2]
    | none => rw [(writeSubscription_none_spec h4).2.2]
  obtain ⟨_, t1, t2, _⟩ := CreateToken_ok_spec h8
  refine ⟨existing, sub, db1, token, h1, h2, h4, ?_, htok, ?_⟩
  · rw [h10, t2, htok]
  · rw [t1, htok, hid]


theorem eq_of_same_key {subs : List Subscription} (hkeys : (subs.map (·.ID)).Nodup)
    {a b : Subscription} (ha : a ∈ subs) (hb : b ∈ subs) (h : a.ID = b.ID) : a = b :=
  List.inj_on_of_nodup_map hkeys ha hb h

theorem save_row_eq {subs : List Subscription} (hkeys : (subs.map (·.ID)).Nodup)
    {ex : Subscription} (hex : ex ∈ subs) (hlive : ex.live = true) (sub : Subscription) :
    subs.map (fun r => if r.ID = ex.ID ∧ r.live = true then sub else r)
      = subs.map (fun r => if r = ex then sub else r) := by
  apply List.map_congr_left
  intro r hr
  by_cases h : r = ex
  · subst h; simp [hlive]
  · have hid : r.ID ≠ ex.ID := fun hid => h (eq_of_same_key hkeys hr hex hid)
    simp [h, hid]

/-- C2 (counterexample): a repeat `Subscribe` for the unconfirmed Kyiv subscription of the
sample table succeeds and leaves two live, unexpired confirmation tokens for it. -/
theorem Subscribe_repeat_two_confirmation_tokens :
    OneLivePerPair sampleDB ∧
    (Subscribe sampleEnv sampleDB ⟨"b@x.com", "Kyiv", "daily"⟩).err = none ∧
    (usableTokens (Subscribe sampleEnv sampleDB ⟨"b@x.com", "Kyiv", "daily"⟩).db
      sampleEnv.now 2 "confirmation").length = 2 := by
  decide

/-- C2 (amended): after a successful `Subscribe` on a table with at most one live
subscription per pair, exactly one live subscription exists for (email, city) and it is
unconfirmed; the call appends exactly one token row, an undeleted "confirmation" token
for that subscription expiring 24 hours after issue, and keeps every earlier token, so
the usable confirmation tokens of the subscription are the earlier ones plus the new
one. -/
theorem Subscribe_success_state (env : Env) (db : DB) (req : SubscriptionRequest)
    (hinv : OneLivePerPair db) (hkeys : SubscriptionKeysUnique db)
    (hok : (Subscribe env db req).err = none) :
    ∃ sub tok,
      liveFor (Subscribe env db req).db req.Email req.City = [sub] ∧
      sub.Confirmed = false ∧
      (Subscribe env db req).db.tokens = db.tokens ++ [tok] ∧
      tok.SubscriptionID = sub.ID ∧ tok.TokenType = "confirmation" ∧
      tok.DeletedAt = none ∧ tok.ExpiresAt = env.now + 24 * Hour ∧
      usableTokens (Subscribe env db req).db env.now sub.ID "confirmation"
        = usableTokens db env.now sub.ID "confirmation" ++ [tok] := by
  obtain ⟨existing, sub, db1, tok, h1, h2, h4, hdb, _, htok⟩ := Subscribe_ok_db hok
  have hpos : env.now < env.now + 24 * Hour := Nat.lt_add_of_pos_right (by decide)
  have hlist : liveFor (Subscribe env db req).db req.Email req.City = [sub]
      ∧ sub.Confirmed = false := by
    rw [hdb]
    unfold liveFor
    cases existing with
    | some ex =>
      obtain ⟨hex, hlive, he, hc⟩ := FindByEmail_some_spec h1
      obtain ⟨_, hsub, hdb1⟩ := writeSubscription_some_spec h4
      have hconf : ex.Confirmed = false := by simpa using h2
      have hsl : sub.live = true := by rw [hsub]; exact hlive
      constructor
      · rw [hdb1]
        simp only
        rw [filter_map_comm, filter_live_pair hinv hex hlive he hc]
        · simp [hlive]
        · intro r hr
          by_cases hcond : r.ID = ex.ID ∧ r.live = true
          · have hre : r = ex := eq_of_same_key hkeys hr hex hcond.1
            subst hre
            simp only [hcond, and_self, if_true]
            rw [hsub]
            have hl := hlive
            simp only [Subscription.live] at hl
            simp [Subscription.live, hl]
          · simp only [hcond, if_false]
      · rw [hsub]; exact hconf
    | none =>
      have hnone := FindByEmail_none_spec h1
      obtain ⟨_, hsub, hdb1⟩ := writeSubscription_none_spec h4
      constructor
      · rw [hdb1]
        simp only [List.filter_append]
        rw [List.filter_eq_nil_iff.mpr (fun a ha => by simp [hnone a ha])]
        rw [hsub]
        simp [Subscription.live]
      · rw [hsub]
  refine ⟨sub, tok, hlist.1, hlist.2, by rw [hdb], by rw [htok], by rw [htok], by rw [htok],
    by rw [htok], ?_⟩
  rw [hdb]
  unfold usableTokens
  simp only [List.filter_append]
  congr 1
  rw [htok]
  simp [Token.live, hpos]

theorem Subscribe_success_state_witness :
    ∃ sub tok,
      liveFor (Subscribe sampleEnv sampleDB ⟨"b@x.com", "Kyiv", "daily"⟩).db
        "b@x.com" "Kyiv" = [sub] ∧
      sub.Confirmed = false ∧
      (Subscribe sampleEnv sampleDB ⟨"b@x.com", "Kyiv", "daily"⟩).db.tokens
        = sampleDB.tokens ++ [tok] ∧
      tok.SubscriptionID = sub.ID ∧ tok.TokenType = "confirmation" ∧
      tok.DeletedAt = none ∧ tok.ExpiresAt = sampleEnv.now + 24 * Hour ∧
      usableTokens (Subscribe sampleEnv sampleDB ⟨"b@x.com", "Kyiv", "daily"⟩).db
          sampleEnv.now sub.ID "confirmation"
        = usableTokens sampleDB sampleEnv.now sub.ID "confirmation" ++ [tok] :=
  Subscribe_success_state sampleEnv sampleDB ⟨"b@x.com", "Kyiv", "daily"⟩
    (by decide) (by decide) (by decide)


/-- C3: when a live, unconfirmed subscription `s` for (email, city) is stored, a
successful `Subscribe(email, city, f)` rewrites exactly that row in place: the row keeps
its id, email, city and `Confirmed = false`, its frequency becomes `f` (gorm also stamps
`UpdatedAt`), every other row is the same, and the number of rows and the id column
are unchanged. -/
theorem Subscribe_repeat_updates_in_place (env : Env) (db : DB) (req : SubscriptionRequest)
    (s : Subscription) (hinv : OneLivePerPair db) (hkeys : SubscriptionKeysUnique db)
    (hs : s ∈ db.subscriptions) (hlive : s.DeletedAt = none) (he : s.Email = req.Email)
    (hc : s.City = req.City) (hconf : s.Confirmed = false)
    (hok : (Subscribe env db req).err = none) :
    (Subscribe env db req).db.subscriptions
      = db.subscriptions.map (fun r =>
          if r = s then
            { ID := s.ID, Email := s.Email, City := s.City, Frequency := req.Frequency,
              Confirmed := false, CreatedAt := s.CreatedAt, UpdatedAt := env.now,
              DeletedAt := none }
          else r) ∧
    (Subscribe env db req).db.subscriptions.length = db.subscriptions.length ∧
    (Subscribe env db req).db.subscriptions.map (·.ID) = db.subscriptions.map (·.ID) := by
  have hl : s.live = true := by simp [Subscription.live, hlive]
  obtain ⟨existing, sub, db1, tok, h1, _, h4, hdb, _, _⟩ := Subscribe_ok_db hok
  have hread : env.fault .FindByEmail = none := by
    cases hf : env.fault .FindByEmail with
    | none => rfl
    | some e => simp [SubscriptionRepository.FindByEmail, gorm.First, hf] at h1
  rw [FindByEmail_eq_some hread hinv hs hl he hc] at h1
  simp only [Except.ok.injEq] at h1
  subst h1
  obtain ⟨_, hsub, hdb1⟩ := writeSubscription_some_spec h4
  have hrows : (Subscribe env db req).db.subscriptions
      = db.subscriptions.map (fun r =>
          if r = s then
            { ID := s.ID, Email := s.Email, City := s.City, Frequency := req.Frequency,
              Confirmed := false, CreatedAt := s.CreatedAt, UpdatedAt := env.now,
              DeletedAt := none }
          else r) := by
    rw [hdb, hdb1]
    simp only
    rw [save_row_eq hkeys hs hl, hsub, hconf, hlive]
  refine ⟨hrows, ?_, ?_⟩
  · rw [hrows, List.length_map]
  · rw [hrows, List.map_map]
    apply List.map_congr_left
    intro r _
    by_cases h : r = s
    · simp [h]
    · simp [h]

theorem Subscribe_repeat_updates_in_place_witness :
    (Subscribe sampleEnv sampleDB ⟨"b@x.com", "Kyiv", "daily"⟩).db.subscriptions
      = sampleDB.subscriptions.map (fun r =>
          if r = { ID := 2, Email := "b@x.com", City := "Kyiv", Frequency := "hourly",
                   Confirmed := false, CreatedAt := 30, UpdatedAt := 30, DeletedAt := none }
          then
            { ID := 2, Email := "b@x.com", City := "Kyiv", Frequency := "daily",
              Confirmed := false, CreatedAt := 30, UpdatedAt := sampleEnv.now,
              DeletedAt := none }
          else r) ∧
    (Subscribe sampleEnv sampleDB ⟨"b@x.com", "Kyiv", "daily"⟩).db.subscriptions.length
      = sampleDB.subscriptions.length ∧
    (Subscribe sampleEnv sampleDB ⟨"b@x.com", "Kyiv", "daily"⟩).db.subscriptions.map (·.ID)
      = sampleDB.subscriptions.map (·.ID) :=
  Subscribe_repeat_updates_in_place sampleEnv sampleDB ⟨"b@x.com", "Kyiv", "daily"⟩
    { ID := 2, Email := "b@x.com", City := "Kyiv", Frequency := "hourly",
      Confirmed := false, CreatedAt := 30, UpdatedAt := 30, DeletedAt := none }
    (by decide) (by decide) (by decide) rfl rfl rfl rfl (by decide)


/-! ## Token lookup on a table with unique strings -/

theorem FindByToken_not_found (env : Env) (db : DB) (tokenStr : String)
    (hread : env.fault (.FindByToken tokenStr) = none)
    (h : ∀ t ∈ db.tokens, ¬ (t.DeletedAt = none ∧ t.Token = tokenStr ∧ env.now < t.ExpiresAt)) :
    TokenRepository.FindByToken env db tokenStr = .error "record not found" := by
  unfold TokenRepository.FindByToken gorm.First
  rw [hread]
  have hq : db.tokens.find?
      (fun t => t.live && t.Token == tokenStr && decide (t.ExpiresAt > env.now)) = none := by
    rw [List.find?_eq_none]
    intro t ht hp
    simp only [Token.live, Option.isNone_iff_eq_none, Bool.and_eq_true, beq_iff_eq,
      decide_eq_true_eq] at hp
    exact h t ht ⟨hp.1.1, hp.1.2, hp.2⟩
  simp only [hq]
  rfl

theorem FindByToken_found {env : Env} {db : DB} {t : Token}
    (hread : env.fault (.FindByToken t.Token) = none) (huniq : TokenStringsUnique db)
    (ht : t ∈ db.tokens) (hlive : t.DeletedAt = none) (hexp : env.now < t.ExpiresAt) :
    TokenRepository.FindByToken env db t.Token = .ok t := by
  unfold TokenRepository.FindByToken gorm.First
  rw [hread]
  cases hq : db.tokens.find?
      (fun r => r.live && r.Token == t.Token && decide (r.ExpiresAt > env.now)) with
  | none =>
    have := List.find?_eq_none.mp hq t ht
    simp [Token.live, hlive, hexp] at this
  | some r =>
    have hp := List.find?_some hq
    simp only [Bool.and_eq_true, beq_iff_eq] at hp
    have : r = t := List.inj_on_of_nodup_map huniq (List.mem_of_find?_eq_some hq) ht hp.1.2
    subst this
    rfl

theorem FindByToken_ok_spec {env : Env} {db : DB} {tokenStr : String} {t : Token}
    (h : TokenRepository.FindByToken env db tokenStr = .ok t) :
    t ∈ db.tokens ∧ t.DeletedAt = none ∧ t.Token = tokenStr ∧ env.now < t.ExpiresAt := by
  obtain ⟨_, hq⟩ := First_ok_spec h
  have hp := List.find?_some hq
  simp only [Token.live, Option.isNone_iff_eq_none, Bool.and_eq_true, beq_iff_eq,
    decide_eq_true_eq] at hp
  exact ⟨List.mem_of_find?_eq_some hq, hp.1.1, hp.1.2, hp.2⟩

/-! ## ConfirmSubscription -/

/-- C4: with the token lookup going through on a table with unique token strings,
`ConfirmSubscription(t)` returns "record not found" when no undeleted token with string
`t` and expiry after now is stored (an expired token of any type included), and returns
"invalid token type" when such a token is stored with a type other than "confirmation";
in both cases both tables are exactly as before and the notifier is not called. -/
theorem ConfirmSubscription_rejects (env : Env) (db : DB) (tokenStr : String)
    (hread : env.fault (.FindByToken tokenStr) = none) (huniq : TokenStringsUnique db) :
    ((∀ t ∈ db.tokens,
        ¬ (t.DeletedAt = none ∧ t.Token = tokenStr ∧ env.now < t.ExpiresAt)) →
      ConfirmSubscription env db tokenStr = ⟨some "record not found", db, []⟩) ∧
    (∀ t ∈ db.tokens, t.DeletedAt = none → t.Token = tokenStr → env.now < t.ExpiresAt →
      t.TokenType ≠ "confirmation" →
      ConfirmSubscription env db tokenStr = ⟨some "invalid token type", db, []⟩) := by
  constructor
  · intro h
    unfold ConfirmSubscription
    rw [FindByToken_not_found env db tokenStr hread h]
  · intro t ht hlive hstr hexp hty
    subst hstr
    unfold ConfirmSubscription
    rw [FindByToken_found hread huniq ht hlive hexp]
    simp [hty]

theorem ConfirmSubscription_rejects_witness :
    ConfirmSubscription { sampleEnv with now := 6000 } sampleDB "tok-b"
      = ⟨some "record not found", sampleDB, []⟩ ∧
    ConfirmSubscription sampleEnv sampleDB "tok-a"
      = ⟨some "invalid token type", sampleDB, []⟩ :=
  ⟨(ConfirmSubscription_rejects { sampleEnv with now := 6000 } sampleDB "tok-b" rfl
      (by decide)).1 (by decide),
   (ConfirmSubscription_rejects sampleEnv sampleDB "tok-a" rfl (by decide)).2
      { ID := 1, Token := "tok-a", SubscriptionID := 1, TokenType := "unsubscribe",
        ExpiresAt := 1000000, CreatedAt := 20, DeletedAt := none }
      (by decide) rfl rfl (by decide) (by decide)⟩


theorem ConfirmSubscription_ok_inv {env : Env} {db : DB} {tokenStr : String}
    (hok : (ConfirmSubscription env db tokenStr).err = none) :
    ∃ token found unsubscribeToken db1,
      TokenRepository.FindByToken env db tokenStr = .ok token ∧
      token.TokenType = "confirmation" ∧
      env.fault (.Begin 1) = none ∧
      SubscriptionRepository.FindByID env db token.SubscriptionID = .ok found ∧
      env.fault .Save = none ∧
      env.fault .DeleteToken = none ∧
      TokenRepository.CreateToken env db found.ID "unsubscribe" (365 * 24 * Hour)
        = .ok (unsubscribeToken, db1) ∧
      env.fault (.Commit 1) = none ∧
      ConfirmSubscription env db tokenStr =
        ⟨none,
         { subscriptions := db.subscriptions.map fun r =>
             if r.ID = found.ID ∧ r.live = true then
               { found with Confirmed := true, UpdatedAt := env.now }
             else r,
           tokens := (db.tokens.map fun r =>
             if r.ID = token.ID ∧ r.live = true then { r with DeletedAt := some env.now }
             else r) ++ [unsubscribeToken] },
         [Mail.SendWelcomeEmail found.Email found.City found.Frequency
           (env.AppBaseURL ++ "/api/unsubscribe/" ++ unsubscribeToken.Token)]⟩ := by
  unfold ConfirmSubscription at hok
  cases h1 : TokenRepository.FindByToken env db tokenStr with
  | error e => simp [h1] at hok
  | ok token =>
    simp only [h1] at hok
    by_cases h2 : token.TokenType = "confirmation"
    swap
    · simp [h2] at hok
    simp only [h2, ne_eq, not_true_eq_false, if_false] at hok
    cases h3 : env.fault (.Begin 1) with
    | some e => simp [h3] at hok
    | none =>
      simp only [h3] at hok
      cases h4 : SubscriptionRepository.FindByID env db token.SubscriptionID with
      | error e => simp [h4] at hok
      | ok found =>
        simp only [h4] at hok
        cases h5 : env.fault .Save with
        | some e => simp [gorm.SaveSubscription, h5] at hok
        | none =>
          simp only [gorm.SaveSubscription, h5] at hok
          cases h6 : env.fault .DeleteToken with
          | some e => simp [gorm.DeleteToken, h6] at hok
          | none =>
            simp only [gorm.DeleteToken, h6] at hok
            cases h7 : TokenRepository.CreateToken env db found.ID "unsubscribe"
                (365 * 24 * Hour) with
            | error e => simp [h7] at hok
            | ok w =>
              obtain ⟨unsubscribeToken, db1⟩ := w
              simp only [h7] at hok
              cases h8 : env.fault (.Commit 1) with
              | some e => simp [h8] at hok
              | none =>
                refine ⟨token, found, unsubscribeToken, db1, ?_, ?_, ?_, ?_, ?_, ?_, ?_, ?_, ?_⟩
                  <;>
                  first
                  | rfl
                  | assumption
                  | (simp only [ConfirmSubscription, gorm.SaveSubscription, gorm.DeleteToken,
                      h1, h2, h3, h4, h5, h6, h7, h8, ne_eq, not_true_eq_false, if_false]
                     cases env.send (Mail.SendWelcomeEmail found.Email found.City
                       found.Frequency
                       (env.AppBaseURL ++ "/api/unsubscribe/" ++ unsubscribeToken.Token)) <;> rfl)


theorem ConfirmSubscription_lookup_error (env : Env) (db : DB) (tokenStr : String) (e : Error)
    (h : TokenRepository.FindByToken env db tokenStr = .error e) :
    ConfirmSubscription env db tokenStr = ⟨some e, db, []⟩ := by
  unfold ConfirmSubscription
  rw [h]

theorem FindByID_ok_spec {env : Env} {db : DB} {id : Nat} {s : Subscription}
    (h : SubscriptionRepository.FindByID env db id = .ok s) :
    s ∈ db.subscriptions ∧ s.live = true ∧ s.ID = id := by
  obtain ⟨_, hq⟩ := First_ok_spec h
  have hp := List.find?_some hq
  simp only [Bool.and_eq_true, beq_iff_eq] at hp
  exact ⟨List.mem_of_find?_eq_some hq, hp.1, hp.2⟩

theorem consumed_token_gone (db : DB) (tok new : Token) (now now2 : Time)
    (huniq : TokenStringsUnique db) (ht : tok ∈ db.tokens) (htlive : tok.live = true)
    (hnew : ∀ r ∈ db.tokens, r.Token ≠ new.Token) :
    ∀ t ∈ (db.tokens.map fun r =>
        if r.ID = tok.ID ∧ r.live = true then { r with DeletedAt := some now } else r) ++ [new],
      ¬ (t.DeletedAt = none ∧ t.Token = tok.Token ∧ now2 < t.ExpiresAt) := by
  intro t hmem hcon
  rcases List.mem_append.mp hmem with h | h
  · obtain ⟨r, hr, hrt⟩ := List.mem_map.mp h
    by_cases hcond : r.ID = tok.ID ∧ r.live = true
    · simp only [hcond, and_self, if_true] at hrt
      rw [← hrt] at hcon
      simp at hcon
    · simp only [hcond, if_false] at hrt
      subst hrt
      have : r = tok := List.inj_on_of_nodup_map huniq hr ht hcon.2.1
      subst this
      exact hcond ⟨rfl, htlive⟩
  · simp only [List.mem_singleton] at h
    subst h
    exact hnew tok ht hcon.2.1.symm

/-- C5: for a live, unexpired token `tok` of a live subscription `s` (unique token strings
and primary keys), after a successful `ConfirmSubscription(tok)`, which only a
"confirmation" token allows: the row of
`s` has `Confirmed = true` and no other row changed; a later `FindByToken(tok)` finds
nothing, so a second `ConfirmSubscription(tok)` returns "record not found" and changes
nothing; and the token table is the old one with `tok` soft-deleted plus exactly one new
row, an undeleted "unsubscribe" token for `s` expiring 365 days after issue. -/
theorem ConfirmSubscription_success_state (env : Env) (db : DB) (tok : Token)
    (s : Subscription) (huniq : TokenStringsUnique db) (hkeys : SubscriptionKeysUnique db)
    (ht : tok ∈ db.tokens) (htlive : tok.DeletedAt = none) (hexp : env.now < tok.ExpiresAt)
    (hs : s ∈ db.subscriptions) (hslive : s.DeletedAt = none)
    (hid : tok.SubscriptionID = s.ID)
    (hok : (ConfirmSubscription env db tok.Token).err = none) :
    (ConfirmSubscription env db tok.Token).db.subscriptions
      = db.subscriptions.map (fun r =>
          if r = s then { s with Confirmed := true, UpdatedAt := env.now } else r) ∧
    (∀ env2 : Env, env2.fault (.FindByToken tok.Token) = none →
      TokenRepository.FindByToken env2 (ConfirmSubscription env db tok.Token).db tok.Token
        = .error "record not found" ∧
      ConfirmSubscription env2 (ConfirmSubscription env db tok.Token).db tok.Token
        = ⟨some "record not found", (ConfirmSubscription env db tok.Token).db, []⟩) ∧
    ∃ new,
      (ConfirmSubscription env db tok.Token).db.tokens
        = (db.tokens.map fun r =>
            if r.ID = tok.ID ∧ r.live = true then { r with DeletedAt := some env.now }
            else r) ++ [new] ∧
      new.TokenType = "unsubscribe" ∧ new.SubscriptionID = s.ID ∧
      new.ExpiresAt = env.now + 365 * 24 * Hour ∧ new.DeletedAt = none := by
  have htl : tok.live = true := by simp [Token.live, htlive]
  have hsl : s.live = true := by simp [Subscription.live, hslive]
  obtain ⟨token, found, new, db1, h1, _, _, h4, _, _, h7, _, hres⟩ :=
    ConfirmSubscription_ok_inv hok
  have hread : env.fault (.FindByToken tok.Token) = none := by
    cases hf : env.fault (.FindByToken tok.Token) with
    | none => rfl
    | some e =>
      simp [TokenRepository.FindByToken, gorm.First, gorm.Query.toExcept, hf] at h1
  rw [FindByToken_found hread huniq ht htlive hexp] at h1
  simp only [Except.ok.injEq] at h1
  subst h1
  obtain ⟨hfm, hfl, hfid⟩ := FindByID_ok_spec h4
  have hfs : found = s := eq_of_same_key hkeys hfm hs (by rw [hfid, hid])
  subst hfs
  obtain ⟨_, hnew, _, hfresh⟩ := CreateToken_ok_spec h7
  have hgone := fun now2 => consumed_token_gone db tok new env.now now2 huniq ht htl hfresh
  have htoks : (ConfirmSubscription env db tok.Token).db.tokens
      = (db.tokens.map fun r =>
          if r.ID = tok.ID ∧ r.live = true then { r with DeletedAt := some env.now }
          else r) ++ [new] := by rw [hres]
  refine ⟨?_, ?_, new, htoks, ?_, ?_, ?_, ?_⟩
  · rw [hres]
    exact save_row_eq hkeys hs hsl _
  · intro env2 hread2
    have hnf := FindByToken_not_found env2 (ConfirmSubscription env db tok.Token).db tok.Token
      hread2 (by rw [htoks]; exact hgone env2.now)
    exact ⟨hnf, ConfirmSubscription_lookup_error _ _ _ _ hnf⟩
  · rw [hnew]
  · rw [hnew]
  · rw [hnew]
  · rw [hnew]


theorem ConfirmSubscription_success_state_witness :
    (ConfirmSubscription sampleEnv sampleDB "tok-b").db.subscriptions
      = sampleDB.subscriptions.map (fun r =>
          if r = { ID := 2, Email := "b@x.com", City := "Kyiv", Frequency := "hourly",
                   Confirmed := false, CreatedAt := 30, UpdatedAt := 30, DeletedAt := none }
          then
            { ID := 2, Email := "b@x.com", City := "Kyiv", Frequency := "hourly",
              Confirmed := true, CreatedAt := 30, UpdatedAt := sampleEnv.now,
              DeletedAt := none }
          else r) ∧
    (TokenRepository.FindByToken sampleEnv (ConfirmSubscription sampleEnv sampleDB "tok-b").db
          "tok-b" = .error "record not found" ∧
      ConfirmSubscription sampleEnv (ConfirmSubscription sampleEnv sampleDB "tok-b").db "tok-b"
        = ⟨some "record not found", (ConfirmSubscription sampleEnv sampleDB "tok-b").db, []⟩) ∧
    ∃ new,
      (ConfirmSubscription sampleEnv sampleDB "tok-b").db.tokens
        = (sampleDB.tokens.map fun r =>
            if r.ID = 2 ∧ r.live = true then { r with DeletedAt := some sampleEnv.now }
            else r) ++ [new] ∧
      new.TokenType = "unsubscribe" ∧ new.SubscriptionID = 2 ∧
      new.ExpiresAt = sampleEnv.now + 365 * 24 * Hour ∧ new.DeletedAt = none :=
  (fun h => ⟨h.1, h.2.1 sampleEnv rfl, h.2.2⟩)
    (ConfirmSubscription_success_state sampleEnv sampleDB
      { ID := 2, Token := "tok-b", SubscriptionID := 2, TokenType := "confirmation",
        ExpiresAt := 5000, CreatedAt := 30, DeletedAt := none }
      { ID := 2, Email := "b@x.com", City := "Kyiv", Frequency := "hourly",
        Confirmed := false, CreatedAt := 30, UpdatedAt := 30, DeletedAt := none }
      (by decide) (by decide) (by decide) rfl (by decide) (by decide) rfl rfl (by decide))

/-! ## Unsubscribe -/

theorem Unsubscribe_lookup_error (env : Env) (db : DB) (tokenStr : String) (e : Error)
    (h : TokenRepository.FindByToken env db tokenStr = .error e) :
    Unsubscribe env db tokenStr = ⟨some e, db, []⟩ := by
  unfold Unsubscribe
  rw [h]

theorem Unsubscribe_ok_inv {env : Env} {db : DB} {tokenStr : String}
    (hok : (Unsubscribe env db tokenStr).err = none) :
    ∃ token subscription,
      TokenRepository.FindByToken env db tokenStr = .ok token ∧
      token.TokenType = "unsubscribe" ∧
      env.fault (.Begin 1) = none ∧
      SubscriptionRepository.FindByID env db token.SubscriptionID = .ok subscription ∧
      env.fault .DeleteSubscription = none ∧
      env.fault .DeleteToken = none ∧
      env.fault (.Commit 1) = none ∧
      Unsubscribe env db tokenStr =
        ⟨none,
         { subscriptions := db.subscriptions.map fun r =>
             if r.ID = subscription.ID ∧ r.live = true then
               { r with DeletedAt := some env.now }
             else r,
           tokens := db.tokens.map fun r =>
             if r.ID = token.ID ∧ r.live = true then { r with DeletedAt := some env.now }
             else r },
         [Mail.SendUnsubscribeConfirmationEmail subscription.Email subscription.City]⟩ := by
  unfold Unsubscribe at hok
  cases h1 : TokenRepository.FindByToken env db tokenStr with
  | error e => simp [h1] at hok
  | ok token =>
    simp only [h1] at hok
    by_cases h2 : token.TokenType = "unsubscribe"
    swap
    · simp [h2] at hok
    simp only [h2, ne_eq, not_true_eq_false, if_false] at hok
    cases h3 : env.fault (.Begin 1) with
    | some e => simp [h3] at hok
    | none =>
      simp only [h3] at hok
      cases h4 : SubscriptionRepository.FindByID env db token.SubscriptionID with
      | error e => simp [h4] at hok
      | ok subscription =>
        simp only [h4] at hok
        cases h5 : env.fault .DeleteSubscription with
        | some e => simp [gorm.DeleteSubscription, h5] at hok
        | none =>
          simp only [gorm.DeleteSubscription, h5] at hok
          cases h6 : env.fault .DeleteToken with
          | some e => simp [gorm.DeleteToken, h6] at hok
          | none =>
            simp only [gorm.DeleteToken, h6] at hok
            cases h8 : env.fault (.Commit 1) with
            | some e => simp [h8] at hok
            | none =>
              refine ⟨token, subscription, ?_, ?_, ?_, ?_, ?_, ?_, ?_, ?_⟩
                <;>
                first
                | rfl
                | assumption
                | (simp only [Unsubscribe, gorm.DeleteSubscription, gorm.DeleteToken,
                    h1, h2, h3, h4, h5, h6, h8, ne_eq, not_true_eq_false, if_false]
                   cases env.send (Mail.SendUnsubscribeConfirmationEmail subscription.Email
                     subscription.City) <;> rfl)


theorem deleted_token_gone (db : DB) (tok : Token) (now now2 : Time)
    (huniq : TokenStringsUnique db) (ht : tok ∈ db.tokens) (htlive : tok.live = true) :
    ∀ t ∈ (db.tokens.map fun r =>
        if r.ID = tok.ID ∧ r.live = true then { r with DeletedAt := some now } else r),
      ¬ (t.DeletedAt = none ∧ t.Token = tok.Token ∧ now2 < t.ExpiresAt) := by
  intro t hmem hcon
  obtain ⟨r, hr, hrt⟩ := List.mem_map.mp hmem
  by_cases hcond : r.ID = tok.ID ∧ r.live = true
  · simp only [hcond, and_self, if_true] at hrt
    rw [← hrt] at hcon
    simp at hcon
  · simp only [hcond, if_false] at hrt
    subst hrt
    have : r = tok := List.inj_on_of_nodup_map huniq hr ht hcon.2.1
    subst this
    exact hcond ⟨rfl, htlive⟩

theorem deleted_subscription_gone (db : DB) (s : Subscription) (now : Time)
    (hinv : OneLivePerPair db) (hs : s ∈ db.subscriptions) (hslive : s.live = true) :
    ∀ r ∈ (db.subscriptions.map fun r =>
        if r.ID = s.ID ∧ r.live = true then { r with DeletedAt := some now } else r),
      (r.live && r.Email == s.Email && r.City == s.City) = false := by
  intro r hmem
  obtain ⟨r0, hr0, hrt⟩ := List.mem_map.mp hmem
  by_cases hcond : r0.ID = s.ID ∧ r0.live = true
  · simp only [hcond, and_self, if_true] at hrt
    rw [← hrt]
    simp [Subscription.live]
  · simp only [hcond, if_false] at hrt
    subst hrt
    by_contra hp
    simp only [Bool.not_eq_false] at hp
    have hmemf : r0 ∈ db.subscriptions.filter
        (fun r => r.live && r.Email == s.Email && r.City == s.City) :=
      List.mem_filter.mpr ⟨hr0, hp⟩
    rw [filter_live_pair hinv hs hslive rfl rfl, List.mem_singleton] at hmemf
    subst hmemf
    exact hcond ⟨rfl, hslive⟩

theorem FindByEmail_none_of (env : Env) (db : DB) (email city : String)
    (hread : env.fault .FindByEmail = none)
    (h : ∀ r ∈ db.subscriptions, (r.live && r.Email == email && r.City == city) = false) :
    SubscriptionRepository.FindByEmail env db email city = .ok none := by
  unfold SubscriptionRepository.FindByEmail gorm.First
  rw [hread]
  have hq : db.subscriptions.find?
      (fun s => s.live && s.Email == email && s.City == city) = none := by
    rw [List.find?_eq_none]
    intro r hr
    simp [h r hr]
  simp only [hq]

/-- C6: for a live, unexpired token `tok` of a live subscription `s` (at most one live
subscription per pair, unique token strings), after a successful `Unsubscribe(tok)`,
which only an "unsubscribe" token allows: `FindByEmail(s.Email, s.City)` returns no
subscription and `FindByToken(tok)` finds nothing, at any later time. -/
theorem Unsubscribe_success_state (env : Env) (db : DB) (tok : Token) (s : Subscription)
    (hinv : OneLivePerPair db) (huniq : TokenStringsUnique db)
    (ht : tok ∈ db.tokens) (htlive : tok.DeletedAt = none) (hexp : env.now < tok.ExpiresAt)
    (hs : s ∈ db.subscriptions) (hslive : s.DeletedAt = none)
    (hid : tok.SubscriptionID = s.ID)
    (hok : (Unsubscribe env db tok.Token).err = none) (env2 : Env) :
    (env2.fault .FindByEmail = none →
      SubscriptionRepository.FindByEmail env2 (Unsubscribe env db tok.Token).db s.Email s.City
        = .ok none) ∧
    (env2.fault (.FindByToken tok.Token) = none →
      TokenRepository.FindByToken env2 (Unsubscribe env db tok.Token).db tok.Token
        = .error "record not found") := by
  have htl : tok.live = true := by simp [Token.live, htlive]
  have hsl : s.live = true := by simp [Subscription.live, hslive]
  obtain ⟨token, found, h1, _, _, h4, _, _, _, hres⟩ := Unsubscribe_ok_inv hok
  have hread : env.fault (.FindByToken tok.Token) = none := by
    cases hf : env.fault (.FindByToken tok.Token) with
    | none => rfl
    | some e =>
      simp [TokenRepository.FindByToken, gorm.First, gorm.Query.toExcept, hf] at h1
  rw [FindByToken_found hread huniq ht htlive hexp] at h1
  simp only [Except.ok.injEq] at h1
  subst h1
  obtain ⟨_, _, hfid⟩ := FindByID_ok_spec h4
  have hfs : found.ID = s.ID := by rw [hfid, hid]
  have hsubs : (Unsubscribe env db tok.Token).db.subscriptions
      = db.subscriptions.map fun r =>
          if r.ID = s.ID ∧ r.live = true then { r with DeletedAt := some env.now } else r := by
    rw [hres, hfs]
  have htoks : (Unsubscribe env db tok.Token).db.tokens
      = db.tokens.map fun r =>
          if r.ID = tok.ID ∧ r.live = true then { r with DeletedAt := some env.now }
          else r := by
    rw [hres]
  constructor
  · intro hread2
    apply FindByEmail_none_of _ _ _ _ hread2
    rw [hsubs]
    exact deleted_subscription_gone db s env.now hinv hs hsl
  · intro hread2
    apply FindByToken_not_found _ _ _ hread2
    rw [htoks]
    exact deleted_token_gone db tok env.now env2.now huniq ht htl

theorem Unsubscribe_success_state_witness :
    SubscriptionRepository.FindByEmail sampleEnv (Unsubscribe sampleEnv sampleDB "tok-a").db
        "a@x.com" "Lima" = .ok none ∧
    TokenRepository.FindByToken sampleEnv (Unsubscribe sampleEnv sampleDB "tok-a").db "tok-a"
        = .error "record not found" :=
  (fun h => ⟨h.1 rfl, h.2 rfl⟩)
    (Unsubscribe_success_state sampleEnv sampleDB
      { ID := 1, Token := "tok-a", SubscriptionID := 1, TokenType := "unsubscribe",
        ExpiresAt := 1000000, CreatedAt := 20, DeletedAt := none }
      { ID := 1, Email := "a@x.com", City := "Lima", Frequency := "daily", Confirmed := true,
        CreatedAt := 10, UpdatedAt := 20, DeletedAt := none }
      (by decide) (by decide) (by decide) rfl (by decide) (by decide) rfl rfl (by decide)
      sampleEnv)

/-- C7: with the token lookup going through on a table with unique token strings,
`Unsubscribe(t)` returns "record not found" when no undeleted, unexpired token with
string `t` is stored, and returns "invalid token type" when such a token is stored with a
type other than "unsubscribe" (a confirmation token, say); in both cases both tables are
exactly as before, so nothing is soft-deleted, and the notifier is not called. -/
theorem Unsubscribe_rejects (env : Env) (db : DB) (tokenStr : String)
    (hread : env.fault (.FindByToken tokenStr) = none) (huniq : TokenStringsUnique db) :
    ((∀ t ∈ db.tokens,
        ¬ (t.DeletedAt = none ∧ t.Token = tokenStr ∧ env.now < t.ExpiresAt)) →
      Unsubscribe env db tokenStr = ⟨some "record not found", db, []⟩) ∧
    (∀ t ∈ db.tokens, t.DeletedAt = none → t.Token = tokenStr → env.now < t.ExpiresAt →
      t.TokenType ≠ "unsubscribe" →
      Unsubscribe env db tokenStr = ⟨some "invalid token type", db, []⟩) := by
  constructor
  · intro h
    exact Unsubscribe_lookup_error _ _ _ _ (FindByToken_not_found env db tokenStr hread h)
  · intro t ht hlive hstr hexp hty
    subst hstr
    unfold Unsubscribe
    rw [FindByToken_found hread huniq ht hlive hexp]
    simp [hty]

theorem Unsubscribe_rejects_witness :
    Unsubscribe sampleEnv sampleDB "no-such-token"
      = ⟨some "record not found", sampleDB, []⟩ ∧
    Unsubscribe sampleEnv sampleDB "tok-b"
      = ⟨some "invalid token type", sampleDB, []⟩ :=
  ⟨(Unsubscribe_rejects sampleEnv sampleDB "no-such-token" rfl (by decide)).1 (by decide),
   (Unsubscribe_rejects sampleEnv sampleDB "tok-b" rfl (by decide)).2
      { ID := 2, Token := "tok-b", SubscriptionID := 2, TokenType := "confirmation",
        ExpiresAt := 5000, CreatedAt := 30, DeletedAt := none }
      (by decide) rfl rfl (by decide) (by decide)⟩


/-! ## SendWeatherUpdate -/

theorem maxID_append (l : List Nat) (a : Nat) :
    gorm.maxID (l ++ [a]) = max (gorm.maxID l) a := by
  induction l with
  | nil => simp [gorm.maxID]
  | cons x t ih =>
    show max x (gorm.maxID (t ++ [a])) = max (max x (gorm.maxID t)) a
    rw [ih]
    omega

theorem FreshUUIDs_of_unused {env : Env} {db : DB}
    (hfresh : ∀ n, ∀ t ∈ db.tokens, t.Token ≠ env.uuid n) : FreshUUIDs env db :=
  fun t ht k _ => hfresh k t ht

theorem CreateToken_fresh (env : Env) (db : DB) (sid : Nat) (ty : String) (ttl : Nat)
    (hcreate : env.fault (.CreateToken sid) = none) (hinj : Function.Injective env.uuid)
    (hinv : FreshUUIDs env db) :
    ∃ tok db1, TokenRepository.CreateToken env db sid ty ttl = .ok (tok, db1) ∧
      FreshUUIDs env db1 := by
  have hno : db.tokens.any
      (fun r => r.Token == env.uuid (gorm.nextID (db.tokens.map (·.ID)))) = false := by
    rw [List.any_eq_false]
    intro r hr
    simpa using hinv r hr _ (Nat.le_refl _)
  cases hc : TokenRepository.CreateToken env db sid ty ttl with
  | error e => simp [TokenRepository.CreateToken, hcreate, hno] at hc
  | ok w =>
    obtain ⟨tok, db1⟩ := w
    obtain ⟨_, htok, hdb1, _⟩ := CreateToken_ok_spec hc
    refine ⟨tok, db1, rfl, ?_⟩
    rw [hdb1]
    intro t ht k hk
    have hid : tok.ID = gorm.maxID (db.tokens.map (·.ID)) + 1 := by rw [htok]; rfl
    have hstr : tok.Token = env.uuid (gorm.maxID (db.tokens.map (·.ID)) + 1) := by
      rw [htok]; rfl
    simp only [List.map_append, List.map_cons, List.map_nil, gorm.nextID, maxID_append,
      hid] at hk
    rcases List.mem_append.mp ht with h | h
    · exact hinv t h k (by simp only [gorm.nextID]; omega)
    · simp only [List.mem_singleton] at h
      subst h
      rw [hstr]
      intro heq
      have := hinj heq
      omega

theorem sendOne_spec (env : Env) (hcreate : ∀ id, env.fault (.CreateToken id) = none)
    (hinj : Function.Injective env.uuid) (db : DB) (mails : List Mail) (sub : Subscription)
    (hinv : FreshUUIDs env db) :
    ∃ db1, FreshUUIDs env db1 ∧
      ((weatherFails env sub = true ∧ sendOne env (db, mails) sub = (db1, mails)) ∨
       (∃ w url, env.GetWeather sub.City = .ok w ∧
          sendOne env (db, mails) sub
            = (db1, mails ++ [Mail.SendWeatherUpdateEmail sub.Email sub.City w url]))) := by
  cases hw : env.GetWeather sub.City with
  | error e =>
    exact ⟨db, hinv, Or.inl ⟨by simp [weatherFails, hw], by simp [sendOne, hw]⟩⟩
  | ok w =>
    cases hf : TokenRepository.FindByToken env db (toString sub.ID) with
    | ok token =>
      exact ⟨db, hinv, Or.inr ⟨w, env.AppBaseURL ++ "/api/unsubscribe/" ++ token.Token, rfl,
        by simp only [sendOne, hw, hf]; split <;> rfl⟩⟩
    | error e =>
      obtain ⟨tok, db1, hc, hinv1⟩ :=
        CreateToken_fresh env db sub.ID "unsubscribe" (365 * 24 * Hour) (hcreate _) hinj hinv
      exact ⟨db1, hinv1, Or.inr ⟨w, env.AppBaseURL ++ "/api/unsubscribe/" ++ tok.Token, rfl,
        by simp only [sendOne, hw, hf, hc]; split <;> rfl⟩⟩

theorem sendOne_fold (env : Env) (hcreate : ∀ id, env.fault (.CreateToken id) = none)
    (hinj : Function.Injective env.uuid) (subs : List Subscription) :
    ∀ (db : DB) (mails : List Mail), FreshUUIDs env db →
      ∃ db1 ms, subs.foldl (sendOne env) (db, mails) = (db1, mails ++ ms) ∧
        List.Forall₂
          (fun m s => ∃ w url, env.GetWeather s.City = .ok w ∧
            m = Mail.SendWeatherUpdateEmail s.Email s.City w url)
          ms (subs.filter fun s => !weatherFails env s) := by
  induction subs with
  | nil =>
    intro db mails _
    exact ⟨db, [], by simp, by simp⟩
  | cons a t ih =>
    intro db mails hinv
    obtain ⟨db1, hinv1, hstep⟩ := sendOne_spec env hcreate hinj db mails a hinv
    rcases hstep with ⟨hfail, hstep⟩ | ⟨w, url, hw, hstep⟩
    · obtain ⟨db2, ms, hfold, hall⟩ := ih db1 mails hinv1
      refine ⟨db2, ms, ?_, ?_⟩
      · rw [List.foldl_cons, hstep, hfold]
      · simpa [List.filter_cons, hfail] using hall
    · obtain ⟨db2, ms, hfold, hall⟩ :=
        ih db1 (mails ++ [Mail.SendWeatherUpdateEmail a.Email a.City w url]) hinv1
      refine ⟨db2, Mail.SendWeatherUpdateEmail a.Email a.City w url :: ms, ?_, ?_⟩
      · rw [List.foldl_cons, hstep, hfold]
        simp
      · have hnf : weatherFails env a = false := by simp [weatherFails, hw]
        simp only [List.filter_cons, hnf, Bool.not_false, if_true]
        exact List.Forall₂.cons ⟨w, url, hw, rfl⟩ hall


/-- C8: when the listing returns the cohort `subs`, the weather lookup fails for exactly
one of its subscriptions, token creation succeeds (no insert is refused, the uuid
generator draws pairwise different strings none of which is stored) and the notifier
accepts every email: `SendWeatherUpdate` returns no error and its weather emails are, in
order, one per subscription whose lookup succeeded (those after the failing one
included) and none for the failing one, so `N - 1` emails, every one accepted. -/
theorem SendWeatherUpdate_one_failed_lookup (env : Env) (db : DB) (frequency : String)
    (subs : List Subscription)
    (hlist : SubscriptionRepository.GetSubscriptionsForUpdates env db frequency = .ok subs)
    (hone : (subs.filter (weatherFails env)).length = 1)
    (hcreate : ∀ id, env.fault (.CreateToken id) = none)
    (hinj : Function.Injective env.uuid)
    (hfresh : ∀ n, ∀ t ∈ db.tokens, t.Token ≠ env.uuid n)
    (hsend : ∀ m, env.send m = none) :
    (SendWeatherUpdate env db frequency).err = none ∧
    List.Forall₂
      (fun m s => ∃ w url, env.GetWeather s.City = .ok w ∧
        m = Mail.SendWeatherUpdateEmail s.Email s.City w url)
      (SendWeatherUpdate env db frequency).mails
      (subs.filter fun s => !weatherFails env s) ∧
    (SendWeatherUpdate env db frequency).mails.length = subs.length - 1 ∧
    ∀ m ∈ (SendWeatherUpdate env db frequency).mails, env.send m = none := by
  obtain ⟨db1, ms, hfold, hall⟩ :=
    sendOne_fold env hcreate hinj subs db [] (FreshUUIDs_of_unused hfresh)
  have hres : SendWeatherUpdate env db frequency = ⟨none, db1, ms⟩ := by
    simp [SendWeatherUpdate, hlist, hfold]
  rw [hres]
  refine ⟨rfl, hall, ?_, fun m _ => hsend m⟩
  have hlen := subs.length_eq_length_filter_add (weatherFails env)
  rw [hone] at hlen
  simp only
  rw [hall.length_eq, hlen]
  omega

theorem sampleEnv_uuid_injective : Function.Injective sampleEnv.uuid := by
  intro a b h
  have h1 : List.replicate (a + 2) 'u' = List.replicate (b + 2) 'u' :=
    congrArg String.data h
  have h2 := congrArg List.length h1
  simp only [List.length_replicate] at h2
  omega

theorem SendWeatherUpdate_one_failed_lookup_witness :
    (SendWeatherUpdate sampleEnv broadcastDB "daily").err = none ∧
    List.Forall₂
      (fun m s => ∃ w url, sampleEnv.GetWeather s.City = .ok w ∧
        m = Mail.SendWeatherUpdateEmail s.Email s.City w url)
      (SendWeatherUpdate sampleEnv broadcastDB "daily").mails
      (broadcastDB.subscriptions.filter fun s => !weatherFails sampleEnv s) ∧
    (SendWeatherUpdate sampleEnv broadcastDB "daily").mails.length
      = broadcastDB.subscriptions.length - 1 ∧
    ∀ m ∈ (SendWeatherUpdate sampleEnv broadcastDB "daily").mails, sampleEnv.send m = none :=
  SendWeatherUpdate_one_failed_lookup sampleEnv broadcastDB "daily" broadcastDB.subscriptions
    rfl (by decide) (fun _ => rfl) sampleEnv_uuid_injective
    (fun _ t ht => absurd ht (List.not_mem_nil t)) (fun _ => rfl)

/-- C9 (counterexample): when the database refuses the listing query,
`SendWeatherUpdate` returns that error to its caller. -/
theorem SendWeatherUpdate_listing_error :
    (SendWeatherUpdate listFaultEnv sampleDB "daily").err = some "connection refused" := by
  decide

/-- When every weather lookup returns (a reading or an error), the error returned by
`SendWeatherUpdate` is that of the initial listing, whatever the token store and the
notifier do inside the loop. -/
theorem SendWeatherUpdate_err (env : Env) (db : DB) (frequency : String) :
    (SendWeatherUpdate env db frequency).err = env.fault .GetSubscriptionsForUpdates := by
  unfold SendWeatherUpdate SubscriptionRepository.GetSubscriptionsForUpdates
  cases env.fault .GetSubscriptionsForUpdates <;> rfl


/-! ## Store failures -/

/-- C10 (counterexample): with a database that refuses every token insert, the daily
broadcast over the sample table reaches the Lima subscription, gets its weather, finds
no token under the string "1", has its `CreateToken` call refused, and still returns no
error (the subscription is skipped, nothing is stored or sent). -/
theorem SendWeatherUpdate_absorbs_token_failure :
    SubscriptionRepository.GetSubscriptionsForUpdates tokenFaultEnv sampleDB "daily"
      = .ok [{ ID := 1, Email := "a@x.com", City := "Lima", Frequency := "daily",
               Confirmed := true, CreatedAt := 10, UpdatedAt := 20, DeletedAt := none }] ∧
    tokenFaultEnv.GetWeather "Lima"
      = .ok { Temperature := 15, Humidity := 76, Description := "Partly cloudy" } ∧
    TokenRepository.FindByToken tokenFaultEnv sampleDB (toString 1)
      = .error "record not found" ∧
    TokenRepository.CreateToken tokenFaultEnv sampleDB 1 "unsubscribe" (365 * 24 * Hour)
      = .error "connection refused" ∧
    SendWeatherUpdate tokenFaultEnv sampleDB "daily" = ⟨none, sampleDB, []⟩ := by
  refine ⟨rfl, rfl, rfl, rfl, ?_⟩
  decide

/-- C10 (amended): `Subscribe`, `ConfirmSubscription` and `Unsubscribe` return no error
only if every store call on their path returned without error (lookup, begin, save or
create, delete, re-read, token creation, commit), and `SendWeatherUpdate` returns no
error only if its listing query did; so in these places a failing store call always
yields an error.  (Token lookup and token creation inside the loop of
`SendWeatherUpdate` are not among them.) -/
theorem store_failures_propagate (env : Env) (db : DB) :
    (∀ req : SubscriptionRequest, (Subscribe env db req).err = none →
      ∃ existing subscription db1 refreshed token db2,
        SubscriptionRepository.FindByEmail env db req.Email req.City = .ok existing ∧
        env.fault (.Begin 1) = none ∧
        writeSubscription env db req existing = .ok (subscription, db1) ∧
        env.fault (.Commit 1) = none ∧
        env.fault (.Begin 2) = none ∧
        (gorm.First (env.fault .First) db1.subscriptions
          (fun s => s.live && s.ID == subscription.ID)).toExcept = .ok refreshed ∧
        TokenRepository.CreateToken env db1 refreshed.ID "confirmation" (24 * Hour)
          = .ok (token, db2) ∧
        env.fault (.Commit 2) = none) ∧
    (∀ tokenStr : String, (ConfirmSubscription env db tokenStr).err = none →
      ∃ token found unsubscribeToken db1,
        TokenRepository.FindByToken env db tokenStr = .ok token ∧
        env.fault (.Begin 1) = none ∧
        SubscriptionRepository.FindByID env db token.SubscriptionID = .ok found ∧
        env.fault .Save = none ∧
        env.fault .DeleteToken = none ∧
        TokenRepository.CreateToken env db found.ID "unsubscribe" (365 * 24 * Hour)
          = .ok (unsubscribeToken, db1) ∧
        env.fault (.Commit 1) = none) ∧
    (∀ tokenStr : String, (Unsubscribe env db tokenStr).err = none →
      ∃ token subscription,
        TokenRepository.FindByToken env db tokenStr = .ok token ∧
        env.fault (.Begin 1) = none ∧
        SubscriptionRepository.FindByID env db token.SubscriptionID = .ok subscription ∧
        env.fault .DeleteSubscription = none ∧
        env.fault .DeleteToken = none ∧
        env.fault (.Commit 1) = none) ∧
    (∀ frequency : String, (SendWeatherUpdate env db frequency).err = none →
      ∃ subscriptions,
        SubscriptionRepository.GetSubscriptionsForUpdates env db frequency
          = .ok subscriptions) := by
  refine ⟨?_, ?_, ?_, ?_⟩
  · intro req hok
    obtain ⟨existing, sub, db1, refreshed, token, db2, h1, _, h3, h4, h5, h6, h7, h8, h9, _⟩ :=
      Subscribe_ok_inv hok
    exact ⟨existing, sub, db1, refreshed, token, db2, h1, h3, h4, h5, h6, h7, h8, h9⟩
  · intro tokenStr hok
    obtain ⟨token, found, new, db1, h1, _, h3, h4, h5, h6, h7, h8, _⟩ :=
      ConfirmSubscription_ok_inv hok
    exact ⟨token, found, new, db1, h1, h3, h4, h5, h6, h7, h8⟩
  · intro tokenStr hok
    obtain ⟨token, sub, h1, _, h3, h4, h5, h6, h7, _⟩ := Unsubscribe_ok_inv hok
    exact ⟨token, sub, h1, h3, h4, h5, h6, h7⟩
  · intro frequency hok
    unfold SendWeatherUpdate at hok
    cases h : SubscriptionRepository.GetSubscriptionsForUpdates env db frequency with
    | error e => simp [h] at hok
    | ok subs => exact ⟨subs, rfl⟩

theorem store_failures_propagate_witness :
    ∃ existing subscription db1 refreshed token db2,
      SubscriptionRepository.FindByEmail sampleEnv sampleDB "c@x.com" "Kyiv" = .ok existing ∧
      sampleEnv.fault (.Begin 1) = none ∧
      writeSubscription sampleEnv sampleDB ⟨"c@x.com", "Kyiv", "daily"⟩ existing
        = .ok (subscription, db1) ∧
      sampleEnv.fault (.Commit 1) = none ∧
      sampleEnv.fault (.Begin 2) = none ∧
      (gorm.First (sampleEnv.fault .First) db1.subscriptions
        (fun s => s.live && s.ID == subscription.ID)).toExcept = .ok refreshed ∧
      TokenRepository.CreateToken sampleEnv db1 refreshed.ID "confirmation" (24 * Hour)
        = .ok (token, db2) ∧
      sampleEnv.fault (.Commit 2) = none :=
  (store_failures_propagate sampleEnv sampleDB).1 ⟨"c@x.com", "Kyiv", "daily"⟩ (by decide)


/-! ## Notifier failures -/

theorem withSend_fault (env : Env) (s : Mail → Option Error) :
    (env.withSend s).fault = env.fault := rfl

theorem withSend_now (env : Env) (s : Mail → Option Error) :
    (env.withSend s).now = env.now := rfl

theorem withSend_AppBaseURL (env : Env) (s : Mail → Option Error) :
    (env.withSend s).AppBaseURL = env.AppBaseURL := rfl

theorem withSend_send (env : Env) (s : Mail → Option Error) :
    (env.withSend s).send = s := rfl

theorem FindByToken_withSend (env : Env) (s : Mail → Option Error) (db : DB)
    (tokenStr : String) :
    TokenRepository.FindByToken (env.withSend s) db tokenStr
      = TokenRepository.FindByToken env db tokenStr := rfl

theorem FindByID_withSend (env : Env) (s : Mail → Option Error) (db : DB) (id : Nat) :
    SubscriptionRepository.FindByID (env.withSend s) db id
      = SubscriptionRepository.FindByID env db id := rfl

theorem CreateToken_withSend (env : Env) (s : Mail → Option Error) (db : DB) (id : Nat)
    (ty : String) (ttl : Nat) :
    TokenRepository.CreateToken (env.withSend s) db id ty ttl
      = TokenRepository.CreateToken env db id ty ttl := rfl

/-- C11: when every store step of `Subscribe` succeeds (the call returns no error with a
notifier that accepts the email) and the notifier refuses the confirmation email,
`Subscribe` returns an error whose message is "failed to send confirmation email: "
followed by the notifier's error, it made the same notifier call, and the database
(subscription row and new confirmation token included) is exactly the one left when the
email is accepted. -/
theorem Subscribe_email_failure (env : Env) (db : DB) (req : SubscriptionRequest)
    (hstore : (Subscribe (env.withSend fun _ => none) db req).err = none)
    (hfail : ∀ m ∈ (Subscribe (env.withSend fun _ => none) db req).mails, env.send m ≠ none) :
    (∃ e, (Subscribe env db req).err = some ("failed to send confirmation email: " ++ e)) ∧
    (Subscribe env db req).db = (Subscribe (env.withSend fun _ => none) db req).db ∧
    (Subscribe env db req).mails = (Subscribe (env.withSend fun _ => none) db req).mails := by
  obtain ⟨existing, sub, db1, refreshed, token, db2, h1, h2, h3, h4, h5, h6, h7, h8, h9, h10⟩ :=
    Subscribe_ok_inv hstore
  have g1 : SubscriptionRepository.FindByEmail env db req.Email req.City = .ok existing := h1
  have g3 : env.fault (.Begin 1) = none := h3
  have g4 : writeSubscription env db req existing = .ok (sub, db1) := h4
  have g5 : env.fault (.Commit 1) = none := h5
  have g6 : env.fault (.Begin 2) = none := h6
  have g7 : (gorm.First (env.fault .First) db1.subscriptions
      (fun s => s.live && s.ID == sub.ID)).toExcept = .ok refreshed := h7
  have g8 : TokenRepository.CreateToken env db1 refreshed.ID "confirmation" (24 * Hour)
      = .ok (token, db2) := h8
  have g9 : env.fault (.Commit 2) = none := h9
  rw [h10] at hfail ⊢
  have hsend := hfail _ (List.mem_singleton_self _)
  rw [withSend_AppBaseURL] at hsend ⊢
  cases hs : env.send (Mail.SendConfirmationEmail refreshed.Email
      (env.AppBaseURL ++ "/api/confirm/" ++ token.Token) refreshed.City) with
  | none => exact absurd hs hsend
  | some e =>
    have hres : Subscribe env db req
        = ⟨some ("failed to send confirmation email: " ++ e), db2,
            [Mail.SendConfirmationEmail refreshed.Email
              (env.AppBaseURL ++ "/api/confirm/" ++ token.Token) refreshed.City]⟩ := by
      simp [Subscribe, g1, h2, g3, g4, g5, g6, g7, g8, g9, hs]
    rw [hres]
    exact ⟨⟨e, rfl⟩, rfl, rfl⟩

theorem Subscribe_email_failure_witness :
    (∃ e, (Subscribe refusingEnv sampleDB ⟨"c@x.com", "Kyiv", "daily"⟩).err
      = some ("failed to send confirmation email: " ++ e)) ∧
    (Subscribe refusingEnv sampleDB ⟨"c@x.com", "Kyiv", "daily"⟩).db
      = (Subscribe (refusingEnv.withSend fun _ => none) sampleDB
          ⟨"c@x.com", "Kyiv", "daily"⟩).db ∧
    (Subscribe refusingEnv sampleDB ⟨"c@x.com", "Kyiv", "daily"⟩).mails
      = (Subscribe (refusingEnv.withSend fun _ => none) sampleDB
          ⟨"c@x.com", "Kyiv", "daily"⟩).mails :=
  Subscribe_email_failure refusingEnv sampleDB ⟨"c@x.com", "Kyiv", "daily"⟩
    (by decide) (by decide)

/-- C12: `ConfirmSubscription` and `Unsubscribe` do not depend on the notifier: for every
environment, store state and token string, the returned error, the database and the
notifier call made are the same for any two notifiers, one that accepts every email and
one that refuses every email included. -/
theorem confirm_unsubscribe_ignore_notifier (env : Env) (db : DB) (tokenStr : String)
    (send1 send2 : Mail → Option Error) :
    ConfirmSubscription (env.withSend send1) db tokenStr
      = ConfirmSubscription (env.withSend send2) db tokenStr ∧
    Unsubscribe (env.withSend send1) db tokenStr
      = Unsubscribe (env.withSend send2) db tokenStr := by
  constructor
  · simp only [ConfirmSubscription, FindByToken_withSend, FindByID_withSend,
      CreateToken_withSend, withSend_fault, withSend_now, withSend_AppBaseURL, withSend_send]
    repeat' split
    all_goals rfl
  · simp only [Unsubscribe, FindByToken_withSend, FindByID_withSend, withSend_fault,
      withSend_now, withSend_send]
    repeat' split
    all_goals rfl


/-! ## Token lookup and sweep -/

theorem FindByToken_created (env0 env : Env) (db0 db : DB) (sid : Nat) (ty : String)
    (ttl : Nat) (tok : Token)
    (hc : TokenRepository.CreateToken env0 db0 sid ty ttl = .ok (tok, db))
    (hread : env.fault (.FindByToken tok.Token) = none) :
    tok ∈ db.tokens ∧ tok.DeletedAt = none ∧ tok.ExpiresAt = env0.now + ttl ∧
    (env.now < env0.now + ttl → TokenRepository.FindByToken env db tok.Token = .ok tok) ∧
    (env0.now + ttl ≤ env.now →
      TokenRepository.FindByToken env db tok.Token = .error "record not found") := by
  obtain ⟨_, htok, hdb, hfresh⟩ := CreateToken_ok_spec hc
  have hexp : tok.ExpiresAt = env0.now + ttl := by rw [htok]
  have hdel : tok.DeletedAt = none := by rw [htok]
  have hold : db0.tokens.find?
      (fun t => t.live && t.Token == tok.Token && decide (t.ExpiresAt > env.now)) = none := by
    rw [List.find?_eq_none]
    intro r hr
    simp [hfresh r hr]
  have htoks : db.tokens = db0.tokens ++ [tok] := by rw [hdb]
  refine ⟨by rw [htoks]; simp, hdel, hexp, ?_, ?_⟩
  · intro hlt
    unfold TokenRepository.FindByToken gorm.First
    rw [hread, htoks, List.find?_append, hold]
    simp [Token.live, hdel, hexp, hlt, gorm.Query.toExcept]
  · intro hge
    unfold TokenRepository.FindByToken gorm.First
    rw [hread, htoks, List.find?_append, hold]
    have : ¬ (env.now < env0.now + ttl) := Nat.not_lt.mpr hge
    simp [hexp, this, gorm.Query.toExcept, gorm.ErrRecordNotFound]

/-- C13: with the lookup going through, `FindByToken(s)` returns a token only if it is
an undeleted row with string `s` and expiry strictly after now, returns one whenever such
a row is stored (that very row when token strings are unique), and otherwise returns
"record not found" and no token.  A token created by `CreateToken` is in the table
undeleted, is found by its string at every time before its expiry `issue + ttl`, and is
not found from its expiry on although its row is still stored; a string no undeleted
row carries is not found. -/
theorem FindByToken_spec (env : Env) (db : DB) (s : String)
    (hread : env.fault (.FindByToken s) = none) :
    (∀ t, TokenRepository.FindByToken env db s = .ok t →
      t ∈ db.tokens ∧ t.DeletedAt = none ∧ t.Token = s ∧ env.now < t.ExpiresAt) ∧
    ((∃ t ∈ db.tokens, t.DeletedAt = none ∧ t.Token = s ∧ env.now < t.ExpiresAt) →
      ∃ t, TokenRepository.FindByToken env db s = .ok t) ∧
    (TokenStringsUnique db → ∀ t ∈ db.tokens, t.DeletedAt = none → t.Token = s →
      env.now < t.ExpiresAt → TokenRepository.FindByToken env db s = .ok t) ∧
    ((∀ t ∈ db.tokens, ¬ (t.DeletedAt = none ∧ t.Token = s ∧ env.now < t.ExpiresAt)) →
      TokenRepository.FindByToken env db s = .error "record not found") ∧
    ((∀ t ∈ db.tokens, t.DeletedAt = none → t.Token ≠ s) →
      TokenRepository.FindByToken env db s = .error "record not found") ∧
    (∀ (env0 : Env) (db0 : DB) (sid : Nat) (ty : String) (ttl : Nat) (tok : Token),
      TokenRepository.CreateToken env0 db0 sid ty ttl = .ok (tok, db) → tok.Token = s →
      tok ∈ db.tokens ∧ tok.DeletedAt = none ∧ tok.ExpiresAt = env0.now + ttl ∧
      (env.now < env0.now + ttl → TokenRepository.FindByToken env db s = .ok tok) ∧
      (env0.now + ttl ≤ env.now →
        TokenRepository.FindByToken env db s = .error "record not found")) := by
  refine ⟨fun t h => FindByToken_ok_spec h, ?_, ?_, ?_, ?_, ?_⟩
  · rintro ⟨t, ht, hlive, hstr, hexp⟩
    cases hq : TokenRepository.FindByToken env db s with
    | ok r => exact ⟨r, rfl⟩
    | error e =>
      exfalso
      unfold TokenRepository.FindByToken gorm.First at hq
      rw [hread] at hq
      cases hf : db.tokens.find?
          (fun t => t.live && t.Token == s && decide (t.ExpiresAt > env.now)) with
      | some r => simp [hf, gorm.Query.toExcept] at hq
      | none =>
        have := List.find?_eq_none.mp hf t ht
        simp [Token.live, hlive, hstr, hexp] at this
  · intro huniq t ht hlive hstr hexp
    subst hstr
    exact FindByToken_found hread huniq ht hlive hexp
  · intro h
    exact FindByToken_not_found env db s hread h
  · intro h
    exact FindByToken_not_found env db s hread fun t ht hcon => h t ht hcon.1 hcon.2.1
  · intro env0 db0 sid ty ttl tok hc hstr
    subst hstr
    exact FindByToken_created env0 env db0 db sid ty ttl tok hc hread

theorem FindByToken_spec_witness :
    TokenRepository.FindByToken sampleEnv sampleDB "tok-b"
      = .ok { ID := 2, Token := "tok-b", SubscriptionID := 2, TokenType := "confirmation",
              ExpiresAt := 5000, CreatedAt := 30, DeletedAt := none } ∧
    TokenRepository.FindByToken (tokenFaultEnv.withSend fun _ => none) sampleDB "tok-c"
      = .error "record not found" :=
  ⟨(FindByToken_spec sampleEnv sampleDB "tok-b" rfl).2.2.1 (by decide)
      { ID := 2, Token := "tok-b", SubscriptionID := 2, TokenType := "confirmation",
        ExpiresAt := 5000, CreatedAt := 30, DeletedAt := none }
      (by decide) rfl rfl (by decide),
   (FindByToken_spec (tokenFaultEnv.withSend fun _ => none) sampleDB "tok-c" rfl).2.2.2.1
      (by decide)⟩


theorem sweep_live_count (now : Time) (tokens : List Token) :
    (tokens.filter fun t => t.live).length
      = ((tokens.map fun t =>
            if t.live = true ∧ t.ExpiresAt < now then { t with DeletedAt := some now }
            else t).filter fun t => t.live).length
        + (tokens.filter fun t => t.live && decide (t.ExpiresAt < now)).length := by
  induction tokens with
  | nil => rfl
  | cons a t ih =>
    simp only [Token.live] at ih ⊢
    by_cases hl : a.DeletedAt = none <;> by_cases he : a.ExpiresAt < now <;>
      simp [List.filter_cons, hl, he] at ih ⊢ <;> omega

/-- C14: with the delete statement going through, `DeleteExpiredTokens` returns no
error, leaves the subscriptions alone and rewrites the token table row by row: an
undeleted row whose expiry is before now becomes the same row soft-deleted at now, every
other row (expiry now or later, or deleted earlier) is the same.  So no undeleted row with
a past expiry remains, the printed `RowsAffected` is the number of undeleted past-expiry
rows and is the number by which the undeleted rows decrease, and a second sweep at once
(at a time before which no further undeleted token expires) affects 0 rows and returns
the same database. -/
theorem DeleteExpiredTokens_spec (env : Env) (db : DB)
    (hread : env.fault .DeleteExpiredTokens = none) :
    (TokenRepository.DeleteExpiredTokens env db).err = none ∧
    (TokenRepository.DeleteExpiredTokens env db).db.subscriptions = db.subscriptions ∧
    List.Forall₂
      (fun old new =>
        (old.DeletedAt = none ∧ old.ExpiresAt < env.now →
          new = { old with DeletedAt := some env.now }) ∧
        (¬ (old.DeletedAt = none ∧ old.ExpiresAt < env.now) → new = old))
      db.tokens (TokenRepository.DeleteExpiredTokens env db).db.tokens ∧
    (∀ t ∈ (TokenRepository.DeleteExpiredTokens env db).db.tokens,
      ¬ (t.DeletedAt = none ∧ t.ExpiresAt < env.now)) ∧
    (TokenRepository.DeleteExpiredTokens env db).rowsAffected
      = (db.tokens.filter fun t => t.live && decide (t.ExpiresAt < env.now)).length ∧
    (db.tokens.filter fun t => t.live).length
      = ((TokenRepository.DeleteExpiredTokens env db).db.tokens.filter fun t => t.live).length
        + (TokenRepository.DeleteExpiredTokens env db).rowsAffected ∧
    (∀ env2 : Env, env2.fault .DeleteExpiredTokens = none →
      (∀ t ∈ db.tokens, t.DeletedAt = none → env.now ≤ t.ExpiresAt →
        env2.now ≤ t.ExpiresAt) →
      TokenRepository.DeleteExpiredTokens env2 (TokenRepository.DeleteExpiredTokens env db).db
        = ⟨none, 0, (TokenRepository.DeleteExpiredTokens env db).db⟩) := by
  have hres : TokenRepository.DeleteExpiredTokens env db
      = ⟨none, (db.tokens.filter fun t => t.live && decide (t.ExpiresAt < env.now)).length,
          { db with tokens := db.tokens.map fun t =>
              if t.live = true ∧ t.ExpiresAt < env.now then
                { t with DeletedAt := some env.now }
              else t }⟩ := by
    simp [TokenRepository.DeleteExpiredTokens, hread]
  have hgone : ∀ (now2 : Time),
      (∀ t ∈ db.tokens, t.DeletedAt = none → env.now ≤ t.ExpiresAt → now2 ≤ t.ExpiresAt) →
      ∀ t ∈ (db.tokens.map fun t =>
          if t.live = true ∧ t.ExpiresAt < env.now then { t with DeletedAt := some env.now }
          else t),
        ¬ (t.live = true ∧ t.ExpiresAt < now2) := by
    intro now2 hlater t hmem hcon
    obtain ⟨r, hr, hrt⟩ := List.mem_map.mp hmem
    by_cases hcond : r.live = true ∧ r.ExpiresAt < env.now
    · simp only [hcond, and_self, if_true] at hrt
      rw [← hrt] at hcon
      simp [Token.live] at hcon
    · simp only [hcond, if_false] at hrt
      subst hrt
      have hl : r.DeletedAt = none := by simpa [Token.live] using hcon.1
      have hne : ¬ r.ExpiresAt < env.now := fun h => hcond ⟨hcon.1, h⟩
      have := hlater r hr hl (Nat.le_of_not_lt hne)
      exact absurd hcon.2 (Nat.not_lt.mpr this)
  rw [hres]
  refine ⟨rfl, rfl, ?_, ?_, rfl, sweep_live_count env.now db.tokens, ?_⟩
  · simp only
    rw [List.forall₂_map_right_iff]
    apply List.forall₂_same.mpr
    intro t _
    by_cases hcond : t.DeletedAt = none ∧ t.ExpiresAt < env.now
    · simp [Token.live, hcond]
    · have : ¬ (t.live = true ∧ t.ExpiresAt < env.now) := by
        simpa [Token.live] using hcond
      simp [this, hcond]
  · intro t ht hcon
    exact hgone env.now (fun _ _ _ h => h) t ht ⟨by simp [Token.live, hcon.1], hcon.2⟩
  · intro env2 hread2 hlater
    have hg := hgone env2.now hlater
    simp only [TokenRepository.DeleteExpiredTokens, hread2]
    have hfilter : (List.filter (fun t => t.live && decide (t.ExpiresAt < env2.now))
        (db.tokens.map fun t =>
          if t.live = true ∧ t.ExpiresAt < env.now then { t with DeletedAt := some env.now }
          else t)) = [] := by
      rw [List.filter_eq_nil_iff]
      intro t ht hp
      simp only [Bool.and_eq_true, decide_eq_true_eq] at hp
      exact hg t ht hp
    have hmap : (List.map (fun t =>
          if t.live = true ∧ t.ExpiresAt < env2.now then { t with DeletedAt := some env2.now }
          else t)
        (db.tokens.map fun t =>
          if t.live = true ∧ t.ExpiresAt < env.now then { t with DeletedAt := some env.now }
          else t))
        = (db.tokens.map fun t =>
          if t.live = true ∧ t.ExpiresAt < env.now then { t with DeletedAt := some env.now }
          else t) := by
      conv_rhs => rw [← List.map_id (db.tokens.map _)]
      apply List.map_congr_left
      intro t ht
      simp [hg t ht]
    rw [hfilter, hmap]
    rfl


theorem DeleteExpiredTokens_spec_witness :
    (TokenRepository.DeleteExpiredTokens { sampleEnv with now := 6000 } sampleDB).err = none ∧
    (∀ t ∈ (TokenRepository.DeleteExpiredTokens { sampleEnv with now := 6000 } sampleDB).db.tokens,
      ¬ (t.DeletedAt = none ∧ t.ExpiresAt < 6000)) ∧
    (TokenRepository.DeleteExpiredTokens { sampleEnv with now := 6000 } sampleDB).rowsAffected
      = (sampleDB.tokens.filter fun t => t.live && decide (t.ExpiresAt < 6000)).length :=
  (fun h => ⟨h.1, h.2.2.2.1, h.2.2.2.2.1⟩)
    (DeleteExpiredTokens_spec { sampleEnv with now := 6000 } sampleDB rfl)

/-! ## The lifecycle from an empty store -/

/-- C15: from the empty store, with every store call going through, the notifier
accepting the confirmation email, the confirm made before the confirmation token expires,
the unsubscribe made before the unsubscribe token expires, and the second uuid not a
repeat of the first: `Subscribe("a@x.com", "Lima", "daily")` returns no error and
issues one confirmation token; `ConfirmSubscription` on its string returns no error,
leaves the one subscription row live with `Confirmed = true`, and issues an unsubscribe
token; `Unsubscribe` on that string returns no error; and afterwards
`FindByEmail("a@x.com", "Lima")` returns no subscription. -/
theorem lifecycle_from_empty (e1 e2 e3 e4 : Env)
    (hf1 : ∀ c, e1.fault c = none) (hf2 : ∀ c, e2.fault c = none)
    (hf3 : ∀ c, e3.fault c = none) (hf4 : e4.fault .FindByEmail = none)
    (hs1 : ∀ m, e1.send m = none)
    (ht2 : e2.now < e1.now + 24 * Hour) (ht3 : e3.now < e2.now + 365 * 24 * Hour)
    (hu : e2.uuid 2 ≠ e1.uuid 1) :
    ∃ confirmation unsubscribeToken sub,
      (Subscribe e1 ⟨[], []⟩ ⟨"a@x.com", "Lima", "daily"⟩).err = none ∧
      (Subscribe e1 ⟨[], []⟩ ⟨"a@x.com", "Lima", "daily"⟩).db.tokens = [confirmation] ∧
      confirmation.TokenType = "confirmation" ∧
      (ConfirmSubscription e2 (Subscribe e1 ⟨[], []⟩ ⟨"a@x.com", "Lima", "daily"⟩).db
        confirmation.Token).err = none ∧
      (ConfirmSubscription e2 (Subscribe e1 ⟨[], []⟩ ⟨"a@x.com", "Lima", "daily"⟩).db
        confirmation.Token).db.subscriptions = [sub] ∧
      sub.Email = "a@x.com" ∧ sub.City = "Lima" ∧ sub.Frequency = "daily" ∧
      sub.Confirmed = true ∧ sub.DeletedAt = none ∧
      (ConfirmSubscription e2 (Subscribe e1 ⟨[], []⟩ ⟨"a@x.com", "Lima", "daily"⟩).db
        confirmation.Token).db.tokens
        = [{ confirmation with DeletedAt := some e2.now }, unsubscribeToken] ∧
      unsubscribeToken.TokenType = "unsubscribe" ∧ unsubscribeToken.DeletedAt = none ∧
      (Unsubscribe e3
        (ConfirmSubscription e2 (Subscribe e1 ⟨[], []⟩ ⟨"a@x.com", "Lima", "daily"⟩).db
          confirmation.Token).db unsubscribeToken.Token).err = none ∧
      SubscriptionRepository.FindByEmail e4
        (Unsubscribe e3
          (ConfirmSubscription e2 (Subscribe e1 ⟨[], []⟩ ⟨"a@x.com", "Lima", "daily"⟩).db
            confirmation.Token).db unsubscribeToken.Token).db
        "a@x.com" "Lima" = .ok none := by
  have h1 : Subscribe e1 ⟨[], []⟩ ⟨"a@x.com", "Lima", "daily"⟩
      = ⟨none,
         ⟨[{ ID := 1, Email := "a@x.com", City := "Lima", Frequency := "daily",
             Confirmed := false, CreatedAt := e1.now, UpdatedAt := e1.now,
             DeletedAt := none }],
          [{ ID := 1, Token := e1.uuid 1, SubscriptionID := 1, TokenType := "confirmation",
             ExpiresAt := e1.now + 24 * Hour, CreatedAt := e1.now, DeletedAt := none }]⟩,
         [Mail.SendConfirmationEmail "a@x.com"
           (e1.AppBaseURL ++ "/api/confirm/" ++ e1.uuid 1) "Lima"]⟩ := by
    simp [Subscribe, SubscriptionRepository.FindByEmail, gorm.First, writeSubscription,
      gorm.CreateSubscription, TokenRepository.CreateToken, gorm.Query.toExcept,
      gorm.nextID, gorm.maxID, Subscription.live, hf1, hs1]
  have h2 : ConfirmSubscription e2
      ⟨[{ ID := 1, Email := "a@x.com", City := "Lima", Frequency := "daily",
          Confirmed := false, CreatedAt := e1.now, UpdatedAt := e1.now,
          DeletedAt := none }],
       [{ ID := 1, Token := e1.uuid 1, SubscriptionID := 1, TokenType := "confirmation",
          ExpiresAt := e1.now + 24 * Hour, CreatedAt := e1.now, DeletedAt := none }]⟩
      (e1.uuid 1)
      = ⟨none,
         ⟨[{ ID := 1, Email := "a@x.com", City := "Lima", Frequency := "daily",
             Confirmed := true, CreatedAt := e1.now, UpdatedAt := e2.now,
             DeletedAt := none }],
          [{ ID := 1, Token := e1.uuid 1, SubscriptionID := 1, TokenType := "confirmation",
             ExpiresAt := e1.now + 24 * Hour, CreatedAt := e1.now,
             DeletedAt := some e2.now },
           { ID := 2, Token := e2.uuid 2, SubscriptionID := 1, TokenType := "unsubscribe",
             ExpiresAt := e2.now + 365 * 24 * Hour, CreatedAt := e2.now,
             DeletedAt := none }]⟩,
         [Mail.SendWelcomeEmail "a@x.com" "Lima" "daily"
           (e2.AppBaseURL ++ "/api/unsubscribe/" ++ e2.uuid 2)]⟩ := by
    have hne : (e1.uuid 1 == e2.uuid 2) = false := by
      simpa using fun h => hu h.symm
    simp only [ConfirmSubscription, TokenRepository.FindByToken,
      SubscriptionRepository.FindByID, gorm.First, gorm.SaveSubscription, gorm.DeleteToken,
      TokenRepository.CreateToken, gorm.Query.toExcept, gorm.nextID, gorm.maxID,
      Subscription.live, Token.live, hf2]
    simp [ht2, hne]
    split <;> rfl
  have h3 : Unsubscribe e3
      ⟨[{ ID := 1, Email := "a@x.com", City := "Lima", Frequency := "daily",
          Confirmed := true, CreatedAt := e1.now, UpdatedAt := e2.now,
          DeletedAt := none }],
       [{ ID := 1, Token := e1.uuid 1, SubscriptionID := 1, TokenType := "confirmation",
          ExpiresAt := e1.now + 24 * Hour, CreatedAt := e1.now,
          DeletedAt := some e2.now },
        { ID := 2, Token := e2.uuid 2, SubscriptionID := 1, TokenType := "unsubscribe",
          ExpiresAt := e2.now + 365 * 24 * Hour, CreatedAt := e2.now,
          DeletedAt := none }]⟩
      (e2.uuid 2)
      = ⟨none,
         ⟨[{ ID := 1, Email := "a@x.com", City := "Lima", Frequency := "daily",
             Confirmed := true, CreatedAt := e1.now, UpdatedAt := e2.now,
             DeletedAt := some e3.now }],
          [{ ID := 1, Token := e1.uuid 1, SubscriptionID := 1, TokenType := "confirmation",
             ExpiresAt := e1.now + 24 * Hour, CreatedAt := e1.now,
             DeletedAt := some e2.now },
           { ID := 2, Token := e2.uuid 2, SubscriptionID := 1, TokenType := "unsubscribe",
             ExpiresAt := e2.now + 365 * 24 * Hour, CreatedAt := e2.now,
             DeletedAt := some e3.now }]⟩,
         [Mail.SendUnsubscribeConfirmationEmail "a@x.com" "Lima"]⟩ := by
    simp only [Unsubscribe, TokenRepository.FindByToken,
      SubscriptionRepository.FindByID, gorm.First, gorm.DeleteSubscription, gorm.DeleteToken,
      gorm.Query.toExcept, Subscription.live, Token.live, hf3]
    simp [ht3]
    split <;> rfl
  refine ⟨{ ID := 1, Token := e1.uuid 1, SubscriptionID := 1, TokenType := "confirmation",
            ExpiresAt := e1.now + 24 * Hour, CreatedAt := e1.now, DeletedAt := none },
          { ID := 2, Token := e2.uuid 2, SubscriptionID := 1, TokenType := "unsubscribe",
            ExpiresAt := e2.now + 365 * 24 * Hour, CreatedAt := e2.now, DeletedAt := none },
          { ID := 1, Email := "a@x.com", City := "Lima", Frequency := "daily",
            Confirmed := true, CreatedAt := e1.now, UpdatedAt := e2.now, DeletedAt := none },
          ?_⟩
  simp only [h1, h2, h3]
  simp [SubscriptionRepository.FindByEmail, gorm.First, hf4, Subscription.live]


theorem lifecycle_from_empty_witness :
    (Subscribe sampleEnv ⟨[], []⟩ ⟨"a@x.com", "Lima", "daily"⟩).err = none :=
  let ⟨_, _, _, h⟩ :=
    lifecycle_from_empty sampleEnv sampleEnv sampleEnv sampleEnv (fun _ => rfl) (fun _ => rfl)
      (fun _ => rfl) rfl (fun _ => rfl) (by decide) (by decide) (by decide)
  h.1

/-! ## HTTP handlers -/

theorem validate_nil_iff (isEmail : String → Bool) (req : SubscriptionRequest) :
    binding.validate isEmail req = [] ↔
      req.Email ≠ "" ∧ isEmail req.Email = true ∧ req.City ≠ "" ∧
        (req.Frequency = "hourly" ∨ req.Frequency = "daily") := by
  have h1 : ("hourly" : String) ≠ "" := by decide
  have h2 : ("daily" : String) ≠ "" := by decide
  unfold binding.validate
  constructor
  · intro h
    simp only [List.append_eq_nil] at h
    obtain ⟨⟨he, hc⟩, hf⟩ := h
    split_ifs at he hc hf
    all_goals simp_all
  · rintro ⟨he, hm, hc, hf⟩
    have hfe : req.Frequency ≠ "" := by
      rcases hf with hf | hf <;> rw [hf] <;> assumption
    simp [he, hm, hc, hf, hfe]

theorem ShouldBind_ok_iff (isEmail : String → Bool)
    (decoded : Except Error SubscriptionRequest) (req : SubscriptionRequest) :
    binding.ShouldBind isEmail decoded = .ok req ↔
      decoded = .ok req ∧ binding.validate isEmail req = [] := by
  unfold binding.ShouldBind
  cases decoded with
  | error e => simp
  | ok r =>
    cases hv : binding.validate isEmail r with
    | nil =>
      simp only [hv, Except.ok.injEq]
      constructor
      · intro h; subst h; exact ⟨rfl, hv⟩
      · intro h; exact h.1
    | cons a t =>
      simp only [hv]
      constructor
      · intro h; cases h
      · rintro ⟨h, hn⟩
        rw [Except.ok.injEq] at h
        subst h
        rw [hv] at hn
        cases hn

/-- C16: when the body cannot be decoded, or the decoded request has an empty email, an
empty city, or a frequency that is neither "hourly" nor "daily", `Server.subscribe`
responds 400 and makes no call to `Subscribe`; and every request the handler ever passes
to `Subscribe` has frequency "hourly" or "daily", a non-empty email that passed the
email test, and a non-empty city. -/
theorem subscribe_rejects_invalid (isEmail : String → Bool)
    (decoded : Except Error SubscriptionRequest)
    (Subscribe : SubscriptionRequest → Option Error) :
    ((∀ req, decoded = .ok req →
        req.Email = "" ∨ req.City = "" ∨
          (req.Frequency ≠ "hourly" ∧ req.Frequency ≠ "daily")) →
      (Server.subscribe isEmail decoded Subscribe).response.status = 400 ∧
      (Server.subscribe isEmail decoded Subscribe).calls = []) ∧
    (∀ r ∈ (Server.subscribe isEmail decoded Subscribe).calls,
      (r.Frequency = "hourly" ∨ r.Frequency = "daily") ∧ r.Email ≠ "" ∧
        isEmail r.Email = true ∧ r.City ≠ "") := by
  constructor
  · intro hbad
    cases hb : binding.ShouldBind isEmail decoded with
    | error e => simp [Server.subscribe, hb]
    | ok req =>
      exfalso
      obtain ⟨hd, hv⟩ := (ShouldBind_ok_iff isEmail decoded req).mp hb
      obtain ⟨he, _, hc, hf⟩ := (validate_nil_iff isEmail req).mp hv
      rcases hbad req hd with h | h | h
      · exact he h
      · exact hc h
      · rcases hf with hf | hf
        · exact h.1 hf
        · exact h.2 hf
  · intro r hr
    cases hb : binding.ShouldBind isEmail decoded with
    | error e => simp [Server.subscribe, hb] at hr
    | ok req =>
      obtain ⟨_, hv⟩ := (ShouldBind_ok_iff isEmail decoded req).mp hb
      obtain ⟨he, hm, hc, hf⟩ := (validate_nil_iff isEmail req).mp hv
      have hcalls : (Server.subscribe isEmail decoded Subscribe).calls = [req] := by
        simp only [Server.subscribe, hb]
        repeat' split
        all_goals rfl
      rw [hcalls, List.mem_singleton] at hr
      subst hr
      exact ⟨hf, he, hm, hc⟩

theorem subscribe_rejects_invalid_witness :
    (Server.subscribe (fun _ => true) (.ok ⟨"a@x.com", "Lima", "weekly"⟩)
      (fun _ => none)).response.status = 400 ∧
    (Server.subscribe (fun _ => true) (.ok ⟨"a@x.com", "Lima", "weekly"⟩)
      (fun _ => none)).calls = [] :=
  (subscribe_rejects_invalid (fun _ => true) (.ok ⟨"a@x.com", "Lima", "weekly"⟩)
    (fun _ => none)).1
    (fun req h => by
      have hreq : req = ⟨"a@x.com", "Lima", "weekly"⟩ := (Except.ok.inj h).symm
      subst hreq
      exact Or.inr (Or.inr (by decide)))


theorem already_subscribed_not_email_failure :
    strings.Contains "email already subscribed" "failed to send confirmation email" = false := by
  decide

theorem upgrade_required_is_email_failure :
    strings.Contains
      "failed to send confirmation email: failed to send email: 426 Upgrade Required"
      "failed to send confirmation email" = true := by
  decide

/-- C17: for a request that passes the binding, `Server.subscribe` calls `Subscribe`
once with it and answers by its result: no error gives 200 with the message
"Subscription successful. Confirmation email sent."; the error "email already
subscribed" gives 409 with that error; an error containing "failed to send confirmation
email" gives 503; every other error gives 500. -/
theorem subscribe_status (isEmail : String → Bool) (req : SubscriptionRequest)
    (Subscribe : SubscriptionRequest → Option Error)
    (hvalid : binding.validate isEmail req = []) :
    (Server.subscribe isEmail (.ok req) Subscribe).calls = [req] ∧
    (Subscribe req = none →
      (Server.subscribe isEmail (.ok req) Subscribe).response
        = ⟨200, .message "Subscription successful. Confirmation email sent."⟩ ∧
      strings.Contains "Subscription successful. Confirmation email sent."
        "Subscription successful" = true) ∧
    (Subscribe req = some "email already subscribed" →
      (Server.subscribe isEmail (.ok req) Subscribe).response
        = ⟨409, .ErrorResponse "email already subscribed"⟩) ∧
    (∀ e, Subscribe req = some e →
      strings.Contains e "failed to send confirmation email" = true →
      (Server.subscribe isEmail (.ok req) Subscribe).response.status = 503) ∧
    (∀ e, Subscribe req = some e → e ≠ "email already subscribed" →
      strings.Contains e "failed to send confirmation email" = false →
      (Server.subscribe isEmail (.ok req) Subscribe).response.status = 500) := by
  have hb : binding.ShouldBind isEmail (.ok req) = .ok req :=
    (ShouldBind_ok_iff isEmail (.ok req) req).mpr ⟨rfl, hvalid⟩
  refine ⟨?_, ?_, ?_, ?_, ?_⟩
  · simp only [Server.subscribe, hb]
    repeat' split
    all_goals rfl
  · intro h
    refine ⟨by simp [Server.subscribe, hb, h], by decide⟩
  · intro h
    simp [Server.subscribe, hb, h]
  · intro e h hc
    have hne : e ≠ "email already subscribed" := by
      intro heq
      rw [heq, already_subscribed_not_email_failure] at hc
      cases hc
    simp [Server.subscribe, hb, h, hne, hc]
  · intro e h hne hc
    have hne2 : e ≠ "failed to send confirmation email: failed to send email: 426 Upgrade Required" := by
      intro heq
      rw [heq, upgrade_required_is_email_failure] at hc
      cases hc
    simp [Server.subscribe, hb, h, hne, hne2, hc]

theorem subscribe_status_witness :
    (Server.subscribe (fun _ => true) (.ok ⟨"a@x.com", "Lima", "daily"⟩)
      (fun _ => some "email already subscribed")).response
      = ⟨409, .ErrorResponse "email already subscribed"⟩ :=
  (subscribe_status (fun _ => true) ⟨"a@x.com", "Lima", "daily"⟩
    (fun _ => some "email already subscribed") (by decide)).2.2.1 rfl

/-- C18: for a non-empty token, `Server.confirmSubscription` and `Server.unsubscribe`
call the service once with the token and map its result alike: no error gives 200 with a
success message; the error "record not found" gives 404 with error "token not found";
the error "invalid token type" gives 400 with error "invalid token"; every other error
gives 500. -/
theorem token_handlers_status (token : String) (svc : String → Option Error)
    (htoken : token ≠ "") :
    ((Server.confirmSubscription token svc).calls = [token] ∧
     (Server.unsubscribe token svc).calls = [token]) ∧
    (svc token = none →
      (Server.confirmSubscription token svc).response
        = ⟨200, .message "Subscription confirmed successfully"⟩ ∧
      (Server.unsubscribe token svc).response
        = ⟨200, .message "Unsubscribed successfully"⟩) ∧
    (svc token = some "record not found" →
      (Server.confirmSubscription token svc).response
        = ⟨404, .ErrorResponse "token not found"⟩ ∧
      (Server.unsubscribe token svc).response = ⟨404, .ErrorResponse "token not found"⟩) ∧
    (svc token = some "invalid token type" →
      (Server.confirmSubscription token svc).response
        = ⟨400, .ErrorResponse "invalid token"⟩ ∧
      (Server.unsubscribe token svc).response = ⟨400, .ErrorResponse "invalid token"⟩) ∧
    (∀ e, svc token = some e → e ≠ "record not found" → e ≠ "invalid token type" →
      (Server.confirmSubscription token svc).response.status = 500 ∧
      (Server.unsubscribe token svc).response.status = 500) := by
  refine ⟨⟨?_, ?_⟩, ?_, ?_, ?_, ?_⟩
  · simp only [Server.confirmSubscription, htoken, if_false]
    repeat' split
    all_goals rfl
  · simp only [Server.unsubscribe, htoken, if_false]
    repeat' split
    all_goals rfl
  · intro h
    simp [Server.confirmSubscription, Server.unsubscribe, htoken, h]
  · intro h
    simp [Server.confirmSubscription, Server.unsubscribe, htoken, h]
  · intro h
    simp [Server.confirmSubscription, Server.unsubscribe, htoken, h]
  · intro e h h1 h2
    simp [Server.confirmSubscription, Server.unsubscribe, htoken, h, h1, h2]

theorem token_handlers_status_witness :
    (Server.confirmSubscription "valid-token" (fun _ => some "invalid token type")).response
      = ⟨400, .ErrorResponse "invalid token"⟩ ∧
    (Server.unsubscribe "valid-token" (fun _ => some "invalid token type")).response
      = ⟨400, .ErrorResponse "invalid token"⟩ :=
  (token_handlers_status "valid-token" (fun _ => some "invalid token type")
    (by decide)).2.2.2.1 rfl

/-- C19: `Server.getWeather` responds 400 with error "city is required" and makes no
call to the weather service when the `city` parameter is empty; for a non-empty city it
calls the service once and responds 200 with the very reading the service returned, 404
with error "city not found" when the service error is "city not found", and 500 with
error "failed to get weather data" for every other service error. -/
theorem getWeather_status (city : String)
    (GetWeather : String → Except Error WeatherResponse) :
    (city = "" →
      Server.getWeather city GetWeather = ⟨⟨400, .ErrorResponse "city is required"⟩, []⟩) ∧
    (city ≠ "" →
      (Server.getWeather city GetWeather).calls = [city] ∧
      (∀ w, GetWeather city = .ok w →
        (Server.getWeather city GetWeather).response = ⟨200, .weather w⟩) ∧
      (GetWeather city = .error "city not found" →
        (Server.getWeather city GetWeather).response
          = ⟨404, .ErrorResponse "city not found"⟩) ∧
      (∀ e, GetWeather city = .error e → e ≠ "city not found" →
        (Server.getWeather city GetWeather).response
          = ⟨500, .ErrorResponse "failed to get weather data"⟩)) := by
  constructor
  · intro h
    simp [Server.getWeather, h]
  · intro hne
    refine ⟨?_, ?_, ?_, ?_⟩
    · simp only [Server.getWeather, hne, if_false]
      repeat' split
      all_goals rfl
    · intro w h
      simp [Server.getWeather, hne, h]
    · intro h
      simp [Server.getWeather, hne, h]
    · intro e h he
      simp [Server.getWeather, hne, h, he]

theorem getWeather_status_witness :
    Server.getWeather "" sampleEnv.GetWeather
      = ⟨⟨400, .ErrorResponse "city is required"⟩, []⟩ ∧
    (Server.getWeather "Atlantis" sampleEnv.GetWeather).response
      = ⟨404, .ErrorResponse "city not found"⟩ :=
  ⟨(getWeather_status "" sampleEnv.GetWeather).1 rfl,
   ((getWeather_status "Atlantis" sampleEnv.GetWeather).2 (by decide)).2.2.1 rfl⟩


/-! ## Weather provider client -/

/-- C20: `WeatherService.GetWeather` on the provider's response: status 404 gives no
result and the error "city not found"; every other status but 200 gives an error; status
200 with a body that is a JSON object whose `current` is an object with numbers `temp_c`
and `humidity` and an object `condition` with a string `text` gives no error and the
result with `Temperature = temp_c`, `Humidity = humidity`, `Description = text`. -/
theorem GetWeather_spec (resp : HTTPResponse) :
    (resp.StatusCode = 404 →
      WeatherService.GetWeather (.ok resp) = .error "city not found") ∧
    (resp.StatusCode ≠ 200 → ∃ e, WeatherService.GetWeather (.ok resp) = .error e) ∧
    (resp.StatusCode = 200 →
      ∀ (members current condition : List (String × JSON)) (temp_c humidity : Rat)
        (text : String),
        resp.Body = .ok (.object members) →
        JSON.get members "current" = some (.object current) →
        JSON.get current "temp_c" = some (.number temp_c) →
        JSON.get current "humidity" = some (.number humidity) →
        JSON.get current "condition" = some (.object condition) →
        JSON.get condition "text" = some (.string text) →
        WeatherService.GetWeather (.ok resp)
          = .ok { Temperature := temp_c, Humidity := humidity, Description := text }) := by
  refine ⟨?_, ?_, ?_⟩
  · intro h
    simp [WeatherService.GetWeather, h]
  · intro h
    by_cases h404 : resp.StatusCode = 404
    · exact ⟨"city not found", by simp [WeatherService.GetWeather, h404]⟩
    · exact ⟨"weather API returned status code " ++ toString resp.StatusCode,
        by simp [WeatherService.GetWeather, h404, h]⟩
  · intro h members current condition temp_c humidity text hb hcur ht hh hcond htext
    simp [WeatherService.GetWeather, WeatherService.decodeMap, WeatherService.asObject,
      h, hb, hcur, ht, hh, hcond, htext]

theorem GetWeather_spec_witness :
    WeatherService.GetWeather (.ok londonResponse)
      = .ok { Temperature := 15, Humidity := 76, Description := "Partly cloudy" } :=
  (GetWeather_spec londonResponse).2.2 rfl _ _ _ 15 76 "Partly cloudy" rfl rfl rfl rfl rfl rfl


/-! ## The possible outcomes of an operation -/

theorem Subscribe_shape (env : Env) (db : DB) (req : SubscriptionRequest) :
    (∃ e, Subscribe env db req = ⟨some e, db, []⟩) ∨
    ∃ existing sub db1,
      SubscriptionRepository.FindByEmail env db req.Email req.City = .ok existing ∧
      existing.any (·.Confirmed) = false ∧
      writeSubscription env db req existing = .ok (sub, db1) ∧
      ((∃ e, Subscribe env db req = ⟨some e, db1, []⟩) ∨
       ∃ refreshed tok db2 err mails,
         (gorm.First (env.fault .First) db1.subscriptions
           (fun s => s.live && s.ID == sub.ID)).toExcept = .ok refreshed ∧
         TokenRepository.CreateToken env db1 refreshed.ID "confirmation" (24 * Hour)
           = .ok (tok, db2) ∧
         Subscribe env db req = ⟨err, db2, mails⟩) := by
  cases h1 : SubscriptionRepository.FindByEmail env db req.Email req.City with
  | error e => exact Or.inl ⟨e, by simp [Subscribe, h1]⟩
  | ok existing =>
    cases h2 : existing.any (·.Confirmed) with
    | true => exact Or.inl ⟨"email already subscribed", by simp [Subscribe, h1, h2]⟩
    | false =>
      cases h3 : env.fault (.Begin 1) with
      | some e => exact Or.inl ⟨e, by simp [Subscribe, h1, h2, h3]⟩
      | none =>
        cases h4 : writeSubscription env db req existing with
        | error e => exact Or.inl ⟨e, by simp [Subscribe, h1, h2, h3, h4]⟩
        | ok w =>
          obtain ⟨sub, db1⟩ := w
          cases h5 : env.fault (.Commit 1) with
          | some e => exact Or.inl ⟨e, by simp [Subscribe, h1, h2, h3, h4, h5]⟩
          | none =>
            refine Or.inr ⟨existing, sub, db1, rfl, h2, h4, ?_⟩
            cases h6 : env.fault (.Begin 2) with
            | some e => exact Or.inl ⟨e, by simp [Subscribe, h1, h2, h3, h4, h5, h6]⟩
            | none =>
              cases h7 : (gorm.First (env.fault .First) db1.subscriptions
                  (fun s => s.live && s.ID == sub.ID)).toExcept with
              | error e =>
                exact Or.inl ⟨e, by simp [Subscribe, h1, h2, h3, h4, h5, h6, h7]⟩
              | ok refreshed =>
                cases h8 : TokenRepository.CreateToken env db1 refreshed.ID "confirmation"
                    (24 * Hour) with
                | error e =>
                  exact Or.inl ⟨e, by simp [Subscribe, h1, h2, h3, h4, h5, h6, h7, h8]⟩
                | ok w =>
                  obtain ⟨tok, db2⟩ := w
                  refine Or.inr ⟨refreshed, tok, db2, ?_⟩
                  cases h9 : env.fault (.Commit 2) with
                  | some e =>
                    exact ⟨some e, [], rfl, h8,
                      by simp [Subscribe, h1, h2, h3, h4, h5, h6, h7, h8, h9]⟩
                  | none =>
                    cases h10 : env.send (Mail.SendConfirmationEmail refreshed.Email
                        (env.AppBaseURL ++ "/api/confirm/" ++ tok.Token) refreshed.City) with
                    | some e =>
                      exact ⟨some ("failed to send confirmation email: " ++ e),
                        [Mail.SendConfirmationEmail refreshed.Email
                          (env.AppBaseURL ++ "/api/confirm/" ++ tok.Token) refreshed.City],
                        rfl, h8,
                        by simp [Subscribe, h1, h2, h3, h4, h5, h6, h7, h8, h9, h10]⟩
                    | none =>
                      exact ⟨none,
                        [Mail.SendConfirmationEmail refreshed.Email
                          (env.AppBaseURL ++ "/api/confirm/" ++ tok.Token) refreshed.City],
                        rfl, h8,
                        by simp [Subscribe, h1, h2, h3, h4, h5, h6, h7, h8, h9, h10]⟩


theorem ConfirmSubscription_shape (env : Env) (db : DB) (tokenStr : String) :
    (∃ e, ConfirmSubscription env db tokenStr = ⟨some e, db, []⟩) ∨
    ∃ token found new db1,
      TokenRepository.FindByToken env db tokenStr = .ok token ∧
      token.TokenType = "confirmation" ∧
      SubscriptionRepository.FindByID env db token.SubscriptionID = .ok found ∧
      TokenRepository.CreateToken env db found.ID "unsubscribe" (365 * 24 * Hour)
        = .ok (new, db1) ∧
      ((∃ e, env.fault (.Commit 1) = some e ∧
          ConfirmSubscription env db tokenStr = ⟨some e, db1, []⟩) ∨
       (env.fault (.Commit 1) = none ∧
        ConfirmSubscription env db tokenStr =
          ⟨none,
           { subscriptions := db.subscriptions.map fun r =>
               if r.ID = found.ID ∧ r.live = true then
                 { found with Confirmed := true, UpdatedAt := env.now }
               else r,
             tokens := (db.tokens.map fun r =>
               if r.ID = token.ID ∧ r.live = true then { r with DeletedAt := some env.now }
               else r) ++ [new] },
           [Mail.SendWelcomeEmail found.Email found.City found.Frequency
             (env.AppBaseURL ++ "/api/unsubscribe/" ++ new.Token)]⟩)) := by
  cases h1 : TokenRepository.FindByToken env db tokenStr with
  | error e => exact Or.inl ⟨e, by simp [ConfirmSubscription, h1]⟩
  | ok token =>
    by_cases h2 : token.TokenType = "confirmation"
    swap
    · exact Or.inl ⟨"invalid token type", by simp [ConfirmSubscription, h1, h2]⟩
    cases h3 : env.fault (.Begin 1) with
    | some e => exact Or.inl ⟨e, by simp [ConfirmSubscription, h1, h2, h3]⟩
    | none =>
      cases h4 : SubscriptionRepository.FindByID env db token.SubscriptionID with
      | error e => exact Or.inl ⟨e, by simp [ConfirmSubscription, h1, h2, h3, h4]⟩
      | ok found =>
        cases h5 : env.fault .Save with
        | some e =>
          exact Or.inl ⟨e, by simp [ConfirmSubscription, gorm.SaveSubscription, h1, h2, h3, h4, h5]⟩
        | none =>
          cases h6 : env.fault .DeleteToken with
          | some e =>
            exact Or.inl ⟨e, by
              simp [ConfirmSubscription, gorm.SaveSubscription, gorm.DeleteToken,
                h1, h2, h3, h4, h5, h6]⟩
          | none =>
            cases h7 : TokenRepository.CreateToken env db found.ID "unsubscribe"
                (365 * 24 * Hour) with
            | error e =>
              exact Or.inl ⟨e, by
                simp [ConfirmSubscription, gorm.SaveSubscription, gorm.DeleteToken,
                  h1, h2, h3, h4, h5, h6, h7]⟩
            | ok w =>
              obtain ⟨new, db1⟩ := w
              refine Or.inr ⟨token, found, new, db1, rfl, h2, h4, h7, ?_⟩
              cases h8 : env.fault (.Commit 1) with
              | some e =>
                exact Or.inl ⟨e, rfl, by
                  simp [ConfirmSubscription, gorm.SaveSubscription, gorm.DeleteToken,
                    h1, h2, h3, h4, h5, h6, h7, h8]⟩
              | none =>
                refine Or.inr ⟨rfl, ?_⟩
                simp only [ConfirmSubscription, gorm.SaveSubscription, gorm.DeleteToken,
                  h1, h2, h3, h4, h5, h6, h7, h8, ne_eq, not_true_eq_false, if_false]
                cases env.send (Mail.SendWelcomeEmail found.Email found.City
                  found.Frequency
                  (env.AppBaseURL ++ "/api/unsubscribe/" ++ new.Token)) <;> rfl

theorem Unsubscribe_shape (env : Env) (db : DB) (tokenStr : String) :
    (∃ e, Unsubscribe env db tokenStr = ⟨some e, db, []⟩) ∨
    ∃ token subscription,
      TokenRepository.FindByToken env db tokenStr = .ok token ∧
      token.TokenType = "unsubscribe" ∧
      SubscriptionRepository.FindByID env db token.SubscriptionID = .ok subscription ∧
      Unsubscribe env db tokenStr =
        ⟨none,
         { subscriptions := db.subscriptions.map fun r =>
             if r.ID = subscription.ID ∧ r.live = true then
               { r with DeletedAt := some env.now }
             else r,
           tokens := db.tokens.map fun r =>
             if r.ID = token.ID ∧ r.live = true then { r with DeletedAt := some env.now }
             else r },
         [Mail.SendUnsubscribeConfirmationEmail subscription.Email subscription.City]⟩ := by
  cases h1 : TokenRepository.FindByToken env db tokenStr with
  | error e => exact Or.inl ⟨e, by simp [Unsubscribe, h1]⟩
  | ok token =>
    by_cases h2 : token.TokenType = "unsubscribe"
    swap
    · exact Or.inl ⟨"invalid token type", by simp [Unsubscribe, h1, h2]⟩
    cases h3 : env.fault (.Begin 1) with
    | some e => exact Or.inl ⟨e, by simp [Unsubscribe, h1, h2, h3]⟩
    | none =>
      cases h4 : SubscriptionRepository.FindByID env db token.SubscriptionID with
      | error e => exact Or.inl ⟨e, by simp [Unsubscribe, h1, h2, h3, h4]⟩
      | ok subscription =>
        cases h5 : env.fault .DeleteSubscription with
        | some e =>
          exact Or.inl ⟨e, by simp [Unsubscribe, gorm.DeleteSubscription, h1, h2, h3, h4, h5]⟩
        | none =>
          cases h6 : env.fault .DeleteToken with
          | some e =>
            exact Or.inl ⟨e, by
              simp [Unsubscribe, gorm.DeleteSubscription, gorm.DeleteToken,
                h1, h2, h3, h4, h5, h6]⟩
          | none =>
            cases h8 : env.fault (.Commit 1) with
            | some e =>
              exact Or.inl ⟨e, by
                simp [Unsubscribe, gorm.DeleteSubscription, gorm.DeleteToken,
                  h1, h2, h3, h4, h5, h6, h8]⟩
            | none =>
              refine Or.inr ⟨token, subscription, rfl, h2, h4, ?_⟩
              simp only [Unsubscribe, gorm.DeleteSubscription, gorm.DeleteToken,
                h1, h2, h3, h4, h5, h6, h8, ne_eq, not_true_eq_false, if_false]
              cases env.send (Mail.SendUnsubscribeConfirmationEmail subscription.Email
                subscription.City) <;> rfl

theorem sendOne_shape (env : Env) (acc : DB × List Mail) (s : Subscription) :
    (weatherFails env s = true ∧ sendOne env acc s = acc) ∨
    ∃ w, env.GetWeather s.City = .ok w ∧
      ((∃ token, TokenRepository.FindByToken env acc.1 (toString s.ID) = .ok token ∧
          sendOne env acc s
            = (acc.1, acc.2 ++ [Mail.SendWeatherUpdateEmail s.Email s.City w
                (env.AppBaseURL ++ "/api/unsubscribe/" ++ token.Token)])) ∨
       (∃ e, TokenRepository.FindByToken env acc.1 (toString s.ID) = .error e ∧
          ((∃ e2, TokenRepository.CreateToken env acc.1 s.ID "unsubscribe" (365 * 24 * Hour)
                = .error e2 ∧ sendOne env acc s = acc) ∨
           ∃ tok db1, TokenRepository.CreateToken env acc.1 s.ID "unsubscribe"
                (365 * 24 * Hour) = .ok (tok, db1) ∧
             sendOne env acc s
               = (db1, acc.2 ++ [Mail.SendWeatherUpdateEmail s.Email s.City w
                   (env.AppBaseURL ++ "/api/unsubscribe/" ++ tok.Token)])))) := by
  cases hw : env.GetWeather s.City with
  | error e => exact Or.inl ⟨by simp [weatherFails, hw], by simp [sendOne, hw]⟩
  | ok w =>
    refine Or.inr ⟨w, rfl, ?_⟩
    cases hf : TokenRepository.FindByToken env acc.1 (toString s.ID) with
    | ok token =>
      exact Or.inl ⟨token, rfl, by simp only [sendOne, hw, hf]; split <;> rfl⟩
    | error e =>
      refine Or.inr ⟨e, rfl, ?_⟩
      cases hc : TokenRepository.CreateToken env acc.1 s.ID "unsubscribe"
          (365 * 24 * Hour) with
      | error e2 => exact Or.inl ⟨e2, rfl, by simp [sendOne, hw, hf, hc]⟩
      | ok w2 =>
        obtain ⟨tok, db1⟩ := w2
        exact Or.inr ⟨tok, db1, rfl, by simp only [sendOne, hw, hf, hc]; split <;> rfl⟩


theorem foldl_sendOne_inv (env : Env) (P : DB → Prop) (subs : List Subscription)
    (hstep : ∀ s ∈ subs, ∀ (db : DB) (tok : Token) (db1 : DB), P db →
      TokenRepository.CreateToken env db s.ID "unsubscribe" (365 * 24 * Hour) = .ok (tok, db1) →
      P db1) :
    ∀ acc : DB × List Mail, P acc.1 → P (subs.foldl (sendOne env) acc).1 := by
  induction subs with
  | nil => intro acc h; exact h
  | cons a t ih =>
    intro acc h
    rw [List.foldl_cons]
    apply ih (fun s hs => hstep s (List.mem_cons_of_mem a hs))
    rcases sendOne_shape env acc a with ⟨_, h1⟩ | ⟨w, _, ⟨token, _, h1⟩ | ⟨e, _, h2⟩⟩
    · rw [h1]; exact h
    · rw [h1]; exact h
    · rcases h2 with ⟨_, _, h1⟩ | ⟨tok, db1, hc, h1⟩
      · rw [h1]; exact h
      · rw [h1]; exact hstep a (List.mem_cons_self a t) acc.1 tok db1 h hc

theorem SendWeatherUpdate_subscriptions (env : Env) (db : DB) (frequency : String) :
    (SendWeatherUpdate env db frequency).db.subscriptions = db.subscriptions := by
  unfold SendWeatherUpdate
  cases h : SubscriptionRepository.GetSubscriptionsForUpdates env db frequency with
  | error e => rfl
  | ok subs =>
    exact foldl_sendOne_inv env (fun d => d.subscriptions = db.subscriptions) subs
      (fun s _ d tok d1 hd hc => by rw [(CreateToken_ok_spec hc).2.2.1]; exact hd)
      (db, []) rfl

theorem Op_run_SubsStep (env : Env) (db : DB) (op : Op) :
    SubsStep db.subscriptions (op.run env db).subscriptions := by
  cases op with
  | Subscribe req =>
    show SubsStep db.subscriptions (Subscribe env db req).db.subscriptions
    rcases Subscribe_shape env db req with ⟨e, h⟩ | ⟨existing, sub, db1, h1, h2, h4, hrest⟩
    · rw [h]; exact SubsStep.same _
    · have hstep : SubsStep db.subscriptions db1.subscriptions := by
        cases existing with
        | some ex =>
          obtain ⟨hex, hlive, _, _⟩ := FindByEmail_some_spec h1
          obtain ⟨_, hsub, hdb1⟩ := writeSubscription_some_spec h4
          have hconf : ex.Confirmed = false := by simpa using h2
          rw [hdb1, hsub]
          exact SubsStep.update _ ex req.Frequency env.now hex hlive hconf
        | none =>
          obtain ⟨_, hsub, hdb1⟩ := writeSubscription_none_spec h4
          rw [hdb1, hsub]
          exact SubsStep.create _ req.Email req.City req.Frequency env.now
            (FindByEmail_none_spec h1)
      rcases hrest with ⟨e, h⟩ | ⟨refreshed, tok, db2, err, mails, _, h8, h⟩
      · rw [h]; exact hstep
      · rw [h, (CreateToken_ok_spec h8).2.2.1]; exact hstep
  | ConfirmSubscription tokenStr =>
    show SubsStep db.subscriptions (ConfirmSubscription env db tokenStr).db.subscriptions
    rcases ConfirmSubscription_shape env db tokenStr with
      ⟨e, h⟩ | ⟨token, found, new, db1, _, _, h4, h7, ⟨e, _, h⟩ | ⟨_, h⟩⟩
    · rw [h]; exact SubsStep.same _
    · rw [h, (CreateToken_ok_spec h7).2.2.1]; exact SubsStep.same _
    · obtain ⟨hfm, hfl, _⟩ := FindByID_ok_spec h4
      rw [h]
      exact SubsStep.confirm _ found env.now hfm hfl
  | Unsubscribe tokenStr =>
    show SubsStep db.subscriptions (Unsubscribe env db tokenStr).db.subscriptions
    rcases Unsubscribe_shape env db tokenStr with ⟨e, h⟩ | ⟨token, sub, _, _, _, h⟩
    · rw [h]; exact SubsStep.same _
    · rw [h]; exact SubsStep.delete _ sub.ID env.now
  | SendWeatherUpdate frequency =>
    show SubsStep db.subscriptions (SendWeatherUpdate env db frequency).db.subscriptions
    rw [SendWeatherUpdate_subscriptions]
    exact SubsStep.same _
  | DeleteExpiredTokens =>
    show SubsStep db.subscriptions (TokenRepository.DeleteExpiredTokens env db).db.subscriptions
    unfold TokenRepository.DeleteExpiredTokens
    cases env.fault .DeleteExpiredTokens <;> exact SubsStep.same _


/-! ## What a table step keeps -/

theorem map_keeps_invariant (g : Subscription → Subscription) (l : List Subscription)
    (hg : ∀ r, (g r).ID = r.ID ∧ (g r).Email = r.Email ∧ (g r).City = r.City ∧
      ((g r).live = true → r.live = true))
    (hinv : l.Pairwise fun a b =>
      ¬ (a.live = true ∧ b.live = true ∧ a.Email = b.Email ∧ a.City = b.City))
    (hkeys : (l.map (·.ID)).Nodup) :
    ((l.map g).Pairwise fun a b =>
      ¬ (a.live = true ∧ b.live = true ∧ a.Email = b.Email ∧ a.City = b.City)) ∧
    ((l.map g).map (·.ID)).Nodup := by
  constructor
  · apply List.Pairwise.map g _ hinv
    intro a b hab hcon
    obtain ⟨_, hae, hac, hal⟩ := hg a
    obtain ⟨_, hbe, hbc, hbl⟩ := hg b
    exact hab ⟨hal hcon.1, hbl hcon.2.1, by rw [← hae, ← hbe]; exact hcon.2.2.1,
      by rw [← hac, ← hbc]; exact hcon.2.2.2⟩
  · have : (l.map g).map (·.ID) = l.map (·.ID) := by
      rw [List.map_map]
      apply List.map_congr_left
      intro r _
      exact (hg r).1
    rw [this]
    exact hkeys

theorem SubsStep_keeps_invariant {l l2 : List Subscription} (h : SubsStep l l2)
    (hinv : l.Pairwise fun a b =>
      ¬ (a.live = true ∧ b.live = true ∧ a.Email = b.Email ∧ a.City = b.City))
    (hkeys : (l.map (·.ID)).Nodup) :
    (l2.Pairwise fun a b =>
      ¬ (a.live = true ∧ b.live = true ∧ a.Email = b.Email ∧ a.City = b.City)) ∧
    (l2.map (·.ID)).Nodup := by
  cases h with
  | same => exact ⟨hinv, hkeys⟩
  | update ex frequency now hex hlive hconf =>
    rw [save_row_eq hkeys hex hlive]
    apply map_keeps_invariant _ _ _ hinv hkeys
    intro r
    by_cases hr : r = ex
    · subst hr; simp [Subscription.live]
    · simp [hr]
  | create email city frequency now hnone =>
    constructor
    · rw [List.pairwise_append]
      refine ⟨hinv, List.pairwise_singleton _ _, ?_⟩
      intro a ha b hb hcon
      rw [List.mem_singleton] at hb
      subst hb
      have := hnone a ha
      simp only [Bool.and_eq_false_iff, beq_eq_false_iff_ne, ne_eq] at this
      rcases this with (h1 | h1) | h1
      · rw [hcon.1] at h1; cases h1
      · exact h1 hcon.2.2.1
      · exact h1 hcon.2.2.2
    · rw [List.map_append, List.nodup_append]
      refine ⟨hkeys, List.nodup_singleton _, ?_⟩
      intro x hx hx2
      simp only [List.map_cons, List.map_nil, List.mem_singleton] at hx2
      have := nextID_fresh hx
      omega
  | confirm found now hfm hfl =>
    rw [save_row_eq hkeys hfm hfl]
    apply map_keeps_invariant _ _ _ hinv hkeys
    intro r
    by_cases hr : r = found
    · subst hr; simp [Subscription.live]
    · simp [hr]
  | delete id now =>
    apply map_keeps_invariant _ _ _ hinv hkeys
    intro r
    beta_reduce
    by_cases hr : r.ID = id ∧ r.live = true
    · rw [if_pos hr]
      simp [Subscription.live]
    · rw [if_neg hr]
      simp

theorem SubsStep_deleted_kept {l l2 : List Subscription} (h : SubsStep l l2)
    (i : Nat) (r : Subscription) (hi : l[i]? = some r) (hdel : r.DeletedAt ≠ none) :
    l2[i]? = some r := by
  have hnl : ¬ r.live = true := by
    cases hd : r.DeletedAt with
    | none => exact absurd hd hdel
    | some t => simp [Subscription.live, hd]
  cases h with
  | same => exact hi
  | update ex frequency now hex hlive hconf =>
    simp [List.getElem?_map, hi, hnl]
  | create email city frequency now hnone =>
    obtain ⟨hlt, _⟩ := List.getElem?_eq_some.mp hi
    rw [List.getElem?_append_left hlt]
    exact hi
  | confirm found now hfm hfl =>
    simp [List.getElem?_map, hi, hnl]
  | delete id now =>
    simp [List.getElem?_map, hi, hnl]

theorem SubsStep_confirmed_kept {l l2 : List Subscription} (h : SubsStep l l2)
    (hkeys : (l.map (·.ID)).Nodup)
    (i : Nat) (r : Subscription) (hi : l[i]? = some r) (hconf : r.Confirmed = true) :
    ∃ r2, l2[i]? = some r2 ∧ r2.ID = r.ID ∧ r2.Confirmed = true := by
  cases h with
  | same => exact ⟨r, hi, rfl, hconf⟩
  | update ex frequency now hex hlive hexc =>
    have hne : ¬ (r.ID = ex.ID ∧ r.live = true) := by
      intro hc
      have := eq_of_same_key hkeys (List.getElem?_mem hi) hex hc.1
      subst this
      rw [hconf] at hexc
      cases hexc
    exact ⟨r, by simp [List.getElem?_map, hi, hne], rfl, hconf⟩
  | create email city frequency now hnone =>
    obtain ⟨hlt, _⟩ := List.getElem?_eq_some.mp hi
    exact ⟨r, by rw [List.getElem?_append_left hlt]; exact hi, rfl, hconf⟩
  | confirm found now hfm hfl =>
    by_cases hc : r.ID = found.ID ∧ r.live = true
    · exact ⟨{ found with Confirmed := true, UpdatedAt := now },
        by rw [List.getElem?_map, hi, Option.map_some', if_pos hc], hc.1.symm, rfl⟩
    · exact ⟨r, by rw [List.getElem?_map, hi, Option.map_some', if_neg hc], rfl, hconf⟩
  | delete id now =>
    by_cases hc : r.ID = id ∧ r.live = true
    · exact ⟨{ r with DeletedAt := some now },
        by rw [List.getElem?_map, hi, Option.map_some', if_pos hc], rfl, hconf⟩
    · exact ⟨r, by rw [List.getElem?_map, hi, Option.map_some', if_neg hc], rfl, hconf⟩


/-! ## Invariants of the store -/

theorem Steps_invariant (P : Env → Prop) (I : DB → Prop)
    (hI : ∀ (env : Env) (op : Op) (db : DB), P env → I db → I (op.run env db)) {a b : DB} (h : Steps P a b) :
    I a → I b := by
  induction h with
  | refl => exact id
  | step env op _ hP ih => exact fun ha => hI env op _ hP (ih ha)

theorem Op_run_keeps_invariant (env : Env) (db : DB) (op : Op)
    (h : OneLivePerPair db ∧ SubscriptionKeysUnique db) :
    OneLivePerPair (op.run env db) ∧ SubscriptionKeysUnique (op.run env db) :=
  SubsStep_keeps_invariant (Op_run_SubsStep env db op) h.1 h.2

/-- C21: on a table with unique primary keys, "at most one live subscription per
(email, city)" is kept by each of `Subscribe`, `ConfirmSubscription`, `Unsubscribe`,
`SendWeatherUpdate` and `DeleteExpiredTokens`, in every environment (store faults
included) and whether the operation returns an error or not, and so are the unique
keys; hence every state reached from the empty store by operations executed one after
the other has at most one live subscription per pair. -/
theorem one_live_per_pair_invariant :
    (∀ (env : Env) (db : DB) (op : Op), OneLivePerPair db → SubscriptionKeysUnique db →
      OneLivePerPair (op.run env db) ∧ SubscriptionKeysUnique (op.run env db)) ∧
    (∀ db : DB, Reachable (fun _ => True) db →
      OneLivePerPair db ∧ SubscriptionKeysUnique db) := by
  constructor
  · intro env db op h1 h2
    exact Op_run_keeps_invariant env db op ⟨h1, h2⟩
  · intro db h
    exact Steps_invariant (fun _ => True)
      (fun d => OneLivePerPair d ∧ SubscriptionKeysUnique d)
      (fun env op d _ hd => Op_run_keeps_invariant env d op hd) h
      ⟨List.Pairwise.nil, List.nodup_nil⟩

theorem one_live_per_pair_invariant_witness :
    OneLivePerPair ((Op.Subscribe ⟨"b@x.com", "Kyiv", "daily"⟩).run commitFaultEnv sampleDB) ∧
    SubscriptionKeysUnique
      ((Op.Subscribe ⟨"b@x.com", "Kyiv", "daily"⟩).run commitFaultEnv sampleDB) :=
  one_live_per_pair_invariant.1 commitFaultEnv sampleDB (Op.Subscribe ⟨"b@x.com", "Kyiv", "daily"⟩)
    (by decide) (by decide)


/-! ## Email headers -/

theorem replaceFrom_line_feed (l : List Char) :
    strings.replaceFrom ['\n'] [] 0 l = l.filter (fun c => c != '\n') := by
  induction l with
  | nil => rfl
  | cons c cs ih =>
    by_cases hc : c = '\n'
    · subst hc
      simp [strings.replaceFrom, List.isPrefixOf, ih]
    · have hne : ('\n' == c) = false := by
        simpa using fun h : '\n' = c => hc h.symm
      simp [strings.replaceFrom, List.isPrefixOf, ih, hc, hne]

theorem replaceFrom_no_carriage_return (l : List Char) (h : '\r' ∉ l) :
    strings.replaceFrom ['\r', '\n'] [] 0 l = l := by
  induction l with
  | nil => rfl
  | cons c cs ih =>
    have hc : ('\r' == c) = false := by
      simpa using fun e : '\r' = c => h (e ▸ List.mem_cons_self _ _)
    have hcs : '\r' ∉ cs := fun hm => h (List.mem_cons_of_mem _ hm)
    simp [strings.replaceFrom, List.isPrefixOf, hc, ih hcs]

/-- C30: for every subject, the string that `sendEmail` writes after "Subject: " (the
subject after its two `ReplaceAll` passes) contains no line feed; and a subject with
neither a carriage return nor a line feed is written unchanged. -/
theorem headerSubject_no_line_feed (subject : String) :
    '\n' ∉ (EmailService.headerSubject subject).data ∧
    ('\r' ∉ subject.data → '\n' ∉ subject.data →
      EmailService.headerSubject subject = subject) := by
  constructor
  · simp [EmailService.headerSubject, strings.ReplaceAll, replaceFrom_line_feed]
  · intro hr hn
    have h1 : strings.ReplaceAll subject "\r\n" "" = subject := by
      show String.mk (strings.replaceFrom ['\r', '\n'] [] 0 subject.data) = subject
      rw [replaceFrom_no_carriage_return _ hr]
    have h2 : strings.ReplaceAll subject "\n" "" = subject := by
      show String.mk (strings.replaceFrom ['\n'] [] 0 subject.data) = subject
      rw [replaceFrom_line_feed, List.filter_eq_self.mpr]
      intro c hc
      simpa using fun e : c = '\n' => hn (e ▸ hc)
    simp only [EmailService.headerSubject, h1, h2]

theorem headerSubject_no_line_feed_witness :
    '\n' ∉ (EmailService.headerSubject "Weather in Lima\r\nBcc: x@y.z\n").data ∧
    EmailService.headerSubject "Weather in Lima" = "Weather in Lima" :=
  ⟨(headerSubject_no_line_feed "Weather in Lima\r\nBcc: x@y.z\n").1,
   (headerSubject_no_line_feed "Weather in Lima").2 (by decide) (by decide)⟩


/-! ## Unchecked assertions of the weather client -/

/-- C27: `WeatherService.GetWeather` is not total on status-200 answers with a JSON
body: when `current` and `current.condition` are objects and one of
`current.temp_c`, `current.humidity` (not a number) or `current.condition.text` (not a
string) is missing or of another type, the call ends in a panic, with neither a result
nor an error. -/
theorem GetWeather_panics (resp : HTTPResponse)
    (result current condition : List (String × JSON))
    (hstatus : resp.StatusCode = 200) (hbody : resp.Body = .ok (.object result))
    (hcurrent : JSON.get result "current" = some (.object current))
    (hcondition : JSON.get current "condition" = some (.object condition))
    (hbad : (∀ x, JSON.get current "temp_c" ≠ some (.number x)) ∨
            (∀ x, JSON.get current "humidity" ≠ some (.number x)) ∨
            (∀ t, JSON.get condition "text" ≠ some (.string t))) :
    WeatherService.GetWeather (.ok resp) = .panic := by
  simp only [WeatherService.GetWeather, hstatus, hbody, WeatherService.decodeMap,
    hcurrent, hcondition, WeatherService.asObject]
  simp only [show (200 : Nat) = 404 ↔ False by decide, if_false, ne_eq, not_true_eq_false]
  split
  · rename_i x hx
    split
    · rename_i y hy
      split
      · rename_i t ht
        rcases hbad with h | h | h
        · exact absurd hx (h x)
        · exact absurd hy (h y)
        · exact absurd ht (h t)
      · rfl
    · rfl
  · rfl

theorem GetWeather_panics_witness :
    WeatherService.GetWeather (.ok noTemperatureResponse) = .panic :=
  GetWeather_panics noTemperatureResponse
    [("current", .object [("humidity", .number 76),
        ("condition", .object [("text", .string "Partly cloudy")])])]
    [("humidity", .number 76), ("condition", .object [("text", .string "Partly cloudy")])]
    [("text", .string "Partly cloudy")]
    rfl rfl (by simp [JSON.get, List.lookup]) (by simp [JSON.get, List.lookup])
    (Or.inl (by simp [JSON.get, List.lookup]))


/-! ## Errors and the committed rows -/

theorem Unsubscribe_error_keeps_db (env : Env) (db : DB) (tokenStr : String)
    (h : (Unsubscribe env db tokenStr).err ≠ none) :
    (Unsubscribe env db tokenStr).db = db ∧ (Unsubscribe env db tokenStr).mails = [] := by
  rcases Unsubscribe_shape env db tokenStr with ⟨e, he⟩ | ⟨token, sub, _, _, _, he⟩
  · rw [he]; exact ⟨rfl, rfl⟩
  · rw [he] at h; exact absurd rfl h

theorem ConfirmSubscription_error_db (env : Env) (db : DB) (tokenStr : String)
    (h : (ConfirmSubscription env db tokenStr).err ≠ none) :
    (ConfirmSubscription env db tokenStr).db = db ∨
    ∃ (e : Error) (found : Subscription) (new : Token),
      env.fault (.Commit 1) = some e ∧
      (ConfirmSubscription env db tokenStr).err = some e ∧
      new.TokenType = "unsubscribe" ∧ new.SubscriptionID = found.ID ∧
      (ConfirmSubscription env db tokenStr).db = { db with tokens := db.tokens ++ [new] } := by
  rcases ConfirmSubscription_shape env db tokenStr with
    ⟨e, he⟩ | ⟨token, found, new, db1, _, _, _, h7, ⟨e, hc, he⟩ | ⟨_, he⟩⟩
  · rw [he]; exact Or.inl rfl
  · obtain ⟨_, hnew, hdb1, _⟩ := CreateToken_ok_spec h7
    refine Or.inr ⟨e, found, new, hc, by rw [he], by rw [hnew], by rw [hnew], ?_⟩
    rw [he, hdb1]
  · rw [he] at h; exact absurd rfl h

/-- C24: `ConfirmSubscription` is not atomic when its commit fails.  On the sample
store, with a database that refuses the commit, the call on the confirmation token
"tok-b" returns the error "commit failed", the subscription table is as before (the
row is still unconfirmed) and the consumed token is still there, but the token table
has one more row: the "unsubscribe" token of subscription 2, which `CreateToken`
inserted through the handle outside the transaction. -/
theorem ConfirmSubscription_commit_failure_leaves_token :
    (ConfirmSubscription commitFaultEnv sampleDB "tok-b").err = some "commit failed" ∧
    (ConfirmSubscription commitFaultEnv sampleDB "tok-b").mails = [] ∧
    (ConfirmSubscription commitFaultEnv sampleDB "tok-b").db.subscriptions
      = sampleDB.subscriptions ∧
    (ConfirmSubscription commitFaultEnv sampleDB "tok-b").db.tokens
      = sampleDB.tokens ++
        [{ ID := 3, Token := "uuuuu", SubscriptionID := 2, TokenType := "unsubscribe",
           ExpiresAt := 1000 + 365 * 24 * Hour, CreatedAt := 1000, DeletedAt := none }] ∧
    (ConfirmSubscription commitFaultEnv sampleDB "tok-b").db ≠ sampleDB := by
  refine ⟨by decide, by decide, by decide, by decide, by decide⟩


/-! ## Removed subscriptions -/

theorem Steps_deleted_kept (P : Env → Prop) {a b : DB} (h : Steps P a b) :
    ∀ (i : Nat) (r : Subscription), a.subscriptions[i]? = some r → r.DeletedAt ≠ none →
      b.subscriptions[i]? = some r := by
  induction h with
  | refl => intro i r hi _; exact hi
  | step env op _ _ ih =>
    intro i r hi hdel
    exact SubsStep_deleted_kept (Op_run_SubsStep env _ op) i r (ih i r hi hdel) hdel

theorem no_live_row_rejects (env : Env) (db : DB) (tokenStr : String) (t : Token)
    (hfind : TokenRepository.FindByToken env db tokenStr = .ok t)
    (hgone : ∀ s ∈ db.subscriptions, s.ID = t.SubscriptionID → s.live = false) :
    (∃ e, ConfirmSubscription env db tokenStr = ⟨some e, db, []⟩) ∧
    (∃ e, Unsubscribe env db tokenStr = ⟨some e, db, []⟩) := by
  constructor
  · rcases ConfirmSubscription_shape env db tokenStr with
      h | ⟨token, found, new, db1, h1, _, h4, _⟩
    · exact h
    · rw [hfind] at h1
      cases h1
      obtain ⟨hm, hl, hid⟩ := FindByID_ok_spec h4
      rw [hgone found hm hid] at hl
      exact absurd hl (by decide)
  · rcases Unsubscribe_shape env db tokenStr with h | ⟨token, sub, h1, _, h4, _⟩
    · exact h
    · rw [hfind] at h1
      cases h1
      obtain ⟨hm, hl, hid⟩ := FindByID_ok_spec h4
      rw [hgone sub hm hid] at hl
      exact absurd hl (by decide)

/-- C25: removed is terminal.  (1) A soft-deleted subscription row stays at its place
with all its fields (so it stays deleted, with the same confirmed flag and frequency)
through every sequence of `Subscribe`, `ConfirmSubscription`, `Unsubscribe`,
`SendWeatherUpdate` and `DeleteExpiredTokens` calls, in any environment.  (2) A
successful `Unsubscribe` leaves every row of the subscription it found soft-deleted
and keeps every token other than the consumed one unchanged, the other tokens of the
removed subscription included.  (3) `ConfirmSubscription` and `Unsubscribe` called
with a token whose subscription has no live row return an error, send nothing and
leave both tables as they were. -/
theorem removed_is_terminal :
    (∀ a b : DB, Steps (fun _ => True) a b →
      ∀ (i : Nat) (r : Subscription), a.subscriptions[i]? = some r → r.DeletedAt ≠ none →
        b.subscriptions[i]? = some r) ∧
    (∀ (env : Env) (db : DB) (tokenStr : String),
      (Unsubscribe env db tokenStr).err = none →
      ∃ token sub,
        TokenRepository.FindByToken env db tokenStr = .ok token ∧
        SubscriptionRepository.FindByID env db token.SubscriptionID = .ok sub ∧
        (∀ r ∈ (Unsubscribe env db tokenStr).db.subscriptions,
          r.ID = sub.ID → r.DeletedAt ≠ none) ∧
        ∀ (i : Nat) (t : Token), db.tokens[i]? = some t → t.ID ≠ token.ID →
          (Unsubscribe env db tokenStr).db.tokens[i]? = some t) ∧
    (∀ (env : Env) (db : DB) (tokenStr : String) (t : Token),
      TokenRepository.FindByToken env db tokenStr = .ok t →
      (∀ s ∈ db.subscriptions, s.ID = t.SubscriptionID → s.live = false) →
      (ConfirmSubscription env db tokenStr).err ≠ none ∧
      (ConfirmSubscription env db tokenStr).db = db ∧
      (ConfirmSubscription env db tokenStr).mails = [] ∧
      (Unsubscribe env db tokenStr).err ≠ none ∧
      (Unsubscribe env db tokenStr).db = db ∧
      (Unsubscribe env db tokenStr).mails = []) := by
  refine ⟨fun a b h => Steps_deleted_kept _ h, ?_, ?_⟩
  · intro env db tokenStr hok
    rcases Unsubscribe_shape env db tokenStr with ⟨e, h⟩ | ⟨token, sub, h1, _, h4, h⟩
    · rw [h] at hok; cases hok
    · refine ⟨token, sub, h1, h4, ?_, ?_⟩
      · rw [h]
        intro r hr hid
        simp only [List.mem_map] at hr
        obtain ⟨r0, _, hr0⟩ := hr
        by_cases hc : r0.ID = sub.ID ∧ r0.live = true
        · rw [if_pos hc] at hr0
          rw [← hr0]
          simp
        · rw [if_neg hc] at hr0
          subst hr0
          intro hnone
          exact hc ⟨hid, by simp [Subscription.live, hnone]⟩
      · intro i t hi hne
        rw [h]
        show (db.tokens.map _)[i]? = some t
        rw [List.getElem?_map, hi, Option.map_some', if_neg (fun hc => hne hc.1)]
  · intro env db tokenStr t hfind hgone
    obtain ⟨⟨e1, h1⟩, ⟨e2, h2⟩⟩ := no_live_row_rejects env db tokenStr t hfind hgone
    rw [h1, h2]
    exact ⟨by simp, rfl, rfl, by simp, rfl, rfl⟩


theorem removed_is_terminal_witness :
    ((Op.Subscribe ⟨"a@x.com", "Lima", "hourly"⟩).run sampleEnv removedDB).subscriptions[0]?
      = some { ID := 1, Email := "a@x.com", City := "Lima", Frequency := "daily",
               Confirmed := true, CreatedAt := 10, UpdatedAt := 20, DeletedAt := some 900 } ∧
    (ConfirmSubscription sampleEnv removedDB "tok-c").err ≠ none ∧
    (ConfirmSubscription sampleEnv removedDB "tok-c").db = removedDB ∧
    (Unsubscribe sampleEnv removedDB "tok-a").err ≠ none ∧
    (Unsubscribe sampleEnv removedDB "tok-a").db = removedDB :=
  ⟨removed_is_terminal.1 removedDB _
      (Steps.step sampleEnv (Op.Subscribe ⟨"a@x.com", "Lima", "hourly"⟩)
        (Steps.refl removedDB) trivial)
      0 _ rfl (by simp),
   (removed_is_terminal.2.2 sampleEnv removedDB "tok-c"
      { ID := 2, Token := "tok-c", SubscriptionID := 1, TokenType := "confirmation",
        ExpiresAt := 5000, CreatedAt := 30, DeletedAt := none }
      rfl (by decide)).1,
   (removed_is_terminal.2.2 sampleEnv removedDB "tok-c"
      { ID := 2, Token := "tok-c", SubscriptionID := 1, TokenType := "confirmation",
        ExpiresAt := 5000, CreatedAt := 30, DeletedAt := none }
      rfl (by decide)).2.1,
   (removed_is_terminal.2.2 sampleEnv removedDB "tok-a"
      { ID := 1, Token := "tok-a", SubscriptionID := 1, TokenType := "unsubscribe",
        ExpiresAt := 1000000, CreatedAt := 20, DeletedAt := none }
      rfl (by decide)).2.2.2.1,
   (removed_is_terminal.2.2 sampleEnv removedDB "tok-a"
      { ID := 1, Token := "tok-a", SubscriptionID := 1, TokenType := "unsubscribe",
        ExpiresAt := 1000000, CreatedAt := 20, DeletedAt := none }
      rfl (by decide)).2.2.2.2.1⟩


/-! ## The recipients of a broadcast -/

theorem foldl_sendOne_mails (env : Env) (subs : List Subscription) :
    ∀ acc : DB × List Mail, ∃ (sent : List Subscription) (ms : List Mail),
      sent.Sublist subs ∧
      (subs.foldl (sendOne env) acc).2 = acc.2 ++ ms ∧
      List.Forall₂ (fun m s => ∃ w url, m = Mail.SendWeatherUpdateEmail s.Email s.City w url)
        ms sent := by
  induction subs with
  | nil => intro acc; exact ⟨[], [], List.Sublist.slnil, by simp, List.Forall₂.nil⟩
  | cons a t ih =>
    intro acc
    rw [List.foldl_cons]
    obtain ⟨sent, ms, hsub, hm, hall⟩ := ih (sendOne env acc a)
    have hskip : sendOne env acc a = acc →
        ∃ (sent : List Subscription) (ms : List Mail), sent.Sublist (a :: t) ∧
          (t.foldl (sendOne env) (sendOne env acc a)).2 = acc.2 ++ ms ∧
          List.Forall₂
            (fun m s => ∃ w url, m = Mail.SendWeatherUpdateEmail s.Email s.City w url)
            ms sent := by
      intro h1
      refine ⟨sent, ms, List.Sublist.cons a hsub, ?_, hall⟩
      rw [hm, h1]
    have hsend : ∀ (d : DB) (w : WeatherResponse) (url : String),
        sendOne env acc a = (d, acc.2 ++ [Mail.SendWeatherUpdateEmail a.Email a.City w url]) →
        ∃ (sent : List Subscription) (ms : List Mail), sent.Sublist (a :: t) ∧
          (t.foldl (sendOne env) (sendOne env acc a)).2 = acc.2 ++ ms ∧
          List.Forall₂
            (fun m s => ∃ w url, m = Mail.SendWeatherUpdateEmail s.Email s.City w url)
            ms sent := by
      intro d w url h1
      refine ⟨a :: sent, Mail.SendWeatherUpdateEmail a.Email a.City w url :: ms,
        List.Sublist.cons₂ a hsub, ?_, List.Forall₂.cons ⟨w, url, rfl⟩ hall⟩
      rw [hm, h1]
      simp
    rcases sendOne_shape env acc a with ⟨_, h1⟩ | ⟨w, _, ⟨token, _, h1⟩ | ⟨e, _, h2⟩⟩
    · exact hskip h1
    · exact hsend _ w _ h1
    · rcases h2 with ⟨_, _, h1⟩ | ⟨tok, db1, _, h1⟩
      · exact hskip h1
      · exact hsend _ w _ h1

/-- C22: for every environment, store state and frequency `f`, the weather emails
attempted by `SendWeatherUpdate f` correspond, in order, to a sublist of the rows that
are live, confirmed and of frequency exactly `f`: each email goes to the address and
city of its row, and a row gets at most one email per call.  Rows that are
unconfirmed, soft-deleted or of another frequency are not in that list, so no email is
attempted for them; when the listing fails no email is attempted at all. -/
theorem SendWeatherUpdate_recipients (env : Env) (db : DB) (f : String) :
    ∃ sent : List Subscription,
      sent.Sublist
        (db.subscriptions.filter fun s => s.live && s.Frequency == f && s.Confirmed) ∧
      List.Forall₂ (fun m s => ∃ w url, m = Mail.SendWeatherUpdateEmail s.Email s.City w url)
        (SendWeatherUpdate env db f).mails sent ∧
      (∀ s ∈ sent, s ∈ db.subscriptions ∧ s.live = true ∧ s.Confirmed = true ∧
        s.Frequency = f) ∧
      (SendWeatherUpdate env db f).mails.length ≤
        (db.subscriptions.filter fun s => s.live && s.Frequency == f && s.Confirmed).length := by
  have hmem : ∀ sent : List Subscription,
      sent.Sublist
        (db.subscriptions.filter fun s => s.live && s.Frequency == f && s.Confirmed) →
      ∀ s ∈ sent, s ∈ db.subscriptions ∧ s.live = true ∧ s.Confirmed = true ∧
        s.Frequency = f := by
    intro sent hsub s hs
    have h := hsub.subset hs
    simp only [List.mem_filter, Bool.and_eq_true, beq_iff_eq] at h
    exact ⟨h.1, h.2.1.1, h.2.2, h.2.1.2⟩
  unfold SendWeatherUpdate SubscriptionRepository.GetSubscriptionsForUpdates
  cases env.fault .GetSubscriptionsForUpdates with
  | some e =>
    exact ⟨[], List.nil_sublist _, List.Forall₂.nil, by simp, by simp⟩
  | none =>
    obtain ⟨sent, ms, hsub, hm, hall⟩ := foldl_sendOne_mails env
      (db.subscriptions.filter fun s => s.live && s.Frequency == f && s.Confirmed) (db, [])
    simp only [List.nil_append] at hm
    refine ⟨sent, hsub, ?_, hmem sent hsub, ?_⟩
    · simp only [hm]; exact hall
    · simp only [hm]
      rw [hall.length_eq]
      exact hsub.length_le


theorem SendWeatherUpdate_recipients_witness :
    ∃ sent : List Subscription,
      sent.Sublist
        (broadcastDB.subscriptions.filter
          fun s => s.live && s.Frequency == "daily" && s.Confirmed) ∧
      List.Forall₂ (fun m s => ∃ w url, m = Mail.SendWeatherUpdateEmail s.Email s.City w url)
        (SendWeatherUpdate sampleEnv broadcastDB "daily").mails sent ∧
      (∀ s ∈ sent, s ∈ broadcastDB.subscriptions ∧ s.live = true ∧ s.Confirmed = true ∧
        s.Frequency = "daily") ∧
      (SendWeatherUpdate sampleEnv broadcastDB "daily").mails.length ≤
        (broadcastDB.subscriptions.filter
          fun s => s.live && s.Frequency == "daily" && s.Confirmed).length :=
  SendWeatherUpdate_recipients sampleEnv broadcastDB "daily"

/-! ## The two transactions of Subscribe -/

/-- C23: in `Subscribe` the write of the subscription and the issue of the token are
separate units.  When the lookup finds no confirmed row, the first transaction writes
the row (`writeSubscription` gives `sub` and the table `db1`) and commits, and then the
second step fails (its begin, the re-read of the row, the token insert, or its commit),
`Subscribe` returns an error, sends no email, and the committed subscription table is
`db1.subscriptions`: the table with the new unconfirmed row appended when there was no
row, or with the frequency of the existing row updated. -/
theorem Subscribe_token_step_fails (env : Env) (db db1 : DB) (req : SubscriptionRequest)
    (existing : Option Subscription) (sub : Subscription)
    (hfind : SubscriptionRepository.FindByEmail env db req.Email req.City = .ok existing)
    (hconf : existing.any (·.Confirmed) = false)
    (hbegin : env.fault (.Begin 1) = none)
    (hwrite : writeSubscription env db req existing = .ok (sub, db1))
    (hcommit : env.fault (.Commit 1) = none)
    (hfail : env.fault (.Begin 2) ≠ none ∨
      (∃ e, (gorm.First (env.fault .First) db1.subscriptions
          (fun s => s.live && s.ID == sub.ID)).toExcept = .error e) ∨
      (∃ refreshed e, (gorm.First (env.fault .First) db1.subscriptions
          (fun s => s.live && s.ID == sub.ID)).toExcept = .ok refreshed ∧
        TokenRepository.CreateToken env db1 refreshed.ID "confirmation" (24 * Hour)
          = .error e) ∨
      env.fault (.Commit 2) ≠ none) :
    (Subscribe env db req).err ≠ none ∧
    (Subscribe env db req).mails = [] ∧
    (Subscribe env db req).db.subscriptions = db1.subscriptions ∧
    (existing = none →
      db1.subscriptions = db.subscriptions ++
        [{ ID := gorm.nextID (db.subscriptions.map (·.ID)), Email := req.Email,
           City := req.City, Frequency := req.Frequency, Confirmed := false,
           CreatedAt := env.now, UpdatedAt := env.now, DeletedAt := none }]) ∧
    (∀ ex, existing = some ex →
      db1.subscriptions = db.subscriptions.map fun r =>
        if r.ID = ex.ID ∧ r.live = true then
          { ex with Frequency := req.Frequency, UpdatedAt := env.now }
        else r) := by
  have hmut : (existing = none →
      db1.subscriptions = db.subscriptions ++
        [{ ID := gorm.nextID (db.subscriptions.map (·.ID)), Email := req.Email,
           City := req.City, Frequency := req.Frequency, Confirmed := false,
           CreatedAt := env.now, UpdatedAt := env.now, DeletedAt := none }]) ∧
    (∀ ex, existing = some ex →
      db1.subscriptions = db.subscriptions.map fun r =>
        if r.ID = ex.ID ∧ r.live = true then
          { ex with Frequency := req.Frequency, UpdatedAt := env.now }
        else r) := by
    constructor
    · intro hn
      subst hn
      obtain ⟨_, hsub, hdb1⟩ := writeSubscription_none_spec hwrite
      rw [hdb1, hsub]
    · intro ex hs
      subst hs
      obtain ⟨_, hsub, hdb1⟩ := writeSubscription_some_spec hwrite
      rw [hdb1, hsub]
  have hres : (∃ e, Subscribe env db req = ⟨some e, db1, []⟩) ∨
      ∃ e tok db2, TokenRepository.CreateToken env db1 tok.SubscriptionID "confirmation"
          (24 * Hour) = .ok (tok, db2) ∧ Subscribe env db req = ⟨some e, db2, []⟩ := by
    cases hb2 : env.fault (.Begin 2) with
    | some e =>
      exact Or.inl ⟨e, by simp [Subscribe, hfind, hconf, hbegin, hwrite, hcommit, hb2]⟩
    | none =>
      cases hfirst : (gorm.First (env.fault .First) db1.subscriptions
          (fun s => s.live && s.ID == sub.ID)).toExcept with
      | error e =>
        exact Or.inl ⟨e, by simp [Subscribe, hfind, hconf, hbegin, hwrite, hcommit, hb2, hfirst]⟩
      | ok refreshed =>
        cases hct : TokenRepository.CreateToken env db1 refreshed.ID "confirmation"
            (24 * Hour) with
        | error e =>
          exact Or.inl ⟨e, by
            simp [Subscribe, hfind, hconf, hbegin, hwrite, hcommit, hb2, hfirst, hct]⟩
        | ok w =>
          obtain ⟨tok, db2⟩ := w
          cases hc2 : env.fault (.Commit 2) with
          | some e =>
            refine Or.inr ⟨e, tok, db2, ?_, by
              simp [Subscribe, hfind, hconf, hbegin, hwrite, hcommit, hb2, hfirst, hct, hc2]⟩
            have hsid : tok.SubscriptionID = refreshed.ID := by
              rw [(CreateToken_ok_spec hct).2.1]
            rw [hsid]
            exact hct
          | none =>
            rcases hfail with h | ⟨e, h⟩ | ⟨r2, e, h, h2⟩ | h
            · exact absurd hb2 h
            · rw [hfirst] at h; cases h
            · rw [hfirst] at h
              cases h
              rw [hct] at h2
              cases h2
            · exact absurd hc2 h
  rcases hres with ⟨e, h⟩ | ⟨e, tok, db2, hct, h⟩
  · rw [h]
    exact ⟨by simp, rfl, rfl, hmut⟩
  · rw [h]
    exact ⟨by simp, rfl, by rw [(CreateToken_ok_spec hct).2.2.1], hmut⟩


theorem Subscribe_token_step_fails_witness :
    (Subscribe tokenFaultEnv sampleDB ⟨"c@x.com", "Oslo", "daily"⟩).err ≠ none ∧
    (Subscribe tokenFaultEnv sampleDB ⟨"c@x.com", "Oslo", "daily"⟩).mails = [] ∧
    (Subscribe tokenFaultEnv sampleDB ⟨"c@x.com", "Oslo", "daily"⟩).db.subscriptions
      = sampleDB.subscriptions ++
        [{ ID := 3, Email := "c@x.com", City := "Oslo", Frequency := "daily",
           Confirmed := false, CreatedAt := 1000, UpdatedAt := 1000, DeletedAt := none }] :=
  have h := Subscribe_token_step_fails tokenFaultEnv sampleDB
    { sampleDB with subscriptions := sampleDB.subscriptions ++
        [{ ID := 3, Email := "c@x.com", City := "Oslo", Frequency := "daily",
           Confirmed := false, CreatedAt := 1000, UpdatedAt := 1000, DeletedAt := none }] }
    ⟨"c@x.com", "Oslo", "daily"⟩ none
    { ID := 3, Email := "c@x.com", City := "Oslo", Frequency := "daily",
      Confirmed := false, CreatedAt := 1000, UpdatedAt := 1000, DeletedAt := none }
    rfl rfl rfl rfl rfl
    (Or.inr (Or.inr (Or.inl
      ⟨{ ID := 3, Email := "c@x.com", City := "Oslo", Frequency := "daily",
         Confirmed := false, CreatedAt := 1000, UpdatedAt := 1000, DeletedAt := none },
       "connection refused", rfl, rfl⟩)))
  ⟨h.1, h.2.1, h.2.2.1⟩


/-! ## Confirmed rows and unsubscribe tokens -/

theorem SubsStep_confirmed_id_kept {l l2 : List Subscription} (h : SubsStep l l2)
    (hkeys : (l.map (·.ID)).Nodup) (id : Nat)
    (hex : ∃ s ∈ l, s.ID = id ∧ s.Confirmed = true) :
    ∃ s ∈ l2, s.ID = id ∧ s.Confirmed = true := by
  obtain ⟨s, hs, hid, hc⟩ := hex
  obtain ⟨i, hi⟩ := List.mem_iff_getElem?.mp hs
  obtain ⟨r2, hr2, hid2, hc2⟩ := SubsStep_confirmed_kept h hkeys i s hi hc
  exact ⟨r2, List.mem_iff_getElem?.mpr ⟨i, hr2⟩, hid2.trans hid, hc2⟩

theorem tokens_kept (db db2 : DB)
    (hstep : SubsStep db.subscriptions db2.subscriptions)
    (hkeys : SubscriptionKeysUnique db) (hinv : UnsubscribeTokensConfirmed db)
    (htok : ∀ t2 ∈ db2.tokens,
      (∃ t ∈ db.tokens, t.TokenType = t2.TokenType ∧ t.SubscriptionID = t2.SubscriptionID) ∨
      t2.TokenType ≠ "unsubscribe" ∨
      ∃ s ∈ db2.subscriptions, s.ID = t2.SubscriptionID ∧ s.Confirmed = true) :
    UnsubscribeTokensConfirmed db2 := by
  intro t2 ht2 hty
  rcases htok t2 ht2 with ⟨t, ht, h1, h2⟩ | h | h
  · rw [← h2]
    exact SubsStep_confirmed_id_kept hstep hkeys _ (hinv t ht (h1.trans hty))
  · exact absurd hty h
  · exact h

theorem map_delete_tokens (l : List Token) (c : Token → Prop) [DecidablePred c] (now : Time) :
    ∀ t2 ∈ l.map (fun r => if c r then { r with DeletedAt := some now } else r),
      ∃ t ∈ l, t.TokenType = t2.TokenType ∧ t.SubscriptionID = t2.SubscriptionID := by
  intro t2 ht2
  simp only [List.mem_map] at ht2
  obtain ⟨t, ht, heq⟩ := ht2
  refine ⟨t, ht, ?_⟩
  by_cases hc : c t
  · rw [if_pos hc] at heq
    rw [← heq]
    exact ⟨rfl, rfl⟩
  · rw [if_neg hc] at heq
    rw [← heq]
    exact ⟨rfl, rfl⟩

theorem writeSubscription_tokens {env : Env} {db db1 : DB} {req : SubscriptionRequest}
    {existing : Option Subscription} {sub : Subscription}
    (h : writeSubscription env db req existing = .ok (sub, db1)) :
    db1.tokens = db.tokens := by
  cases existing with
  | some ex => rw [(writeSubscription_some_spec h).2.2]
  | none => rw [(writeSubscription_none_spec h).2.2]

theorem GetSubscriptionsForUpdates_ok_spec {env : Env} {db : DB} {f : String}
    {subs : List Subscription}
    (h : SubscriptionRepository.GetSubscriptionsForUpdates env db f = .ok subs) :
    subs = db.subscriptions.filter fun s => s.live && s.Frequency == f && s.Confirmed := by
  unfold SubscriptionRepository.GetSubscriptionsForUpdates at h
  cases hf : env.fault .GetSubscriptionsForUpdates with
  | some e => simp [hf] at h
  | none =>
    simp only [hf, Except.ok.injEq] at h
    exact h.symm


theorem Op_run_tokens (env : Env) (hnf : NoFaults env) (db : DB) (op : Op) :
    ∀ t2 ∈ (op.run env db).tokens,
      (∃ t ∈ db.tokens, t.TokenType = t2.TokenType ∧ t.SubscriptionID = t2.SubscriptionID) ∨
      t2.TokenType ≠ "unsubscribe" ∨
      ∃ s ∈ (op.run env db).subscriptions, s.ID = t2.SubscriptionID ∧ s.Confirmed = true := by
  have hsame : ∀ t2 ∈ db.tokens,
      (∃ t ∈ db.tokens, t.TokenType = t2.TokenType ∧ t.SubscriptionID = t2.SubscriptionID) :=
    fun t2 h => ⟨t2, h, rfl, rfl⟩
  cases op with
  | Subscribe req =>
    show ∀ t2 ∈ (Subscribe env db req).db.tokens, _ ∨ _ ∨
      ∃ s ∈ (Subscribe env db req).db.subscriptions, _
    rcases Subscribe_shape env db req with ⟨e, h⟩ | ⟨existing, sub, db1, _, _, h4, hrest⟩
    · rw [h]; exact fun t2 ht2 => Or.inl (hsame t2 ht2)
    · have htk := writeSubscription_tokens h4
      rcases hrest with ⟨e, h⟩ | ⟨refreshed, tok, db2, err, mails, _, h8, h⟩
      · rw [h]
        intro t2 ht2
        rw [htk] at ht2
        exact Or.inl (hsame t2 ht2)
      · obtain ⟨_, htok, hdb2, _⟩ := CreateToken_ok_spec h8
        rw [h]
        intro t2 ht2
        rw [hdb2] at ht2
        simp only [List.mem_append, List.mem_singleton] at ht2
        rcases ht2 with ht2 | ht2
        · rw [htk] at ht2
          exact Or.inl (hsame t2 ht2)
        · refine Or.inr (Or.inl ?_)
          rw [ht2, htok]
          show "confirmation" ≠ "unsubscribe"
          decide
  | ConfirmSubscription tokenStr =>
    show ∀ t2 ∈ (ConfirmSubscription env db tokenStr).db.tokens, _ ∨ _ ∨
      ∃ s ∈ (ConfirmSubscription env db tokenStr).db.subscriptions, _
    rcases ConfirmSubscription_shape env db tokenStr with
      ⟨e, h⟩ | ⟨token, found, new, db1, _, _, h4, h7, ⟨e, hc, _⟩ | ⟨_, h⟩⟩
    · rw [h]; exact fun t2 ht2 => Or.inl (hsame t2 ht2)
    · rw [hnf (.Commit 1)] at hc; cases hc
    · obtain ⟨hfm, hfl, _⟩ := FindByID_ok_spec h4
      obtain ⟨_, hnew, _, _⟩ := CreateToken_ok_spec h7
      rw [h]
      intro t2 ht2
      simp only [List.mem_append, List.mem_singleton] at ht2
      rcases ht2 with ht2 | ht2
      · exact Or.inl (map_delete_tokens db.tokens _ env.now t2 ht2)
      · refine Or.inr (Or.inr ⟨{ found with Confirmed := true, UpdatedAt := env.now }, ?_, ?_, rfl⟩)
        · simp only [List.mem_map]
          exact ⟨found, hfm, by rw [if_pos ⟨rfl, hfl⟩]⟩
        · rw [ht2, hnew]
  | Unsubscribe tokenStr =>
    show ∀ t2 ∈ (Unsubscribe env db tokenStr).db.tokens, _ ∨ _ ∨
      ∃ s ∈ (Unsubscribe env db tokenStr).db.subscriptions, _
    rcases Unsubscribe_shape env db tokenStr with ⟨e, h⟩ | ⟨token, sub, _, _, _, h⟩
    · rw [h]; exact fun t2 ht2 => Or.inl (hsame t2 ht2)
    · rw [h]
      exact fun t2 ht2 => Or.inl (map_delete_tokens db.tokens _ env.now t2 ht2)
  | SendWeatherUpdate frequency =>
    show ∀ t2 ∈ (SendWeatherUpdate env db frequency).db.tokens, _ ∨ _ ∨
      ∃ s ∈ (SendWeatherUpdate env db frequency).db.subscriptions, _
    rw [SendWeatherUpdate_subscriptions]
    unfold SendWeatherUpdate
    cases hl : SubscriptionRepository.GetSubscriptionsForUpdates env db frequency with
    | error e => exact fun t2 ht2 => Or.inl (hsame t2 ht2)
    | ok subs =>
      have hsubs := GetSubscriptionsForUpdates_ok_spec hl
      have hfold := foldl_sendOne_inv env
        (fun d => ∀ t2 ∈ d.tokens,
          (∃ t ∈ db.tokens, t.TokenType = t2.TokenType ∧
            t.SubscriptionID = t2.SubscriptionID) ∨
          t2.TokenType ≠ "unsubscribe" ∨
          ∃ s ∈ db.subscriptions, s.ID = t2.SubscriptionID ∧ s.Confirmed = true)
        subs
        (fun s hs d tok d1 hd hc => by
          obtain ⟨_, htok, hd1, _⟩ := CreateToken_ok_spec hc
          intro t2 ht2
          rw [hd1] at ht2
          simp only [List.mem_append, List.mem_singleton] at ht2
          rcases ht2 with ht2 | ht2
          · exact hd t2 ht2
          · rw [hsubs] at hs
            simp only [List.mem_filter, Bool.and_eq_true] at hs
            refine Or.inr (Or.inr ⟨s, hs.1, ?_, hs.2.2⟩)
            rw [ht2, htok])
        (db, []) (fun t2 ht2 => Or.inl (hsame t2 ht2))
      exact hfold
  | DeleteExpiredTokens =>
    show ∀ t2 ∈ (TokenRepository.DeleteExpiredTokens env db).db.tokens, _ ∨ _ ∨
      ∃ s ∈ (TokenRepository.DeleteExpiredTokens env db).db.subscriptions, _
    unfold TokenRepository.DeleteExpiredTokens
    cases env.fault .DeleteExpiredTokens with
    | some e => exact fun t2 ht2 => Or.inl (hsame t2 ht2)
    | none => exact fun t2 ht2 => Or.inl (map_delete_tokens db.tokens _ env.now t2 ht2)


theorem Op_run_keeps_token_invariant (env : Env) (hnf : NoFaults env) (db : DB) (op : Op)
    (h : (OneLivePerPair db ∧ SubscriptionKeysUnique db) ∧ UnsubscribeTokensConfirmed db) :
    (OneLivePerPair (op.run env db) ∧ SubscriptionKeysUnique (op.run env db)) ∧
      UnsubscribeTokensConfirmed (op.run env db) :=
  ⟨Op_run_keeps_invariant env db op h.1,
   tokens_kept db (op.run env db) (Op_run_SubsStep env db op) h.1.2 h.2
     (Op_run_tokens env hnf db op)⟩

theorem Steps_confirmed_kept (P : Env → Prop) {a b : DB} (h : Steps P a b)
    (hinv : OneLivePerPair a ∧ SubscriptionKeysUnique a) :
    (OneLivePerPair b ∧ SubscriptionKeysUnique b) ∧
    ∀ (i : Nat) (r : Subscription), a.subscriptions[i]? = some r → r.Confirmed = true →
      ∃ r2, b.subscriptions[i]? = some r2 ∧ r2.ID = r.ID ∧ r2.Confirmed = true := by
  induction h with
  | refl => exact ⟨hinv, fun i r hi hc => ⟨r, hi, rfl, hc⟩⟩
  | step env op _ _ ih =>
    obtain ⟨hb, hkept⟩ := ih
    refine ⟨Op_run_keeps_invariant env _ op hb, ?_⟩
    intro i r hi hc
    obtain ⟨r2, hr2, hid2, hc2⟩ := hkept i r hi hc
    obtain ⟨r3, hr3, hid3, hc3⟩ :=
      SubsStep_confirmed_kept (Op_run_SubsStep env _ op) hb.2 i r2 hr2 hc2
    exact ⟨r3, hr3, hid3.trans hid2, hc3⟩

/-- C29: in the states reachable from the empty store by `Subscribe`,
`ConfirmSubscription`, `Unsubscribe`, `SendWeatherUpdate` and `DeleteExpiredTokens`
calls in which the database fails no call: (1) a row whose confirmed flag is set keeps
its place, its id and the set flag through every further sequence of such calls, so the
flag never changes from true to false; (2) every token of type "unsubscribe"
references a subscription row, live or soft-deleted, whose confirmed flag is set. -/
theorem confirmed_never_reverts :
    (∀ a b : DB, Reachable NoFaults a → Steps NoFaults a b →
      ∀ (i : Nat) (r : Subscription), a.subscriptions[i]? = some r → r.Confirmed = true →
        ∃ r2, b.subscriptions[i]? = some r2 ∧ r2.ID = r.ID ∧ r2.Confirmed = true) ∧
    (∀ db : DB, Reachable NoFaults db → UnsubscribeTokensConfirmed db) := by
  have hreach : ∀ db : DB, Reachable NoFaults db →
      (OneLivePerPair db ∧ SubscriptionKeysUnique db) ∧ UnsubscribeTokensConfirmed db := by
    intro db h
    refine Steps_invariant NoFaults
      (fun d => (OneLivePerPair d ∧ SubscriptionKeysUnique d) ∧ UnsubscribeTokensConfirmed d)
      (fun env op d hnf hd => Op_run_keeps_token_invariant env hnf d op hd) h
      ⟨⟨List.Pairwise.nil, List.nodup_nil⟩, ?_⟩
    intro t ht
    cases ht
  exact ⟨fun a b ha hab => (Steps_confirmed_kept NoFaults hab (hreach a ha).1).2,
    fun db h => (hreach db h).2⟩

theorem confirmed_never_reverts_witness :
    UnsubscribeTokensConfirmed
      ((Op.ConfirmSubscription "uuu").run sampleEnv
        ((Op.Subscribe ⟨"a@x.com", "Lima", "daily"⟩).run sampleEnv ⟨[], []⟩)) ∧
    ∃ r2, ((Op.Unsubscribe "uuuu").run sampleEnv
        ((Op.ConfirmSubscription "uuu").run sampleEnv
          ((Op.Subscribe ⟨"a@x.com", "Lima", "daily"⟩).run sampleEnv ⟨[], []⟩))).subscriptions[0]?
        = some r2 ∧ r2.ID = 1 ∧ r2.Confirmed = true :=
  ⟨confirmed_never_reverts.2 _
      (Steps.step sampleEnv (Op.ConfirmSubscription "uuu")
        (Steps.step sampleEnv (Op.Subscribe ⟨"a@x.com", "Lima", "daily"⟩)
          (Steps.refl ⟨[], []⟩) (fun _ => rfl))
        (fun _ => rfl)),
   confirmed_never_reverts.1
      ((Op.ConfirmSubscription "uuu").run sampleEnv
        ((Op.Subscribe ⟨"a@x.com", "Lima", "daily"⟩).run sampleEnv ⟨[], []⟩))
      _
      (Steps.step sampleEnv (Op.ConfirmSubscription "uuu")
        (Steps.step sampleEnv (Op.Subscribe ⟨"a@x.com", "Lima", "daily"⟩)
          (Steps.refl ⟨[], []⟩) (fun _ => rfl))
        (fun _ => rfl))
      (Steps.step sampleEnv (Op.Unsubscribe "uuuu") (Steps.refl _) (fun _ => rfl))
      0
      { ID := 1, Email := "a@x.com", City := "Lima", Frequency := "daily", Confirmed := true,
        CreatedAt := 1000, UpdatedAt := 1000, DeletedAt := none }
      rfl rfl⟩


/-! ## Subscribing again after a removal -/

theorem First_appended (subs : List Subscription) (new : Subscription)
    (hlive : new.live = true) (hid : new.ID = gorm.nextID (subs.map (·.ID))) :
    (gorm.First none (subs ++ [new]) (fun s => s.live && s.ID == new.ID)).toExcept
      = .ok new := by
  have hq : subs.find? (fun s => s.live && s.ID == new.ID) = none := by
    rw [List.find?_eq_none]
    intro r hr hp
    simp only [Bool.and_eq_true, beq_iff_eq] at hp
    have hlt : r.ID < gorm.nextID (subs.map (·.ID)) :=
      nextID_fresh (List.mem_map.mpr ⟨r, hr, rfl⟩)
    rw [← hid, hp.2] at hlt
    exact Nat.lt_irrefl _ hlt
  simp [gorm.First, gorm.Query.toExcept, List.find?_append, hq, hlive]

theorem Subscribe_new_pair (env : Env) (db : DB) (req : SubscriptionRequest)
    (hnf : NoFaults env) (hsend : ∀ m, env.send m = none)
    (hnone : ∀ r ∈ db.subscriptions,
      (r.live && r.Email == req.Email && r.City == req.City) = false)
    (hfresh : ∀ r ∈ db.tokens, r.Token ≠ env.uuid (gorm.nextID (db.tokens.map (·.ID)))) :
    Subscribe env db req =
      ⟨none,
       { subscriptions := db.subscriptions ++
           [{ ID := gorm.nextID (db.subscriptions.map (·.ID)), Email := req.Email,
              City := req.City, Frequency := req.Frequency, Confirmed := false,
              CreatedAt := env.now, UpdatedAt := env.now, DeletedAt := none }],
         tokens := db.tokens ++
           [{ ID := gorm.nextID (db.tokens.map (·.ID)),
              Token := env.uuid (gorm.nextID (db.tokens.map (·.ID))),
              SubscriptionID := gorm.nextID (db.subscriptions.map (·.ID)),
              TokenType := "confirmation", ExpiresAt := env.now + 24 * Hour,
              CreatedAt := env.now, DeletedAt := none }] },
       [Mail.SendConfirmationEmail req.Email
          (env.AppBaseURL ++ "/api/confirm/" ++ env.uuid (gorm.nextID (db.tokens.map (·.ID))))
          req.City]⟩ := by
  have h1 := FindByEmail_none_of env db req.Email req.City (hnf _) hnone
  have hw : writeSubscription env db req none =
      .ok ({ ID := gorm.nextID (db.subscriptions.map (·.ID)), Email := req.Email,
             City := req.City, Frequency := req.Frequency, Confirmed := false,
             CreatedAt := env.now, UpdatedAt := env.now, DeletedAt := none },
           { db with subscriptions := db.subscriptions ++
             [{ ID := gorm.nextID (db.subscriptions.map (·.ID)), Email := req.Email,
                City := req.City, Frequency := req.Frequency, Confirmed := false,
                CreatedAt := env.now, UpdatedAt := env.now, DeletedAt := none }] }) := by
    simp [writeSubscription, gorm.CreateSubscription, hnf .Create]
  have hf := First_appended db.subscriptions
    { ID := gorm.nextID (db.subscriptions.map (·.ID)), Email := req.Email,
      City := req.City, Frequency := req.Frequency, Confirmed := false,
      CreatedAt := env.now, UpdatedAt := env.now, DeletedAt := none } rfl rfl
  have hany : db.tokens.any
      (fun r => r.Token == env.uuid (gorm.nextID (db.tokens.map (·.ID)))) = false := by
    rw [List.any_eq_false]
    intro r hr
    simpa using hfresh r hr
  simp only [Subscribe, h1, Option.any_none, Bool.false_eq_true, if_false, hnf (.Begin 1), hw,
    hnf (.Commit 1), hnf (.Begin 2), hnf .First, hf, TokenRepository.CreateToken,
    hnf (.CreateToken _), hany, hnf (.Commit 2), hsend]


/-- C28: on a store with at most one live subscription per pair, after a successful
`Unsubscribe` through a token of the live subscription `sub`, a later
`Subscribe(sub.Email, sub.City, f)` in an environment whose database fails no call,
whose notifier accepts the email and whose next uuid string is not in the token table
returns no error (so not "email already subscribed", whatever the confirmed flag of the
removed row was) and appends one row: a key that no earlier row has, the same email
and city, frequency `f`, `Confirmed = false`, not deleted.  Every earlier row, the
soft-deleted one included, stays at its place unchanged. -/
theorem Subscribe_after_Unsubscribe (env env2 : Env) (db : DB) (tokenStr f : String)
    (token : Token) (sub : Subscription)
    (hinv : OneLivePerPair db)
    (hfind : TokenRepository.FindByToken env db tokenStr = .ok token)
    (hsub : SubscriptionRepository.FindByID env db token.SubscriptionID = .ok sub)
    (hok : (Unsubscribe env db tokenStr).err = none)
    (hnf : NoFaults env2) (hsend : ∀ m, env2.send m = none)
    (hfresh : ∀ r ∈ (Unsubscribe env db tokenStr).db.tokens,
      r.Token ≠ env2.uuid (gorm.nextID ((Unsubscribe env db tokenStr).db.tokens.map (·.ID)))) :
    (Subscribe env2 (Unsubscribe env db tokenStr).db ⟨sub.Email, sub.City, f⟩).err = none ∧
    (Subscribe env2 (Unsubscribe env db tokenStr).db ⟨sub.Email, sub.City, f⟩).db.subscriptions
      = (Unsubscribe env db tokenStr).db.subscriptions ++
        [{ ID := gorm.nextID ((Unsubscribe env db tokenStr).db.subscriptions.map (·.ID)),
           Email := sub.Email, City := sub.City, Frequency := f, Confirmed := false,
           CreatedAt := env2.now, UpdatedAt := env2.now, DeletedAt := none }] ∧
    (∀ r ∈ (Unsubscribe env db tokenStr).db.subscriptions,
      r.ID ≠ gorm.nextID ((Unsubscribe env db tokenStr).db.subscriptions.map (·.ID))) ∧
    (∀ (i : Nat) (r : Subscription),
      (Unsubscribe env db tokenStr).db.subscriptions[i]? = some r →
      (Subscribe env2 (Unsubscribe env db tokenStr).db
        ⟨sub.Email, sub.City, f⟩).db.subscriptions[i]? = some r) ∧
    (∃ old ∈ (Unsubscribe env db tokenStr).db.subscriptions,
      old = { sub with DeletedAt := some env.now }) := by
  obtain ⟨hs, hslive, _⟩ := FindByID_ok_spec hsub
  have hgone : ∀ r ∈ (Unsubscribe env db tokenStr).db.subscriptions,
      (r.live && r.Email == sub.Email && r.City == sub.City) = false := by
    rcases Unsubscribe_shape env db tokenStr with ⟨e, h⟩ | ⟨token2, sub2, h1, _, h4, h⟩
    · rw [h] at hok; cases hok
    · rw [hfind] at h1
      cases h1
      rw [hsub] at h4
      cases h4
      rw [h]
      exact deleted_subscription_gone db sub env.now hinv hs hslive
  have hold : ∃ old ∈ (Unsubscribe env db tokenStr).db.subscriptions,
      old = { sub with DeletedAt := some env.now } := by
    rcases Unsubscribe_shape env db tokenStr with ⟨e, h⟩ | ⟨token2, sub2, h1, _, h4, h⟩
    · rw [h] at hok; cases hok
    · rw [hfind] at h1
      cases h1
      rw [hsub] at h4
      cases h4
      rw [h]
      refine ⟨_, ?_, rfl⟩
      simp only [List.mem_map]
      exact ⟨sub, hs, by rw [if_pos ⟨rfl, hslive⟩]⟩
  have hrun := Subscribe_new_pair env2 (Unsubscribe env db tokenStr).db
    ⟨sub.Email, sub.City, f⟩ hnf hsend hgone hfresh
  rw [hrun]
  refine ⟨rfl, rfl, ?_, ?_, hold⟩
  · intro r hr heq
    have hlt : r.ID < gorm.nextID ((Unsubscribe env db tokenStr).db.subscriptions.map (·.ID)) :=
      nextID_fresh (List.mem_map.mpr ⟨r, hr, rfl⟩)
    rw [heq] at hlt
    exact Nat.lt_irrefl _ hlt
  · intro i r hi
    obtain ⟨hlt, _⟩ := List.getElem?_eq_some.mp hi
    show (_ ++ _)[i]? = some r
    rw [List.getElem?_append_left hlt]
    exact hi

theorem Subscribe_after_Unsubscribe_witness :
    (Subscribe sampleEnv (Unsubscribe sampleEnv sampleDB "tok-a").db
      ⟨"a@x.com", "Lima", "hourly"⟩).err = none ∧
    (Subscribe sampleEnv (Unsubscribe sampleEnv sampleDB "tok-a").db
      ⟨"a@x.com", "Lima", "hourly"⟩).db.subscriptions
      = (Unsubscribe sampleEnv sampleDB "tok-a").db.subscriptions ++
        [{ ID := 3, Email := "a@x.com", City := "Lima", Frequency := "hourly",
           Confirmed := false, CreatedAt := 1000, UpdatedAt := 1000, DeletedAt := none }] :=
  have h := Subscribe_after_Unsubscribe sampleEnv sampleEnv sampleDB "tok-a" "hourly"
    { ID := 1, Token := "tok-a", SubscriptionID := 1, TokenType := "unsubscribe",
      ExpiresAt := 1000000, CreatedAt := 20, DeletedAt := none }
    { ID := 1, Email := "a@x.com", City := "Lima", Frequency := "daily", Confirmed := true,
      CreatedAt := 10, UpdatedAt := 20, DeletedAt := none }
    (by decide) rfl rfl rfl (fun _ => rfl) (fun _ => rfl) (by decide)
  ⟨h.1, h.2.1⟩


/-! ## The unsubscribe link of a weather email -/

theorem digitChar_ne_hyphen : ∀ m, m < 10 → Nat.digitChar m ≠ '-' := by decide

theorem toDigitsCore_no_hyphen (fuel : Nat) :
    ∀ (n : Nat) (ds : List Char), '-' ∉ ds → '-' ∉ Nat.toDigitsCore 10 fuel n ds := by
  induction fuel with
  | zero => intro n ds h; exact h
  | succ k ih =>
    intro n ds h
    have hd : '-' ∉ Nat.digitChar (n % 10) :: ds := by
      intro hm
      rcases List.mem_cons.mp hm with h1 | h1
      · exact digitChar_ne_hyphen _ (Nat.mod_lt _ (by decide)) h1.symm
      · exact h h1
    show '-' ∉ (if n / 10 = 0 then Nat.digitChar (n % 10) :: ds
      else Nat.toDigitsCore 10 k (n / 10) (Nat.digitChar (n % 10) :: ds))
    by_cases hn : n / 10 = 0
    · rw [if_pos hn]; exact hd
    · rw [if_neg hn]; exact ih _ _ hd

theorem decimal_not_hyphenated (n : Nat) : ¬ Hyphenated (toString n) := by
  show '-' ∉ (Nat.toDigits 10 n).asString.data
  exact toDigitsCore_no_hyphen _ _ _ (List.not_mem_nil _)

theorem FindByToken_decimal (env : Env) (db : DB) (id : Nat)
    (hstored : ∀ t ∈ db.tokens, Hyphenated t.Token) :
    ∃ e, TokenRepository.FindByToken env db (toString id) = .error e := by
  cases hf : TokenRepository.FindByToken env db (toString id) with
  | error e => exact ⟨e, rfl⟩
  | ok token =>
    obtain ⟨hm, _, hstr, _⟩ := FindByToken_ok_spec hf
    have := hstored token hm
    rw [hstr] at this
    exact absurd this (decimal_not_hyphenated id)

theorem CreateToken_keeps_unique {env : Env} {db db1 : DB} {sid : Nat} {ty : String}
    {ttl : Nat} {tok : Token}
    (h : TokenRepository.CreateToken env db sid ty ttl = .ok (tok, db1))
    (huniq : TokenStringsUnique db) : TokenStringsUnique db1 := by
  obtain ⟨_, _, hdb1, hne⟩ := CreateToken_ok_spec h
  rw [hdb1]
  unfold TokenStringsUnique at huniq ⊢
  simp only [List.map_append, List.map_cons, List.map_nil]
  rw [List.nodup_append]
  refine ⟨huniq, List.nodup_singleton _, ?_⟩
  intro x hx hx2
  simp only [List.mem_singleton] at hx2
  obtain ⟨r, hr, hrx⟩ := List.mem_map.mp hx
  exact hne r hr (hrx.trans hx2)

theorem sendOne_creates (env : Env) (acc : DB × List Mail) (s : Subscription)
    (w : WeatherResponse) (tok : Token) (db1 : DB)
    (hstored : ∀ t ∈ acc.1.tokens, Hyphenated t.Token)
    (hw : env.GetWeather s.City = .ok w)
    (hct : TokenRepository.CreateToken env acc.1 s.ID "unsubscribe" (365 * 24 * Hour)
      = .ok (tok, db1)) :
    sendOne env acc s =
      (db1, acc.2 ++ [Mail.SendWeatherUpdateEmail s.Email s.City w
        (env.AppBaseURL ++ "/api/unsubscribe/" ++ tok.Token)]) := by
  obtain ⟨e, hf⟩ := FindByToken_decimal env acc.1 s.ID hstored
  simp only [sendOne, hw, hf, hct]
  split <;> rfl


theorem foldl_sendOne_tokens (env : Env) (huuid : ∀ n, Hyphenated (env.uuid n))
    (subs : List Subscription) :
    ∀ acc : DB × List Mail, (∀ t ∈ acc.1.tokens, Hyphenated t.Token) →
      ∃ (ms : List Mail) (toks : List Token),
        (subs.foldl (sendOne env) acc).2 = acc.2 ++ ms ∧
        (subs.foldl (sendOne env) acc).1.tokens = acc.1.tokens ++ toks ∧
        List.Forall₂ (fun m tok => ∃ s ∈ subs, ∃ w,
            m = Mail.SendWeatherUpdateEmail s.Email s.City w
              (env.AppBaseURL ++ "/api/unsubscribe/" ++ tok.Token) ∧
            tok.TokenType = "unsubscribe" ∧ tok.SubscriptionID = s.ID ∧
            tok.ExpiresAt = env.now + 365 * 24 * Hour ∧ tok.DeletedAt = none)
          ms toks := by
  induction subs with
  | nil => intro acc _; exact ⟨[], [], by simp, by simp, List.Forall₂.nil⟩
  | cons a t ih =>
    intro acc hst
    rw [List.foldl_cons]
    have hskip : sendOne env acc a = acc →
        ∃ (ms : List Mail) (toks : List Token),
          (t.foldl (sendOne env) (sendOne env acc a)).2 = acc.2 ++ ms ∧
          (t.foldl (sendOne env) (sendOne env acc a)).1.tokens = acc.1.tokens ++ toks ∧
          List.Forall₂ (fun m tok => ∃ s ∈ a :: t, ∃ w,
              m = Mail.SendWeatherUpdateEmail s.Email s.City w
                (env.AppBaseURL ++ "/api/unsubscribe/" ++ tok.Token) ∧
              tok.TokenType = "unsubscribe" ∧ tok.SubscriptionID = s.ID ∧
              tok.ExpiresAt = env.now + 365 * 24 * Hour ∧ tok.DeletedAt = none)
            ms toks := by
      intro h1
      rw [h1]
      obtain ⟨ms, toks, hm, htk, hall⟩ := ih acc hst
      exact ⟨ms, toks, hm, htk,
        hall.imp fun m tok ⟨s, hs, hr⟩ => ⟨s, List.mem_cons_of_mem a hs, hr⟩⟩
    rcases sendOne_shape env acc a with ⟨_, h1⟩ | ⟨w, hw, ⟨token, hf, _⟩ | ⟨e, _, h2⟩⟩
    · exact hskip h1
    · obtain ⟨e, he⟩ := FindByToken_decimal env acc.1 a.ID hst
      rw [hf] at he
      cases he
    · rcases h2 with ⟨_, _, h1⟩ | ⟨tok, db1, hc, h1⟩
      · exact hskip h1
      · obtain ⟨_, htok, hdb1, _⟩ := CreateToken_ok_spec hc
        have hst1 : ∀ t ∈ db1.tokens, Hyphenated t.Token := by
          intro x hx
          rw [hdb1] at hx
          rcases List.mem_append.mp hx with hx | hx
          · exact hst x hx
          · simp only [List.mem_singleton] at hx
            rw [hx, htok]
            exact huuid _
        rw [h1]
        obtain ⟨ms, toks, hm, htk, hall⟩ := ih
          (db1, acc.2 ++ [Mail.SendWeatherUpdateEmail a.Email a.City w
            (env.AppBaseURL ++ "/api/unsubscribe/" ++ tok.Token)]) hst1
        refine ⟨Mail.SendWeatherUpdateEmail a.Email a.City w
            (env.AppBaseURL ++ "/api/unsubscribe/" ++ tok.Token) :: ms, tok :: toks, ?_, ?_,
          List.Forall₂.cons ⟨a, List.mem_cons_self a t, w, rfl, ?_, ?_, ?_, ?_⟩
            (hall.imp fun m tk ⟨s, hs, hr⟩ => ⟨s, List.mem_cons_of_mem a hs, hr⟩)⟩
        · rw [hm]; simp
        · rw [htk, hdb1]; simp
        · rw [htok]
        · rw [htok]
        · rw [htok]
        · rw [htok]

theorem Forall₂_right {α β : Type} {R : α → β → Prop} {l : List α} {l2 : List β}
    (h : List.Forall₂ R l l2) : ∀ b ∈ l2, ∃ a ∈ l, R a b := by
  induction h with
  | nil => intro b hb; cases hb
  | cons hr _ ih =>
    intro b hb
    rcases List.mem_cons.mp hb with hb | hb
    · subst hb
      exact ⟨_, List.mem_cons_self _ _, hr⟩
    · obtain ⟨a, ha, hab⟩ := ih b hb
      exact ⟨a, List.mem_cons_of_mem _ ha, hab⟩


/-- C26: when token strings are uuid strings (every stored string and every string the
generator draws has a hyphen), the broadcast takes the create-new-token branch.
(1) In a turn of the loop for a subscription `s` whose weather lookup and token
creation succeed, the lookup by the decimal id of `s` fails, the created token is the
one row added to the token table (type "unsubscribe", `SubscriptionID = s.ID`, expiry
365 days after now, not deleted), and the email carries
`AppBaseURL ++ "/api/unsubscribe/" ++` the string of that token.
(2) For the whole `SendWeatherUpdate f` on a store with unique token strings: the token
table grows by one new token per email sent, in order; each email goes to a
subscription row with the unsubscribe URL of its own new token, which references that
row; and a lookup of that string in the resulting store returns that token. -/
theorem SendWeatherUpdate_creates_tokens (env : Env)
    (huuid : ∀ n, Hyphenated (env.uuid n)) :
    (∀ (acc : DB × List Mail) (s : Subscription) (w : WeatherResponse) (tok : Token)
        (db1 : DB),
      (∀ t ∈ acc.1.tokens, Hyphenated t.Token) →
      env.GetWeather s.City = .ok w →
      TokenRepository.CreateToken env acc.1 s.ID "unsubscribe" (365 * 24 * Hour)
        = .ok (tok, db1) →
      (∃ e, TokenRepository.FindByToken env acc.1 (toString s.ID) = .error e) ∧
      sendOne env acc s =
        (⟨acc.1.subscriptions, acc.1.tokens ++ [tok]⟩,
         acc.2 ++ [Mail.SendWeatherUpdateEmail s.Email s.City w
           (env.AppBaseURL ++ "/api/unsubscribe/" ++ tok.Token)]) ∧
      tok.TokenType = "unsubscribe" ∧ tok.SubscriptionID = s.ID ∧
      tok.ExpiresAt = env.now + 365 * 24 * Hour ∧ tok.DeletedAt = none ∧
      ∀ t ∈ acc.1.tokens, t.Token ≠ tok.Token) ∧
    (∀ (db : DB) (f : String),
      (∀ t ∈ db.tokens, Hyphenated t.Token) → TokenStringsUnique db →
      ∃ toks : List Token,
        (SendWeatherUpdate env db f).db.tokens = db.tokens ++ toks ∧
        List.Forall₂ (fun m tok => ∃ s ∈ db.subscriptions, ∃ w,
            m = Mail.SendWeatherUpdateEmail s.Email s.City w
              (env.AppBaseURL ++ "/api/unsubscribe/" ++ tok.Token) ∧
            tok.TokenType = "unsubscribe" ∧ tok.SubscriptionID = s.ID ∧
            tok.ExpiresAt = env.now + 365 * 24 * Hour ∧ tok.DeletedAt = none)
          (SendWeatherUpdate env db f).mails toks ∧
        ∀ tok ∈ toks, env.fault (.FindByToken tok.Token) = none →
          TokenRepository.FindByToken env (SendWeatherUpdate env db f).db tok.Token
            = .ok tok) := by
  constructor
  · intro acc s w tok db1 hst hw hct
    obtain ⟨_, htok, hdb1, hne⟩ := CreateToken_ok_spec hct
    refine ⟨FindByToken_decimal env acc.1 s.ID hst, ?_, by rw [htok], by rw [htok],
      by rw [htok], by rw [htok], hne⟩
    rw [sendOne_creates env acc s w tok db1 hst hw hct, hdb1]
  · intro db f hst huniq
    have hres : ∃ toks : List Token,
        (SendWeatherUpdate env db f).db.tokens = db.tokens ++ toks ∧
        List.Forall₂ (fun m tok => ∃ s ∈ db.subscriptions, ∃ w,
            m = Mail.SendWeatherUpdateEmail s.Email s.City w
              (env.AppBaseURL ++ "/api/unsubscribe/" ++ tok.Token) ∧
            tok.TokenType = "unsubscribe" ∧ tok.SubscriptionID = s.ID ∧
            tok.ExpiresAt = env.now + 365 * 24 * Hour ∧ tok.DeletedAt = none)
          (SendWeatherUpdate env db f).mails toks ∧
        TokenStringsUnique (SendWeatherUpdate env db f).db := by
      unfold SendWeatherUpdate
      cases hl : SubscriptionRepository.GetSubscriptionsForUpdates env db f with
      | error e => exact ⟨[], by simp, List.Forall₂.nil, huniq⟩
      | ok subs =>
        have hsubs := GetSubscriptionsForUpdates_ok_spec hl
        obtain ⟨ms, toks, hm, htk, hall⟩ := foldl_sendOne_tokens env huuid subs (db, []) hst
        simp only [List.nil_append] at hm
        refine ⟨toks, htk, ?_, ?_⟩
        · simp only [hm]
          refine hall.imp fun m tok ⟨s, hs, hr⟩ => ⟨s, ?_, hr⟩
          rw [hsubs] at hs
          exact (List.mem_filter.mp hs).1
        · exact foldl_sendOne_inv env TokenStringsUnique subs
            (fun s _ d tok d1 hd hc => CreateToken_keeps_unique hc hd) (db, []) huniq
    obtain ⟨toks, htk, hall, hu⟩ := hres
    refine ⟨toks, htk, hall, ?_⟩
    intro tok htok hread
    obtain ⟨m, _, s, _, w, _, _, _, hexp, hlive⟩ := Forall₂_right hall tok htok
    have hmem : tok ∈ (SendWeatherUpdate env db f).db.tokens := by
      rw [htk]
      exact List.mem_append_right _ htok
    have hlt : env.now < tok.ExpiresAt := by
      rw [hexp]
      exact Nat.lt_add_of_pos_right (by decide)
    exact FindByToken_found hread hu hmem hlive hlt

theorem uuidEnv_hyphenated (n : Nat) : Hyphenated (uuidEnv.uuid n) := by
  show '-' ∈ '-' :: List.replicate n 'u'
  exact List.mem_cons_self _ _

theorem SendWeatherUpdate_creates_tokens_witness :
    ∃ toks : List Token,
      (SendWeatherUpdate uuidEnv sampleDB "daily").db.tokens = sampleDB.tokens ++ toks ∧
      List.Forall₂ (fun m tok => ∃ s ∈ sampleDB.subscriptions, ∃ w,
          m = Mail.SendWeatherUpdateEmail s.Email s.City w
            (uuidEnv.AppBaseURL ++ "/api/unsubscribe/" ++ tok.Token) ∧
          tok.TokenType = "unsubscribe" ∧ tok.SubscriptionID = s.ID ∧
          tok.ExpiresAt = uuidEnv.now + 365 * 24 * Hour ∧ tok.DeletedAt = none)
        (SendWeatherUpdate uuidEnv sampleDB "daily").mails toks ∧
      ∀ tok ∈ toks, uuidEnv.fault (.FindByToken tok.Token) = none →
        TokenRepository.FindByToken uuidEnv (SendWeatherUpdate uuidEnv sampleDB "daily").db
          tok.Token = .ok tok :=
  (SendWeatherUpdate_creates_tokens uuidEnv uuidEnv_hyphenated).2 sampleDB "daily"
    (by simp only [Hyphenated]; decide) (by decide)


/-! ## The broadcast with a weather lookup that can panic -/

theorem sendEach_turn (env : Env) (GetWeather : String → Outcome WeatherResponse)
    (acc : DB × List Mail) (a : Subscription) (rest : List Subscription)
    (r : Except Error WeatherResponse) (hr : GetWeather a.City = Outcome.ofExcept r) :
    sendEach env GetWeather acc (a :: rest) =
      sendEach env GetWeather
        (sendOne { env with GetWeather := fun _ => r } acc a) rest := by
  cases r with
  | error e =>
    simp only [Outcome.ofExcept] at hr
    simp only [sendEach, hr, sendOne]
  | ok w =>
    simp only [Outcome.ofExcept] at hr
    cases hf : TokenRepository.FindByToken env acc.1 (toString a.ID) with
    | ok token =>
      have hf2 : TokenRepository.FindByToken { env with GetWeather := fun _ => Except.ok w }
          acc.1 (toString a.ID) = .ok token := hf
      simp only [sendEach, hr, hf, sendOne, hf2]
      split <;> rfl
    | error e =>
      have hf2 : TokenRepository.FindByToken { env with GetWeather := fun _ => Except.ok w }
          acc.1 (toString a.ID) = .error e := hf
      cases hc : TokenRepository.CreateToken env acc.1 a.ID "unsubscribe"
          (365 * 24 * Hour) with
      | error e2 =>
        have hc2 : TokenRepository.CreateToken
            { env with GetWeather := fun _ => Except.ok w } acc.1 a.ID "unsubscribe"
            (365 * 24 * Hour) = .error e2 := hc
        simp only [sendEach, hr, hf, hc, sendOne, hf2, hc2]
      | ok p =>
        obtain ⟨tok, db1⟩ := p
        have hc2 : TokenRepository.CreateToken
            { env with GetWeather := fun _ => Except.ok w } acc.1 a.ID "unsubscribe"
            (365 * 24 * Hour) = .ok (tok, db1) := hc
        simp only [sendEach, hr, hf, hc, sendOne, hf2, hc2]
        split <;> rfl

theorem sendEach_panic (env : Env) (GetWeather : String → Outcome WeatherResponse)
    (acc : DB × List Mail) (a : Subscription) (rest : List Subscription)
    (hp : GetWeather a.City = .panic) :
    sendEach env GetWeather acc (a :: rest) = .panicked acc.1 acc.2 := by
  simp only [sendEach, hp]

theorem Outcome_cases {α : Type} (o : Outcome α) :
    o = .panic ∨ ∃ r : Except Error α, o = Outcome.ofExcept r := by
  cases o with
  | ok a => exact Or.inr ⟨.ok a, rfl⟩
  | error e => exact Or.inr ⟨.error e, rfl⟩
  | panic => exact Or.inl rfl

theorem sendEach_returns (env : Env) (GetWeather : String → Outcome WeatherResponse)
    (subs : List Subscription) (h : ∀ s ∈ subs, GetWeather s.City ≠ .panic) :
    ∀ acc : DB × List Mail, ∃ db1 mails,
      sendEach env GetWeather acc subs = .returned ⟨none, db1, mails⟩ := by
  induction subs with
  | nil => intro acc; exact ⟨acc.1, acc.2, rfl⟩
  | cons a t ih =>
    intro acc
    rcases Outcome_cases (GetWeather a.City) with hp | ⟨r, hr⟩
    · exact absurd hp (h a (List.mem_cons_self a t))
    · rw [sendEach_turn env GetWeather acc a t r hr]
      exact ih (fun s hs => h s (List.mem_cons_of_mem a hs)) _

theorem sendEach_panics (env : Env) (GetWeather : String → Outcome WeatherResponse)
    (subs : List Subscription) (h : ∃ s ∈ subs, GetWeather s.City = .panic) :
    ∀ acc : DB × List Mail, ∃ db1 mails,
      sendEach env GetWeather acc subs = .panicked db1 mails := by
  induction subs with
  | nil =>
    obtain ⟨s, hs, _⟩ := h
    cases hs
  | cons a t ih =>
    intro acc
    rcases Outcome_cases (GetWeather a.City) with hp | ⟨r, hr⟩
    · exact ⟨acc.1, acc.2, sendEach_panic env GetWeather acc a t hp⟩
    · rw [sendEach_turn env GetWeather acc a t r hr]
      apply ih
      obtain ⟨s, hs, hsp⟩ := h
      rcases List.mem_cons.mp hs with hs | hs
      · subst hs
        rw [hr] at hsp
        cases r <;> cases hsp
      · exact ⟨s, hs, hsp⟩

theorem sendEach_agrees (env : Env) (GetWeather : String → Outcome WeatherResponse)
    (subs : List Subscription)
    (h : ∀ s ∈ subs, GetWeather s.City = Outcome.ofExcept (env.GetWeather s.City)) :
    ∀ acc : DB × List Mail,
      sendEach env GetWeather acc subs =
        .returned ⟨none, (subs.foldl (sendOne env) acc).1, (subs.foldl (sendOne env) acc).2⟩ := by
  induction subs with
  | nil => intro acc; rfl
  | cons a t ih =>
    intro acc
    have hone : sendOne { env with GetWeather := fun _ => env.GetWeather a.City } acc a
        = sendOne env acc a := rfl
    rw [sendEach_turn env GetWeather acc a t _ (h a (List.mem_cons_self a t)), hone,
      List.foldl_cons]
    exact ih (fun s hs => h s (List.mem_cons_of_mem a hs)) _


theorem SendWeatherUpdateCall_agrees (env : Env)
    (GetWeather : String → Outcome WeatherResponse) (db : DB) (frequency : String)
    (h : ∀ city, GetWeather city = Outcome.ofExcept (env.GetWeather city)) :
    SendWeatherUpdateCall env GetWeather db frequency
      = .returned (SendWeatherUpdate env db frequency) := by
  unfold SendWeatherUpdateCall SendWeatherUpdate
  cases SubscriptionRepository.GetSubscriptionsForUpdates env db frequency with
  | error e => rfl
  | ok subs => exact sendEach_agrees env GetWeather subs (fun s _ => h s.City) (db, [])

/-- C9 (amended): for every frequency, every behaviour of the stores and the notifier
(failures included) and every behaviour of the weather lookup (a reading, an error or
a panic), a call of `SendWeatherUpdate` ends in one of three ways.  (1) When the
initial listing fails, it returns the error of the listing, with nothing stored or
sent.  (2) When the listing succeeds and the lookup panics for the city of no listed
subscription, it returns no error, whatever the token store, the lookup and the
notifier do inside the loop.  (3) When the listing succeeds and the lookup panics for
the city of a listed subscription, the call does not return: the panic reaches the
caller. -/
theorem SendWeatherUpdateCall_ending (env : Env)
    (GetWeather : String → Outcome WeatherResponse) (db : DB) (frequency : String) :
    (∀ e, SubscriptionRepository.GetSubscriptionsForUpdates env db frequency = .error e →
      SendWeatherUpdateCall env GetWeather db frequency = .returned ⟨some e, db, []⟩) ∧
    (∀ subs, SubscriptionRepository.GetSubscriptionsForUpdates env db frequency = .ok subs →
      ((∀ s ∈ subs, GetWeather s.City ≠ .panic) →
        ∃ db1 mails,
          SendWeatherUpdateCall env GetWeather db frequency = .returned ⟨none, db1, mails⟩) ∧
      ((∃ s ∈ subs, GetWeather s.City = .panic) →
        ∃ db1 mails,
          SendWeatherUpdateCall env GetWeather db frequency = .panicked db1 mails)) := by
  refine ⟨?_, ?_⟩
  · intro e he
    simp only [SendWeatherUpdateCall, he]
  · intro subs hs
    constructor
    · intro h
      simp only [SendWeatherUpdateCall, hs]
      exact sendEach_returns env GetWeather subs h (db, [])
    · intro h
      simp only [SendWeatherUpdateCall, hs]
      exact sendEach_panics env GetWeather subs h (db, [])

theorem SendWeatherUpdateCall_ending_witness :
    SendWeatherUpdateCall listFaultEnv brokenLookup broadcastDB "daily"
      = .returned ⟨some "connection refused", broadcastDB, []⟩ ∧
    (∃ db1 mails, SendWeatherUpdateCall sampleEnv brokenLookup sampleDB "daily"
      = .returned ⟨none, db1, mails⟩) ∧
    (∃ db1 mails, SendWeatherUpdateCall sampleEnv brokenLookup broadcastDB "daily"
      = .panicked db1 mails) :=
  ⟨(SendWeatherUpdateCall_ending listFaultEnv brokenLookup broadcastDB "daily").1
      "connection refused" rfl,
   ((SendWeatherUpdateCall_ending sampleEnv brokenLookup sampleDB "daily").2
      [{ ID := 1, Email := "a@x.com", City := "Lima", Frequency := "daily",
         Confirmed := true, CreatedAt := 10, UpdatedAt := 20, DeletedAt := none }] rfl).1
      (by decide),
   ((SendWeatherUpdateCall_ending sampleEnv brokenLookup broadcastDB "daily").2
      broadcastDB.subscriptions rfl).2
      ⟨{ ID := 2, Email := "b@x.com", City := "Atlantis", Frequency := "daily",
         Confirmed := true, CreatedAt := 30, UpdatedAt := 40, DeletedAt := none },
       by decide, rfl⟩⟩


/-- On the three-row cohort with the provider that answers for Atlantis without
`temp_c`: the Lima turn is carried out (token stored, email attempted), the lookup for
Atlantis panics, and the Kyiv subscription listed after it is never reached. -/
theorem SendWeatherUpdateCall_panics_mid_loop :
    SendWeatherUpdateCall sampleEnv brokenLookup broadcastDB "daily" =
      .panicked
        { broadcastDB with tokens :=
            [{ ID := 1, Token := "uuu", SubscriptionID := 1, TokenType := "unsubscribe",
               ExpiresAt := 1000 + 365 * 24 * Hour, CreatedAt := 1000, DeletedAt := none }] }
        [Mail.SendWeatherUpdateEmail "a@x.com" "Lima"
          { Temperature := 15, Humidity := 76, Description := "Partly cloudy" }
          "http://localhost:8080/api/unsubscribe/uuu"] := by
  decide

end WeatherApi
